import Mathlib

/-!
# Reconciliation core of the KieApp controller

A shallow embedding of `pkg/controller/kieapp/kieapp_controller.go`.

Conventions of the embedding:

* Go structs become Lean structures with the Go field names; embedded structs
  (`TypeMeta`, `ObjectMeta`) become parent structures, so `cm.Name` reads as in Go.
* A Go pointer field that the code tests against `nil` is an `Option`.
* A Go slice is a `List`; a Go `map[string]V` is the list of its entries (`GoMap V`),
  looked up with `GoMap.get`, which yields the zero value of `V` for a missing key.
  `reflect.DeepEqual` is structural equality of these representations.
* Code that can panic (a nil dereference) returns `Option`, `none` being the panic.
* Calls into the cluster (the Store) and into the resource writer are explicit
  arguments; functions that perform such calls return, next to their Go results,
  the list of calls they made, in order.
-/

namespace kieapp

/-! ## Data model -/

/-- Bytes of a secret entry (`[]byte`). -/
abbrev Bytes := List Nat

/-- Entries of a Go `map[string]V`. -/
abbrev GoMap (V : Type) := List (String × V)

/-- Indexing `m[k]` of a Go map with string values: the empty string for a missing key. -/
def GoMap.get (m : GoMap String) (k : String) : String :=
  (m.lookup k).getD ""

/-- Indexing `m[k]` of a Go map with byte-slice values: `none` is the nil slice. -/
def GoMap.getBytes (m : GoMap Bytes) (k : String) : Option Bytes :=
  m.lookup k

/-- Kubernetes `metav1.TypeMeta`. -/
structure TypeMeta where
  Kind : String
  APIVersion : String
deriving DecidableEq, Repr

/-- Kubernetes `metav1.OwnerReference`. -/
structure OwnerReference where
  RefKind : String
  RefName : String
  UID : String
deriving DecidableEq, Repr

/-- Kubernetes `metav1.ObjectMeta`. -/
structure ObjectMeta where
  Name : String
  Namespace : String
  Labels : GoMap String
  Annotations : GoMap String
  UID : String
  ResourceVersion : String
  OwnerReferences : List OwnerReference
deriving DecidableEq, Repr

/-- Kubernetes `corev1.ObjectReference`. -/
structure ObjectReference where
  Kind : String
  Namespace : String
  Name : String
deriving DecidableEq, Repr

/-- OpenShift `DeploymentTriggerImageChangeParams`. -/
structure DeploymentTriggerImageChangeParams where
  Automatic : Bool
  ContainerNames : List String
  From : ObjectReference
  LastTriggeredImage : String
deriving DecidableEq, Repr

/-- OpenShift `DeploymentTriggerPolicy`; `ImageChangeParams` is a pointer in Go. -/
structure DeploymentTriggerPolicy where
  Type_ : String
  ImageChangeParams : Option DeploymentTriggerImageChangeParams
deriving DecidableEq, Repr

/-- Kubernetes `corev1.SecretVolumeSource`. -/
structure SecretVolumeSource where
  SecretName : String
deriving DecidableEq, Repr

/-- Kubernetes `corev1.Volume`; `Secret` is a pointer in Go. -/
structure Volume where
  Name : String
  Secret : Option SecretVolumeSource
deriving DecidableEq, Repr

/-- Kubernetes `corev1.Container`. -/
structure Container where
  Name : String
  Image : String
deriving DecidableEq, Repr

/-- Kubernetes `corev1.PodSpec`. -/
structure PodSpec where
  Volumes : List Volume
  Containers : List Container
deriving DecidableEq, Repr

/-- Kubernetes `corev1.PodTemplateSpec`. -/
structure PodTemplateSpec where
  Spec : PodSpec
deriving DecidableEq, Repr

/-- OpenShift `DeploymentConfigSpec`; `Template` is a pointer in Go. -/
structure DeploymentConfigSpec where
  Replicas : Int
  Triggers : List DeploymentTriggerPolicy
  Template : Option PodTemplateSpec
deriving DecidableEq, Repr

/-- OpenShift `DeploymentConfig`. -/
structure DeploymentConfig extends TypeMeta, ObjectMeta where
  Spec : DeploymentConfigSpec
deriving DecidableEq, Repr

/-- OpenShift `SourceBuildStrategy`. -/
structure SourceBuildStrategy where
  From : ObjectReference
  ForcePull : Bool
deriving DecidableEq, Repr

/-- OpenShift `BuildStrategy`; `SourceStrategy` is a pointer in Go. -/
structure BuildStrategy where
  Type_ : String
  SourceStrategy : Option SourceBuildStrategy
deriving DecidableEq, Repr

/-- OpenShift `BuildTriggerPolicy`. -/
structure BuildTriggerPolicy where
  Type_ : String
  WebHookSecret : String
deriving DecidableEq, Repr

/-- OpenShift `BuildConfigSpec`. -/
structure BuildConfigSpec where
  Triggers : List BuildTriggerPolicy
  Strategy : BuildStrategy
deriving DecidableEq, Repr

/-- OpenShift `BuildConfig`. -/
structure BuildConfig extends TypeMeta, ObjectMeta where
  Spec : BuildConfigSpec
deriving DecidableEq, Repr

/-- Kubernetes `corev1.ConfigMap`. -/
structure ConfigMap extends TypeMeta, ObjectMeta where
  Data : GoMap String
  BinaryData : GoMap Bytes
deriving DecidableEq, Repr

/-- Kubernetes `corev1.Secret`. -/
structure Secret extends TypeMeta, ObjectMeta where
  Type_ : String
  Data : GoMap Bytes
deriving DecidableEq, Repr

/-- OpenShift `routev1.TLSConfig`. -/
structure TLSConfig where
  Termination : String
deriving DecidableEq, Repr

/-- OpenShift `routev1.RouteSpec`; `TLS` is a pointer in Go. -/
structure RouteSpec where
  Host : String
  TLS : Option TLSConfig
deriving DecidableEq, Repr

/-- OpenShift `routev1.Route`. -/
structure Route extends TypeMeta, ObjectMeta where
  Spec : RouteSpec
deriving DecidableEq, Repr

/-- Conversion `[]byte(s)` of a string to its UTF-8 bytes. -/
def stringBytes (s : String) : Bytes :=
  s.toList.flatMap (fun c => (String.utf8EncodeChar c).map UInt8.toNat)

/-- A resource of a kind whose payload the controller never inspects (persistent volume
claim, service account, role, role binding, service, stateful set, image stream,
console link). -/
structure GenericResource extends TypeMeta, ObjectMeta where
deriving DecidableEq, Repr

/-- A managed resource behind the `client.Object` interface. -/
inductive Object where
  | deploymentConfig (x : DeploymentConfig)
  | buildConfig (x : BuildConfig)
  | configMap (x : ConfigMap)
  | secret (x : Secret)
  | route (x : Route)
  | generic (goType : String) (x : GenericResource)
deriving DecidableEq, Repr

/-- A sub-component descriptor, `api.CustomObject`. -/
structure CustomObject where
  Omit : Bool
  PersistentVolumeClaims : List GenericResource
  ServiceAccounts : List GenericResource
  Secrets : List Secret
  Roles : List GenericResource
  RoleBindings : List GenericResource
  DeploymentConfigs : List DeploymentConfig
  Services : List GenericResource
  StatefulSets : List GenericResource
  Routes : List Route
  ImageStreams : List GenericResource
  BuildConfigs : List BuildConfig
  ConfigMaps : List ConfigMap
deriving DecidableEq, Repr

/-- The desired-state description, `api.Environment`. -/
structure Environment where
  Console : CustomObject
  Dashbuilder : CustomObject
  Servers : List CustomObject
  SmartRouter : CustomObject
  ProcessMigration : CustomObject
  Databases : List CustomObject
  Others : List CustomObject
deriving DecidableEq, Repr

/-- The registry settings `api.KieAppRegistry`. -/
structure KieAppRegistry where
  Registry : String
  Insecure : Bool
deriving DecidableEq, Repr

/-- An external reference `api.ObjRef`. -/
structure ObjRef where
  Kind : String
  Name : String
deriving DecidableEq, Repr

/-- The git hooks settings `api.GitHooksVolume`; `From` is a pointer in Go. -/
structure GitHooksVolume where
  From : Option ObjRef
deriving DecidableEq, Repr

/-- The console settings `api.ConsoleObject`; `GitHooks` is a pointer in Go. -/
structure ConsoleObject where
  KeystoreSecret : String
  GitHooks : Option GitHooksVolume
deriving DecidableEq, Repr

/-- The dashbuilder settings `api.DashbuilderObject`. -/
structure DashbuilderObject where
  KeystoreSecret : String
deriving DecidableEq, Repr

/-- The smart router settings `api.SmartRouterObject`. -/
structure SmartRouterObject where
  KeystoreSecret : String
deriving DecidableEq, Repr

/-- A server set `api.KieServerSet`. -/
structure KieServerSet where
  Name : String
  Deployments : Option Int
  KeystoreSecret : String
deriving DecidableEq, Repr

/-- The role mapper settings `api.RoleMapperAuthConfig`; `From` is a pointer in Go. -/
structure RoleMapperAuthConfig where
  From : Option ObjRef
deriving DecidableEq, Repr

/-- The authentication settings `api.KieAppAuthObject`; `RoleMapper` is a pointer in Go. -/
structure KieAppAuthObject where
  RoleMapper : Option RoleMapperAuthConfig
deriving DecidableEq, Repr

/-- The configured components `api.KieAppObjects`; the single components are pointers in Go. -/
structure KieAppObjects where
  Console : Option ConsoleObject
  Dashbuilder : Option DashbuilderObject
  Servers : List KieServerSet
  SmartRouter : Option SmartRouterObject
deriving DecidableEq, Repr

/-- The settings `api.CommonConfig` shared by the components. -/
structure CommonConfig where
  ApplicationName : String
  KeyStorePassword : String
  DisableSsl : Bool
deriving DecidableEq, Repr

/-- The specification `api.KieAppSpec` of a CR; `ImageRegistry` and `Auth` are pointers in Go. -/
structure KieAppSpec where
  Environment : String
  ImageRegistry : Option KieAppRegistry
  Objects : KieAppObjects
  CommonConfig : kieapp.CommonConfig
  Auth : Option KieAppAuthObject
  UseImageTags : Bool
  ScheduledImportPolicy : Bool
  Version : String
deriving DecidableEq, Repr

/-- The status `api.KieAppStatus` of a CR. -/
structure KieAppStatus where
  Applied : KieAppSpec
  ConsoleHost : String
  Phase : String
deriving DecidableEq, Repr

/-- The custom resource `api.KieApp`. -/
structure KieApp extends TypeMeta, ObjectMeta where
  Spec : KieAppSpec
  Status : KieAppStatus
deriving DecidableEq, Repr

/-- Constants of the packages `constants` and `api` that the controller refers to.
`KeystoreSecret name` is `fmt.Sprintf(constants.KeystoreSecret, name)`. -/
structure Constants where
  KeystoreName : String
  RhpamStandaloneDashbuilder : String
  ImageRegistry : String
  TruststoreSecret : String
  TruststoreName : String
  CaBundleKey : String
  KeystoreSecret : String → String

/-- A Go `error` as the API machinery reports it: a status reason and a message. -/
structure Error where
  Reason : String
  Message : String
deriving DecidableEq, Repr

/-- Kubernetes `errors.IsNotFound`. -/
def Error.IsNotFound (err : Error) : Bool :=
  err.Reason == "NotFound"

/-- Kubernetes `errors.IsAlreadyExists`. -/
def Error.IsAlreadyExists (err : Error) : Bool :=
  err.Reason == "AlreadyExists"

/-- Key of the per-kind resource maps (`reflect.Type`), by the name of the Go type. -/
abbrev ResourceType := String

/-- The Go type behind a `client.Object`. -/
def Object.goType : Object → ResourceType
  | .deploymentConfig _ => "DeploymentConfig"
  | .buildConfig _ => "BuildConfig"
  | .configMap _ => "ConfigMap"
  | .secret _ => "Secret"
  | .route _ => "Route"
  | .generic goType _ => goType

/-- The method `SetNamespace` of a `client.Object`. -/
def Object.SetNamespace (resource : Object) (ns : String) : Object :=
  match resource with
  | .deploymentConfig x => .deploymentConfig { x with Namespace := ns }
  | .buildConfig x => .buildConfig { x with Namespace := ns }
  | .configMap x => .configMap { x with Namespace := ns }
  | .secret x => .secret { x with Namespace := ns }
  | .route x => .route { x with Namespace := ns }
  | .generic goType x => .generic goType { x with Namespace := ns }

/-- The map `map[reflect.Type][]client.Object` of resources by kind. -/
abbrev ResourceMap := List (ResourceType × List Object)

/-- Indexing `deployed[resourceType]`: the nil slice for a missing kind. -/
def ResourceMap.get (m : ResourceMap) (resourceType : ResourceType) : List Object :=
  (m.lookup resourceType).getD []

/-- The `compare.ResourceDelta` of one kind. -/
structure ResourceDelta where
  Added : List Object
  Updated : List Object
  Removed : List Object
deriving DecidableEq, Repr

/-- Modelled from the spec: `ResourceDelta.HasChanges` of operator-utils, the delta of the
kind is non-empty. -/
def ResourceDelta.HasChanges (delta : ResourceDelta) : Bool :=
  decide (delta.Added.length > 0) || decide (delta.Updated.length > 0) ||
    decide (delta.Removed.length > 0)

/-- The resource writer of operator-utils (`write.New(...).WithOwnerController(...)`) over
a cluster state `σ`: each call reports whether it changed something and an error. -/
structure ResourceWriter (σ : Type) where
  AddResources : List Object → σ → (Bool × Option Error) × σ
  UpdateResources : List Object → List Object → σ → (Bool × Option Error) × σ
  RemoveResources : List Object → σ → (Bool × Option Error) × σ

/-- A call to the resource writer, with its arguments. -/
inductive WriterCall where
  | AddResources (resources : List Object)
  | UpdateResources (existing resources : List Object)
  | RemoveResources (resources : List Object)
deriving DecidableEq, Repr

/-- A call made to the resource writer together with what the writer returned. -/
structure WriterEvent where
  call : WriterCall
  changed : Bool
  err : Option Error
deriving DecidableEq, Repr

/-! ## Resource comparator (`getComparator`) -/

/-- Modelled from the spec: the default comparator of a kind, "deep structural equality"
(`compare.DefaultComparator()` belongs to the operator-utils library). -/
def deepEquals {α : Type} [DecidableEq α] (deployed requested : α) : Bool :=
  decide (deployed = requested)

/-- Body of the trigger loop of the DeploymentConfig comparator for one index: when both
sides carry image-change parameters and the requested namespace is empty, the deployed
namespace is cleared (through the shared `ImageChangeParams` pointer). -/
def maskTrigger (trigger1 trigger2 : DeploymentTriggerPolicy) : DeploymentTriggerPolicy :=
  match trigger2.ImageChangeParams, trigger1.ImageChangeParams with
  | some p2, some p1 =>
    if p2.From.Namespace = "" then
      { trigger1 with ImageChangeParams := some { p1 with From := { p1.From with Namespace := "" } } }
    else trigger1
  | _, _ => trigger1

/-- The loop `for i := range dc1.Spec.Triggers` of the DeploymentConfig comparator:
`none` is the early `return false` taken when the requested list is too short, otherwise
the deployed triggers as the loop leaves them. -/
def maskTriggers : List DeploymentTriggerPolicy → List DeploymentTriggerPolicy →
    Option (List DeploymentTriggerPolicy)
  | [], _ => some []
  | _ :: _, [] => none
  | trigger1 :: rest1, trigger2 :: rest2 =>
    (maskTriggers rest1 rest2).map (fun rest => maskTrigger trigger1 trigger2 :: rest)

/-- The DeploymentConfig comparator installed by `getComparator`, over the default
comparator it wraps. -/
def dcComparator (defaultDCComparator : DeploymentConfig → DeploymentConfig → Bool)
    (deployed requested : DeploymentConfig) : Bool :=
  match maskTriggers deployed.Spec.Triggers requested.Spec.Triggers with
  | none => false
  | some triggers =>
    defaultDCComparator { deployed with Spec := { deployed.Spec with Triggers := triggers } } requested

/-- The BuildConfig comparator installed by `getComparator`, over the default comparator
it wraps. `none` is the nil dereference of `bc2.Spec.Strategy.SourceStrategy`. -/
def bcComparator (defaultBCComparator : BuildConfig → BuildConfig → Bool)
    (deployed requested : BuildConfig) : Option Bool :=
  let bc2 := requested
  let masked : Option BuildConfig :=
    match deployed.Spec.Strategy.SourceStrategy with
    | none => some deployed
    | some s1 =>
      match bc2.Spec.Strategy.SourceStrategy with
      | none => none
      | some s2 =>
        some { deployed with
          Spec := { deployed.Spec with
            Strategy := { deployed.Spec.Strategy with
              SourceStrategy := some { s1 with From := { s1.From with Namespace := s2.From.Namespace } } } } }
  match masked with
  | none => none
  | some bc1 =>
    let bc1 :=
      if bc1.Spec.Triggers.length > 0 ∧ bc2.Spec.Triggers.length = 0 then
        { bc1 with Spec := { bc1.Spec with Triggers := bc2.Spec.Triggers } }
      else bc1
    some (defaultBCComparator bc1 requested)

/-- A dynamically typed value handed to `compare.EqualPairs` (`interface{}`). -/
inductive Value where
  | str (s : String)
  | strMap (m : GoMap String)
  | bytesMap (m : GoMap Bytes)
deriving DecidableEq, Repr

/-- Modelled from the spec: `compare.Equals` of operator-utils, deep structural equality
of two values. -/
def Equals (deployed requested : Value) : Bool :=
  decide (deployed = requested)

/-- Modelled from the spec: `compare.EqualPairs` of operator-utils, every pair is equal. -/
def EqualPairs (pairs : List (Value × Value)) : Bool :=
  pairs.all (fun pair => Equals pair.1 pair.2)

/-- Label that marks a config map whose data the platform injects. -/
def injectCABundleLabel : String := "config.openshift.io/inject-trusted-cabundle"

/-- The pairs the ConfigMap comparator collects before calling `EqualPairs`. -/
def configMapPairs (configMap1 configMap2 : ConfigMap) : List (Value × Value) :=
  let pairs : List (Value × Value) := []
  let pairs := pairs ++ [(Value.str configMap1.Name, Value.str configMap2.Name)]
  let pairs := pairs ++ [(Value.str configMap1.Namespace, Value.str configMap2.Namespace)]
  let pairs := pairs ++ [(Value.strMap configMap1.Labels, Value.strMap configMap2.Labels)]
  let pairs := pairs ++ [(Value.strMap configMap1.Annotations, Value.strMap configMap2.Annotations)]
  if configMap1.Labels.get injectCABundleLabel ≠ "true" then
    let pairs := pairs ++ [(Value.strMap configMap1.Data, Value.strMap configMap2.Data)]
    pairs ++ [(Value.bytesMap configMap1.BinaryData, Value.bytesMap configMap2.BinaryData)]
  else pairs

/-- The ConfigMap comparator installed by `getComparator`. -/
def configMapComparator (deployed requested : ConfigMap) : Bool :=
  EqualPairs (configMapPairs deployed requested)

/-! ## Differ/Applier (`reconcileResources`) -/

/-- The loop `for resourceType, delta := range deltas` of `reconcileResources`, over the
deltas in the order the loop visits them, from the current value of `hasUpdates`. Returns
the Go results `(bool, error)`, the cluster state and the writer calls made, in order. -/
def reconcileDeltas {σ : Type} (writer : ResourceWriter σ) (deployed : ResourceMap) :
    List (ResourceType × ResourceDelta) → Bool → σ →
      (Bool × Option Error) × σ × List WriterEvent
  | [], hasUpdates, s => ((hasUpdates, none), s, [])
  | (resourceType, delta) :: rest, hasUpdates, s =>
    if !delta.HasChanges then
      reconcileDeltas writer deployed rest hasUpdates s
    else
      match writer.AddResources delta.Added s with
      | ((added, some err), s1) =>
        ((false, some err), s1, [⟨.AddResources delta.Added, added, some err⟩])
      | ((added, none), s1) =>
        let addEvent : WriterEvent := ⟨.AddResources delta.Added, added, none⟩
        match writer.UpdateResources (deployed.get resourceType) delta.Updated s1 with
        | ((updated, some err), s2) =>
          ((false, some err), s2,
            [addEvent,
             ⟨.UpdateResources (deployed.get resourceType) delta.Updated, updated, some err⟩])
        | ((updated, none), s2) =>
          let updateEvent : WriterEvent :=
            ⟨.UpdateResources (deployed.get resourceType) delta.Updated, updated, none⟩
          match writer.RemoveResources delta.Removed s2 with
          | ((removed, some err), s3) =>
            ((false, some err), s3,
              [addEvent, updateEvent, ⟨.RemoveResources delta.Removed, removed, some err⟩])
          | ((removed, none), s3) =>
            let removeEvent : WriterEvent := ⟨.RemoveResources delta.Removed, removed, none⟩
            let (result, s4, events) :=
              reconcileDeltas writer deployed rest (hasUpdates || added || updated || removed) s3
            (result, s4, addEvent :: updateEvent :: removeEvent :: events)

/-- The function `reconcileResources`. The argument `writer` is the writer the function
builds for `ownerController`; the argument `compare` stands for
`getComparator().Compare(deployed, requested)` on the map built from `requestedResources`
(operator-utils), listed in the order the range loop visits the kinds. -/
def reconcileResources {σ : Type} (writer : ResourceWriter σ)
    (compare : ResourceMap → List Object → List (ResourceType × ResourceDelta))
    (requestedResources : List Object) (deployed : ResourceMap) (s : σ) :
    (Bool × Option Error) × σ × List WriterEvent :=
  let deltas := compare deployed requestedResources
  reconcileDeltas writer deployed deltas false s

/-- The writer calls of one kind, applied in the order Added, Updated, Removed. -/
def plannedCallsOfKind (deployed : ResourceMap) (entry : ResourceType × ResourceDelta) :
    List WriterCall :=
  [.AddResources entry.2.Added,
   .UpdateResources (deployed.get entry.1) entry.2.Updated,
   .RemoveResources entry.2.Removed]

/-- The writer calls of a complete pass: those of every kind whose delta has changes. -/
def plannedCalls (deployed : ResourceMap) (deltas : List (ResourceType × ResourceDelta)) :
    List WriterCall :=
  (deltas.filter (fun entry => entry.2.HasChanges)).flatMap (plannedCallsOfKind deployed)

/-! ## The reconcile pass (`Reconcile`) -/

/-- The request `reconcile.Request`, the namespaced name of the CR. -/
structure Request where
  Name : String
  Namespace : String
deriving DecidableEq, Repr

/-- The result `reconcile.Result`; `RequeueAfter` is a `time.Duration`, in nanoseconds. -/
structure Result where
  Requeue : Bool
  RequeueAfter : Nat
deriving DecidableEq, Repr

/-- The constant `time.Millisecond`. -/
def Millisecond : Nat := 1000000

/-- The failure reasons `api.ReasonType` that `Reconcile` reports. -/
inductive ReasonType where
  | UnknownReason
  | ConfigurationErrorReason
  | MissingDependenciesReason
deriving DecidableEq, Repr

/-- What `Reconcile` calls, over a cluster state `σ`: the Store, the libraries
(operator-utils, packages `defaults` and `status`) and the functions of the controller
that are not unfolded here. Reads are functions of the state, writes return the new
state; a function that changes the CR it is handed returns the CR as well. -/
structure Platform (σ : Type) where
  embeddedFiles : σ → σ
  GetInstance : Request → σ → Except Error KieApp
  getDeployedResources : KieApp → σ → Except Error ResourceMap
  setFailedStatus : KieApp → ReasonType → Error → σ → KieApp × σ
  GetEnvironment : KieApp → σ → KieApp × Except Error Environment
  verifyExternalReferences : KieApp → σ → Option Error
  ListRoutes : KieApp → σ → Except Error (List Object)
  CompareArrays : List Object → List Object → ResourceDelta
  writer : KieApp → ResourceWriter σ
  compare : ResourceMap → List Object → List (ResourceType × ResourceDelta)
  IsOcpCA : KieApp → Bool
  GetCAConfigMap : KieApp → σ → Except Error ConfigMap
  setEnvironmentProperties :
    KieApp → Environment → List Object → ConfigMap → σ → KieApp × Except Error Environment
  getKubernetesResources : KieApp → Environment → σ → List Object × σ
  setDeploymentStatus : KieApp → List Object → KieApp
  checkKieServerConfigMap : KieApp → Environment → σ → σ
  GetCached : Request → σ → Except Error KieApp
  checkStatus : KieApp → KieApp → Bool → σ → (Result × Option Error) × σ

/-- A step of a reconcile pass, in the order of the calls of `Reconcile`. -/
inductive Step where
  | embeddedFiles
  | getInstance
  | getEnvironment
  | verifyExternalReferences
  | listRoutes
  | addRoutes (event : WriterEvent)
  | getCAConfigMap
  | setEnvironmentProperties
  | getKubernetesResources
  | getDeployedResources
  | setDeploymentStatus
  | reconcileResources (events : List WriterEvent)
  | checkKieServerConfigMap
  | getCached
  | checkStatus (hasUpdates : Bool)
  | setFailedStatus (reason : ReasonType)
deriving DecidableEq, Repr

/-- The function `getCustomObjects`. -/
def getCustomObjects (env : Environment) : List CustomObject :=
  let objects : List CustomObject := []
  let objects := objects ++ [env.Console]
  let objects := objects ++ [env.Dashbuilder]
  let objects := objects ++ env.Servers
  let objects := objects ++ [env.SmartRouter]
  let objects := objects ++ [env.ProcessMigration]
  let objects := objects ++ env.Databases
  objects ++ env.Others

/-- The function `filterOmittedObjects`. -/
def filterOmittedObjects (objects : List CustomObject) : List CustomObject :=
  objects.filter (fun object => !object.Omit)

/-- What `getRequestedRoutes` does to one route: it sets the kind and the namespace. -/
def stampRoute (inst : KieApp) (route : Route) : Route :=
  { route with Kind := "Route", APIVersion := "route.openshift.io/v1",
               Namespace := inst.Namespace }

/-- The routes of a sub-component after `getRequestedRoutes`: the routes of a descriptor
that is not omitted are stamped in place (the slices are shared with the environment). -/
def stampRoutesOf (inst : KieApp) (object : CustomObject) : CustomObject :=
  if object.Omit then object
  else { object with Routes := object.Routes.map (stampRoute inst) }

/-- The function `getRequestedRoutes`: the requested routes, and the environment as the
function leaves it. -/
def getRequestedRoutes (env : Environment) (inst : KieApp) : List Object × Environment :=
  let objects := filterOmittedObjects (getCustomObjects env)
  let requestedRoutes :=
    objects.flatMap (fun object => object.Routes.map (fun route =>
      Object.route (stampRoute inst route)))
  (requestedRoutes,
    { Console := stampRoutesOf inst env.Console,
      Dashbuilder := stampRoutesOf inst env.Dashbuilder,
      Servers := env.Servers.map (stampRoutesOf inst),
      SmartRouter := stampRoutesOf inst env.SmartRouter,
      ProcessMigration := stampRoutesOf inst env.ProcessMigration,
      Databases := env.Databases.map (stampRoutesOf inst),
      Others := env.Others.map (stampRoutesOf inst) })

/-- The function `isNamespaced`. -/
def isNamespaced (resource : Object) : Bool :=
  resource.goType != "ConsoleLink"

/-- The zero value `corev1.ConfigMap{}`. -/
def zeroConfigMap : ConfigMap :=
  { Kind := "", APIVersion := "", Name := "", Namespace := "", Labels := [], Annotations := [],
    UID := "", ResourceVersion := "", OwnerReferences := [], Data := [], BinaryData := [] }

/-- The zero value `api.KieApp{}`. -/
def zeroKieApp : KieApp :=
  let spec : KieAppSpec :=
    { Environment := "", ImageRegistry := none,
      Objects := { Console := none, Dashbuilder := none, Servers := [], SmartRouter := none },
      CommonConfig := { ApplicationName := "", KeyStorePassword := "", DisableSsl := false },
      Auth := none, UseImageTags := false, ScheduledImportPolicy := false, Version := "" }
  { Kind := "", APIVersion := "", Name := "", Namespace := "", Labels := [], Annotations := [],
    UID := "", ResourceVersion := "", OwnerReferences := [],
    Spec := spec, Status := { Applied := spec, ConsoleHost := "", Phase := "" } }

/-- The short fixed requeue `Result{Requeue: true, RequeueAfter: 500ms}`. -/
def requeueShortly : Result :=
  { Requeue := true, RequeueAfter := 500 * Millisecond }

/-- The empty result `reconcile.Result{}`. -/
def noRequeue : Result :=
  { Requeue := false, RequeueAfter := 0 }

/-- The end of `Reconcile`, from "Create a list of objects that should be deployed" on:
the full diff/apply and the status update. -/
def reconcileApply {σ : Type} (p : Platform σ) (request : Request) (inst : KieApp)
    (env : Environment) (s : σ) : (Result × Option Error) × σ × List Step :=
  let (requestedResources, s1) := p.getKubernetesResources inst env s
  let requestedResources := requestedResources.map (fun resource =>
    if isNamespaced resource then resource.SetNamespace inst.Namespace else resource)
  match p.getDeployedResources inst s1 with
  | .error err =>
    let (_, s2) := p.setFailedStatus inst .UnknownReason err s1
    ((noRequeue, some err), s2,
      [.getKubernetesResources, .getDeployedResources, .setFailedStatus .UnknownReason])
  | .ok deployed =>
    let inst := p.setDeploymentStatus inst (deployed.get "DeploymentConfig")
    match reconcileResources (p.writer inst) p.compare requestedResources deployed s1 with
    | ((_, some err), s2, events) =>
      ((noRequeue, some err), s2,
        [.getKubernetesResources, .getDeployedResources, .setDeploymentStatus,
         .reconcileResources events])
    | ((hasUpdates, none), s2, events) =>
      let s3 := p.checkKieServerConfigMap inst env s2
      match p.GetCached request s3 with
      | .error err =>
        if err.IsNotFound then
          ((noRequeue, none), s3,
            [.getKubernetesResources, .getDeployedResources, .setDeploymentStatus,
             .reconcileResources events, .checkKieServerConfigMap, .getCached])
        else
          let (_, s4) := p.setFailedStatus inst .UnknownReason err s3
          ((noRequeue, some err), s4,
            [.getKubernetesResources, .getDeployedResources, .setDeploymentStatus,
             .reconcileResources events, .checkKieServerConfigMap, .getCached,
             .setFailedStatus .UnknownReason])
      | .ok cachedInstance =>
        let (result, s4) := p.checkStatus inst cachedInstance hasUpdates s3
        (result, s4,
          [.getKubernetesResources, .getDeployedResources, .setDeploymentStatus,
           .reconcileResources events, .checkKieServerConfigMap, .getCached,
           .checkStatus hasUpdates])

/-- The credential part of `Reconcile`: the read of the CA config map and
`setEnvironmentProperties`, followed by the end of the pass. -/
def reconcileCredentials {σ : Type} (p : Platform σ) (request : Request) (inst : KieApp)
    (env : Environment) (deployedRoutes : List Object) (s : σ) :
    (Result × Option Error) × σ × List Step :=
  let caRead : Except Error ConfigMap × List Step :=
    if p.IsOcpCA inst then
      match p.GetCAConfigMap inst s with
      | .ok found => (.ok found, [.getCAConfigMap])
      | .error err =>
        if !err.IsNotFound then (.error err, [.getCAConfigMap])
        else (.ok zeroConfigMap, [.getCAConfigMap])
    else (.ok zeroConfigMap, [])
  match caRead with
  | (.error err, steps) => ((requeueShortly, some err), s, steps)
  | (.ok caConfigMap, steps) =>
    match p.setEnvironmentProperties inst env deployedRoutes caConfigMap s with
    | (_, .error err) => ((requeueShortly, some err), s, steps ++ [.setEnvironmentProperties])
    | (inst, .ok env) =>
      let (result, s1, more) := reconcileApply p request inst env s
      (result, s1, steps ++ [.setEnvironmentProperties] ++ more)

/-- How a phase of the pass ends: with the results `Reconcile` returns at once, or with
a value the rest of the pass goes on with. -/
inductive PhaseOutcome (α : Type) where
  | done (result : Result × Option Error)
  | proceed (value : α)

/-- The route phase of `Reconcile`, from "Get requested routes based on environment
template" to the creation of the missing routes: it ends the pass, or hands on the
deployed routes and the environment. -/
def routePhase {σ : Type} (p : Platform σ) (inst : KieApp) (env : Environment) (s : σ) :
    PhaseOutcome (List Object × Environment) × σ × List Step :=
  let (requestedRoutes, env) := getRequestedRoutes env inst
  match p.ListRoutes inst s with
  | .error err => (.done (noRequeue, some err), s, [.listRoutes])
  | .ok deployedRoutes =>
    let delta := p.CompareArrays deployedRoutes requestedRoutes
    if delta.Added.length > 0 then
      match (p.writer inst).AddResources delta.Added s with
      | ((added, some err), s1) =>
        (.done (noRequeue, some err), s1,
          [.listRoutes, .addRoutes ⟨.AddResources delta.Added, added, some err⟩])
      | ((added, none), s1) =>
        if added then
          (.done (requeueShortly, none), s1,
            [.listRoutes, .addRoutes ⟨.AddResources delta.Added, added, none⟩])
        else
          (.proceed (deployedRoutes, env), s1,
            [.listRoutes, .addRoutes ⟨.AddResources delta.Added, added, none⟩])
    else (.proceed (deployedRoutes, env), s, [.listRoutes])

/-- The function `Reconcile`: the Go results, the cluster state and the steps of the pass. -/
def Reconcile {σ : Type} (p : Platform σ) (request : Request) (s : σ) :
    (Result × Option Error) × σ × List Step :=
  let s := p.embeddedFiles s
  match p.GetInstance request s with
  | .error err =>
    if err.IsNotFound then
      let inst : KieApp :=
        { zeroKieApp with
          Name := request.Name, Namespace := request.Namespace, Labels := [], Annotations := [],
          UID := "", ResourceVersion := "", OwnerReferences := [] }
      match p.getDeployedResources inst s with
      | .error err => ((noRequeue, some err), s, [.embeddedFiles, .getInstance, .getDeployedResources])
      | .ok deployed =>
        let (result, s1, events) := reconcileResources (p.writer inst) p.compare [] deployed s
        ((noRequeue, result.2), s1,
          [.embeddedFiles, .getInstance, .getDeployedResources, .reconcileResources events])
    else
      let (_, s1) := p.setFailedStatus zeroKieApp .UnknownReason err s
      ((noRequeue, some err), s1,
        [.embeddedFiles, .getInstance, .setFailedStatus .UnknownReason])
  | .ok inst =>
    match p.GetEnvironment inst s with
    | (inst, .error err) =>
      let (_, s1) := p.setFailedStatus inst .ConfigurationErrorReason err s
      ((noRequeue, some err), s1,
        [.embeddedFiles, .getInstance, .getEnvironment,
         .setFailedStatus .ConfigurationErrorReason])
    | (inst, .ok env) =>
      match p.verifyExternalReferences inst s with
      | some err =>
        let (_, s1) := p.setFailedStatus inst .MissingDependenciesReason err s
        ((noRequeue, some err), s1,
          [.embeddedFiles, .getInstance, .getEnvironment, .verifyExternalReferences,
           .setFailedStatus .MissingDependenciesReason])
      | none =>
        match routePhase p inst env s with
        | (.done result, s1, steps) =>
          (result, s1,
            [.embeddedFiles, .getInstance, .getEnvironment, .verifyExternalReferences] ++ steps)
        | (.proceed (deployedRoutes, env), s1, steps) =>
          let (result, s2, more) := reconcileCredentials p request inst env deployedRoutes s1
          (result, s2,
            [.embeddedFiles, .getInstance, .getEnvironment, .verifyExternalReferences]
              ++ steps ++ more)

/-! ## Credential provisioner (`setConsoleHost`, `generateKeystoreSecret`) -/

/-- The function `checkTLS`. -/
def checkTLS (tls : Option TLSConfig) : Bool :=
  match tls with
  | some _ => true
  | none => false

/-- The function `GetRouteHost`: the host of the first deployed route with the name and
namespace of `route`, the empty string when there is none. `none` is the panic of the
type assertion `routes[index].(*routev1.Route)` on an object that is not a route. -/
def GetRouteHost (route : Route) : List Object → Option String
  | [] => some ""
  | .route candidate :: rest =>
    if candidate.Name = route.Name ∧ candidate.Namespace = route.Namespace then
      some candidate.Spec.Host
    else GetRouteHost route rest
  | _ :: _ => none

/-- One of the two loops of `setConsoleHost` over the routes of a component: at the first
TLS-enabled route it sets `consoleCN` and `Status.ConsoleHost` and breaks. Returns
`consoleCN` (initially empty) and the CR; `none` is a panic of `GetRouteHost`. -/
def consoleHostLoop (routes : List Object) (cr : KieApp) : List Route → Option (String × KieApp)
  | [] => some ("", cr)
  | rt :: rest =>
    if checkTLS rt.Spec.TLS then
      match GetRouteHost rt routes with
      | none => none
      | some consoleCN =>
        some (consoleCN,
          { cr with Status := { cr.Status with ConsoleHost := "https://" ++ consoleCN } })
    else consoleHostLoop routes cr rest

/-- The function `setConsoleHost`: returns `consoleCN` and the CR with its
`Status.ConsoleHost` as the function leaves it; `none` is a panic of `GetRouteHost`. -/
def setConsoleHost (consts : Constants) (cr : KieApp) (env : Environment) (routes : List Object) :
    Option (String × KieApp) :=
  let found :=
    if cr.Status.Applied.Environment = consts.RhpamStandaloneDashbuilder then
      consoleHostLoop routes cr env.Dashbuilder.Routes
    else
      consoleHostLoop routes cr env.Console.Routes
  match found with
  | none => none
  | some (consoleCN, cr) =>
    if consoleCN = "" then
      let consoleCN := cr.Status.Applied.CommonConfig.ApplicationName
      some (consoleCN,
        { cr with Status := { cr.Status with ConsoleHost := "http://" ++ consoleCN } })
    else some (consoleCN, cr)

/-- A call to the Store (`reconciler.Service`). -/
inductive StoreCall where
  | Get (kind name ns : String)
  | Create (obj : Object)
  | Update (obj : Object)
  | Delete (obj : Object)
deriving DecidableEq, Repr

/-- Keystore helpers of package `shared`, whose sources are not at hand: `CommonName`
opens a keystore with a password and yields the CN of its certificate (`none` when it
cannot be opened), `GenerateKeystore` is `shared.GenerateKeystore`. -/
structure Keystores where
  CommonName : Bytes → Bytes → Option String
  GenerateKeystore : String → Bytes → Except Error Bytes

/-- Modelled from the spec: `shared.IsValidKeyStoreSecret`, "an existing keystore secret is
reused iff it can be opened with the configured password and its certificate CN matches
the target CN exactly". The keystore is the entry `constants.KeystoreName` of the secret. -/
def IsValidKeyStoreSecret (consts : Constants) (keystores : Keystores) (secret : Secret)
    (keystoreCN : String) (keyStorePassword : Bytes) : Bool :=
  match secret.Data.getBytes consts.KeystoreName with
  | none => false
  | some keystore => decide (keystores.CommonName keystore keyStorePassword = some keystoreCN)

/-- The zero value `corev1.Secret{}`. -/
def zeroSecret : Secret :=
  { Kind := "", APIVersion := "", Name := "", Namespace := "", Labels := [], Annotations := [],
    UID := "", ResourceVersion := "", OwnerReferences := [], Type_ := "", Data := [] }

/-- The function `generateKeystoreSecret`. The argument `getSecret name ns` is the read
`reconciler.Service.Get` of a secret; when it fails the secret read into stays the zero
value. Returns the Go results `(secret, err)` and the Store calls made. -/
def generateKeystoreSecret (getSecret : String → String → Except Error Secret)
    (consts : Constants) (keystores : Keystores) (secretName keystoreCN : String) (cr : KieApp) :
    (Secret × Option Error) × List StoreCall :=
  let calls := [StoreCall.Get "Secret" secretName cr.Namespace]
  let (existingSecret, err) : Secret × Option Error :=
    match getSecret secretName cr.Namespace with
    | .ok found => (found, none)
    | .error err => (zeroSecret, some err)
  if (match err with
      | some e => !e.IsNotFound
      | none => false) then
    ((zeroSecret, err), calls)
  else
    let keyStorePassword := stringBytes cr.Status.Applied.CommonConfig.KeyStorePassword
    if IsValidKeyStoreSecret consts keystores existingSecret keystoreCN keyStorePassword then
      ((existingSecret, none), calls)
    else
      match keystores.GenerateKeystore keystoreCN keyStorePassword with
      | .error genErr => ((zeroSecret, some genErr), calls)
      | .ok keystoreByte =>
        (({ Kind := "Secret", APIVersion := "v1",
            Name := secretName, Namespace := "",
            Labels := [("app", cr.Status.Applied.CommonConfig.ApplicationName),
                       ("application", cr.Status.Applied.CommonConfig.ApplicationName)],
            Annotations := [], UID := "", ResourceVersion := "", OwnerReferences := [],
            Type_ := "Opaque",
            Data := [(consts.KeystoreName, keystoreByte)] }, none), calls)

/-- Modelled from the spec: the secrets held by the Store after a sequence of calls
(`get`, `create`, `update`, `delete` of the Store interface), secrets being identified by
namespace and name. -/
def secretsAfter (store : List Secret) : List StoreCall → List Secret
  | [] => store
  | .Create (.secret s) :: rest => secretsAfter (store ++ [s]) rest
  | .Update (.secret s) :: rest =>
    secretsAfter
      (store.map (fun x => if x.Name = s.Name ∧ x.Namespace = s.Namespace then s else x)) rest
  | .Delete (.secret s) :: rest =>
    secretsAfter
      (store.filter (fun x => !decide (x.Name = s.Name ∧ x.Namespace = s.Namespace))) rest
  | _ :: rest => secretsAfter store rest

/-- Reading a secret from a Store that holds the given secrets. -/
def getSecretFrom (store : List Secret) (name ns : String) : Except Error Secret :=
  match store.find? (fun x => decide (x.Name = name ∧ x.Namespace = ns)) with
  | some found => .ok found
  | none => .error ⟨"NotFound", "secret not found: " ++ name⟩

/-! ## Resource flattener (`getCustomObjectResources`) -/

/-- One of the loops of `getCustomObjectResources` over a category: every resource gets
its kind set (`SetGroupVersionKind`) and is appended to `allObjects`. -/
def appendStamped {α : Type} (stamp : α → α) (wrap : α → Object) (allObjects : List Object)
    (resources : List α) : List Object :=
  resources.foldl (fun all resource => all ++ [wrap (stamp resource)]) allObjects

/-- The function `getCustomObjectResources`. -/
def getCustomObjectResources (object : CustomObject) (_cr : KieApp) : List Object :=
  let allObjects : List Object := []
  if object.Omit then allObjects
  else
    let allObjects := appendStamped
      (fun x => { x with Kind := "PersistentVolumeClaim", APIVersion := "v1" })
      (Object.generic "PersistentVolumeClaim") allObjects object.PersistentVolumeClaims
    let allObjects := appendStamped
      (fun x => { x with Kind := "ServiceAccount", APIVersion := "v1" })
      (Object.generic "ServiceAccount") allObjects object.ServiceAccounts
    let allObjects := appendStamped
      (fun x => { x with Kind := "Secret", APIVersion := "v1" })
      Object.secret allObjects object.Secrets
    let allObjects := appendStamped
      (fun x => { x with Kind := "Role", APIVersion := "rbac.authorization.k8s.io/v1" })
      (Object.generic "Role") allObjects object.Roles
    let allObjects := appendStamped
      (fun x => { x with Kind := "RoleBinding", APIVersion := "rbac.authorization.k8s.io/v1" })
      (Object.generic "RoleBinding") allObjects object.RoleBindings
    let allObjects := appendStamped
      (fun x => { x with Kind := "DeploymentConfig", APIVersion := "apps.openshift.io/v1" })
      Object.deploymentConfig allObjects object.DeploymentConfigs
    let allObjects := appendStamped
      (fun x => { x with Kind := "Service", APIVersion := "v1" })
      (Object.generic "Service") allObjects object.Services
    let allObjects := appendStamped
      (fun x => { x with Kind := "StatefulSet", APIVersion := "apps/v1" })
      (Object.generic "StatefulSet") allObjects object.StatefulSets
    let allObjects := appendStamped
      (fun x => { x with Kind := "Route", APIVersion := "route.openshift.io/v1" })
      Object.route allObjects object.Routes
    let allObjects := appendStamped
      (fun x => { x with Kind := "ImageStream", APIVersion := "image.openshift.io/v1" })
      (Object.generic "ImageStream") allObjects object.ImageStreams
    let allObjects := appendStamped
      (fun x => { x with Kind := "BuildConfig", APIVersion := "build.openshift.io/v1" })
      Object.buildConfig allObjects object.BuildConfigs
    appendStamped
      (fun x => { x with Kind := "ConfigMap", APIVersion := "v1" })
      Object.configMap allObjects object.ConfigMaps

/-! ## Relations used to state the flattener properties -/

/-- The kind metadata (`TypeMeta`) of a resource. -/
def Object.typeMeta : Object → TypeMeta
  | .deploymentConfig x => x.toTypeMeta
  | .buildConfig x => x.toTypeMeta
  | .configMap x => x.toTypeMeta
  | .secret x => x.toTypeMeta
  | .route x => x.toTypeMeta
  | .generic _ x => x.toTypeMeta

/-- The resource with its kind metadata blanked, that is, everything but the kind
metadata. -/
def Object.eraseTypeMeta : Object → Object
  | .deploymentConfig x => .deploymentConfig { x with Kind := "", APIVersion := "" }
  | .buildConfig x => .buildConfig { x with Kind := "", APIVersion := "" }
  | .configMap x => .configMap { x with Kind := "", APIVersion := "" }
  | .secret x => .secret { x with Kind := "", APIVersion := "" }
  | .route x => .route { x with Kind := "", APIVersion := "" }
  | .generic goType x => .generic goType { x with Kind := "", APIVersion := "" }

/-- The resources of a descriptor by category, each category under its kind, in the order
persistent volume claims, service accounts, secrets, roles, role bindings, deployment
configs, services, stateful sets, routes, image streams, build configs, config maps. -/
def categoriesOf (object : CustomObject) : List (String × List Object) :=
  [("PersistentVolumeClaim",
      object.PersistentVolumeClaims.map (Object.generic "PersistentVolumeClaim")),
   ("ServiceAccount", object.ServiceAccounts.map (Object.generic "ServiceAccount")),
   ("Secret", object.Secrets.map Object.secret),
   ("Role", object.Roles.map (Object.generic "Role")),
   ("RoleBinding", object.RoleBindings.map (Object.generic "RoleBinding")),
   ("DeploymentConfig", object.DeploymentConfigs.map Object.deploymentConfig),
   ("Service", object.Services.map (Object.generic "Service")),
   ("StatefulSet", object.StatefulSets.map (Object.generic "StatefulSet")),
   ("Route", object.Routes.map Object.route),
   ("ImageStream", object.ImageStreams.map (Object.generic "ImageStream")),
   ("BuildConfig", object.BuildConfigs.map Object.buildConfig),
   ("ConfigMap", object.ConfigMaps.map Object.configMap)]

/-! ## Image reference resolver (`checkImageStreamTag`, `createLocalImageTag`, `ensureImageStream`) -/

/-- OpenShift `TagImportPolicy`. -/
structure TagImportPolicy where
  Insecure : Bool
  Scheduled : Bool
deriving DecidableEq, Repr

/-- OpenShift `TagReference`; `From` is a pointer in Go, `ReferencePolicyType` is
`ReferencePolicy.Type`. -/
structure TagReference where
  Name : String
  From : Option ObjectReference
  ReferencePolicyType : String
  ImportPolicy : TagImportPolicy
deriving DecidableEq, Repr

/-- OpenShift `ImageStreamTag`; `Tag` is a pointer in Go. -/
structure ImageStreamTag extends TypeMeta, ObjectMeta where
  Tag : Option TagReference
deriving DecidableEq, Repr

/-- The client `reconciler.Service.ImageStreamTags(namespace)` over a cluster state `σ`:
`Get ns name` yields the error of the read (`none` when the tag exists), `Create ns tag`
the error of the creation and the new state. -/
structure ImageStreamTagsClient (σ : Type) where
  Get : String → String → σ → Option Error
  Create : String → ImageStreamTag → σ → Option Error × σ

/-- A call to the image stream tag client. -/
inductive TagCall where
  | Get (ns name : String)
  | Create (ns : String) (tag : ImageStreamTag)
deriving DecidableEq, Repr

/-- Functions of package `defaults`, whose sources are not at hand. `GetImage` yields the
image, the tag and the context of an image URL; `ConfigureHostname` returns the descriptor
it configures; `GetServerSet` takes the index of the server. -/
structure Defaults where
  GetProduct : KieApp → String
  GetMajorMinorMicro : String → String × String × String
  GetImage : String → String × String × String
  IsOcpCA : KieApp → Bool
  ConfigureHostname : CustomObject → KieApp → String → CustomObject
  GetServerSet : KieApp → Nat → KieServerSet × String
  ConsolidateObjects : Environment → KieApp → Environment

/-- Reads of the process environment through package `logs` of operator-utils:
`GetBoolEnv key` and `GetEnv key fallback`. -/
structure Logs where
  GetBoolEnv : String → Bool
  GetEnv : String → String → String

/-- The call `strings.Split(s, ":")` on the characters of a string: the segments between
the colons, at least one. -/
def splitColonChars : List Char → List (List Char)
  | [] => [[]]
  | c :: rest =>
    if c = ':' then [] :: splitColonChars rest
    else
      match splitColonChars rest with
      | [] => [[c]]
      | part :: parts => (c :: part) :: parts

/-- The head of `checkImageStreamTag` and `createLocalImageTag`: the reference is split
at ":" and "latest" is appended when there is one part only; the pair is
`(result[0], result[1])`. -/
def tagParts (tagRefName : String) : String × String :=
  match splitColonChars tagRefName.data with
  | [] => ("", "latest")
  | [name] => (String.mk name, "latest")
  | name :: tag :: _ => (String.mk name, String.mk tag)

/-- The call `strings.Contains` on the characters of two strings. -/
def containsChars (sub : List Char) : List Char → Bool
  | [] => sub.isEmpty
  | c :: rest => sub.isPrefixOf (c :: rest) || containsChars sub rest

/-- The call `strings.Contains(s, sub)`. -/
def stringsContains (s sub : String) : Bool :=
  containsChars sub.data s.data

/-- The matches of the pattern `[0-9]+` in a list of characters, from the run of digits
`current` read so far: the maximal runs of decimal digits, in order. -/
def digitRunsFrom (current : List Char) : List Char → List (List Char)
  | [] => if current.isEmpty then [] else [current]
  | c :: rest =>
    if c.isDigit then digitRunsFrom (current ++ [c]) rest
    else if current.isEmpty then digitRunsFrom [] rest
    else current :: digitRunsFrom [] rest

/-- The call `regexp.MustCompile("[0-9]+").FindAllString(s, -1)`. -/
def FindAllDigits (s : String) : List String :=
  (digitRunsFrom [] s.data).map String.mk

/-- The tag object `isnew` that `createLocalImageTag` builds, and the CR as the function
leaves it (the registry default is written through the pointer
`cr.Status.Applied.ImageRegistry`). -/
def localImageTag (consts : Constants) (defaults : Defaults) (logs : Logs)
    (tagRefName imageURL : String) (cr : KieApp) : ImageStreamTag × KieApp :=
  let result := tagParts tagRefName
  let product := defaults.GetProduct cr
  let tagName := result.1 ++ ":" ++ result.2
  let imageName := tagName
  let major := (defaults.GetMajorMinorMicro cr.Status.Applied.Version).1
  let regContext := product ++ "-" ++ major
  let imageContext := (defaults.GetImage imageURL).2.2
  let regContext := if imageContext ≠ "" then imageContext else regContext
  let registry : KieAppRegistry := { Registry := "", Insecure := logs.GetBoolEnv "INSECURE" }
  let registry :=
    match cr.Status.Applied.ImageRegistry with
    | some configured => configured
    | none => registry
  let registry :=
    if registry.Registry = "" then
      { registry with Registry := logs.GetEnv "REGISTRY" consts.ImageRegistry }
    else registry
  let cr :=
    match cr.Status.Applied.ImageRegistry with
    | some _ =>
      { cr with Status := { cr.Status with
          Applied := { cr.Status.Applied with ImageRegistry := some registry } } }
    | none => cr
  let registryAddress := registry.Registry
  let (registryAddress, regContext, imageName) : String × String × String :=
    if stringsContains result.1 "datagrid" then
      (consts.ImageRegistry, "jboss-datagrid-7", imageName)
    else if stringsContains result.1 "amq-broker-7" then
      (consts.ImageRegistry,
        if stringsContains result.1 "scaledown" then "amq-broker-7-tech-preview"
        else "amq-broker-7",
        imageName)
    else if result.1 = "postgresql" ∨ result.1 = "mysql" then
      (consts.ImageRegistry, "rhscl",
        result.1 ++ "-" ++ String.join (FindAllDigits result.2) ++ "-rhel7:" ++ "latest")
    else (registryAddress, regContext, imageName)
  let registryURL := registryAddress ++ "/" ++ regContext ++ "/" ++ imageName
  let importPolicy : TagImportPolicy := { Insecure := false, Scheduled := false }
  let importPolicy :=
    if registry.Insecure then { Insecure := true, Scheduled := false } else importPolicy
  let importPolicy :=
    if cr.Spec.UseImageTags ∧ cr.Spec.ScheduledImportPolicy then
      { importPolicy with Scheduled := true }
    else importPolicy
  ({ Kind := "ImageStreamTag", APIVersion := "image.openshift.io/v1",
     Name := tagName, Namespace := cr.Namespace, Labels := [], Annotations := [], UID := "",
     ResourceVersion := "", OwnerReferences := [],
     Tag := some
       { Name := result.2,
         From := some { Kind := "DockerImage", Namespace := "", Name := registryURL },
         ReferencePolicyType := "Local",
         ImportPolicy := importPolicy } }, cr)

/-- The function `createLocalImageTag`: the error it returns, the CR as it leaves it,
the cluster state and the calls to the image stream tag client. -/
def createLocalImageTag {σ : Type} (client : ImageStreamTagsClient σ) (consts : Constants)
    (defaults : Defaults) (logs : Logs) (tagRefName imageURL : String) (cr : KieApp) (s : σ) :
    (Option Error × KieApp) × σ × List TagCall :=
  let (isnew, cr) := localImageTag consts defaults logs tagRefName imageURL cr
  match client.Create isnew.Namespace isnew s with
  | (some err, s1) =>
    if !err.IsAlreadyExists then ((some err, cr), s1, [.Create isnew.Namespace isnew])
    else ((none, cr), s1, [.Create isnew.Namespace isnew])
  | (none, s1) => ((none, cr), s1, [.Create isnew.Namespace isnew])

/-- The function `checkImageStreamTag`: whether the read of the tag succeeded, and the
call made. -/
def checkImageStreamTag {σ : Type} (client : ImageStreamTagsClient σ) (name ns : String)
    (s : σ) : Bool × List TagCall :=
  let result := tagParts name
  let tagName := result.1 ++ ":" ++ result.2
  match client.Get ns tagName s with
  | some _ => (false, [.Get ns tagName])
  | none => (true, [.Get ns tagName])

/-- The function `ensureImageStream`: the Go results `(string, error)`, the CR, the
cluster state and the calls to the image stream tag client. -/
def ensureImageStream {σ : Type} (client : ImageStreamTagsClient σ) (consts : Constants)
    (defaults : Defaults) (logs : Logs) (name ns imageURL : String) (cr : KieApp) (s : σ) :
    (String × Option Error) × KieApp × σ × List TagCall :=
  match cr.Status.Applied.ImageRegistry with
  | some _ =>
    let (found, calls) := checkImageStreamTag client name cr.Namespace s
    if found then ((cr.Namespace, none), cr, s, calls)
    else
      match createLocalImageTag client consts defaults logs name imageURL cr s with
      | ((some err, cr1), s1, more) => ((ns, some err), cr1, s1, calls ++ more)
      | ((none, cr1), s1, more) => ((cr1.Namespace, none), cr1, s1, calls ++ more)
  | none =>
    let (found, calls) := checkImageStreamTag client name ns s
    if found then ((ns, none), cr, s, calls)
    else
      let (foundLocal, callsLocal) := checkImageStreamTag client name cr.Namespace s
      if foundLocal then ((cr.Namespace, none), cr, s, calls ++ callsLocal)
      else
        match createLocalImageTag client consts defaults logs name imageURL cr s with
        | ((some err, cr1), s1, more) => ((ns, some err), cr1, s1, calls ++ callsLocal ++ more)
        | ((none, cr1), s1, more) =>
          ((cr1.Namespace, none), cr1, s1, calls ++ callsLocal ++ more)

/-! ## Relations used to state the image resolver properties -/

/-- The name part of an image reference: what stands before the first ":". -/
def namePart (ref : String) : String :=
  String.mk (ref.data.takeWhile (fun c => c ≠ ':'))

/-- The tag of an image reference: what stands between the first ":" and the next one,
"latest" when the reference has no ":". -/
def tagPart (ref : String) : String :=
  if ':' ∈ ref.data then
    String.mk (((ref.data.dropWhile (fun c => c ≠ ':')).drop 1).takeWhile (fun c => c ≠ ':'))
  else "latest"

/-- The decimal digits of a string, in order. -/
def digitsOf (s : String) : String :=
  String.mk (s.data.filter Char.isDigit)

/-- The docker image a tag object points at (`Tag.From.Name` when the kind is
"DockerImage"). -/
def ImageStreamTag.pointsAt (tag : ImageStreamTag) : Option String :=
  match tag.Tag with
  | none => none
  | some ref =>
    match ref.From with
    | none => none
    | some source => if source.Kind = "DockerImage" then some source.Name else none

/-- The tag objects created by a sequence of calls to the image stream tag client. -/
def createdTags : List TagCall → List ImageStreamTag
  | [] => []
  | .Create _ tag :: rest => tag :: createdTags rest
  | .Get _ _ :: rest => createdTags rest

/-- The image stream tag of reference `name` exists in namespace `ns`: the read of the tag
named by the name part and the tag of the reference succeeds. -/
def tagExists {σ : Type} (client : ImageStreamTagsClient σ) (ns name : String) (s : σ) : Prop :=
  client.Get ns (namePart name ++ ":" ++ tagPart name) s = none

/-! ## Status state machine (`checkStatus`, `updateStatus`, `hasStatusChanges`) -/

/-- Functions of package `status`, whose sources are not at hand: each applies its phase
transition to the CR and returns the requeue flag together with the CR. -/
structure StatusLib where
  SetProvisioning : KieApp → Bool × KieApp
  SetDeployed : KieApp → Bool × KieApp

/-- A call made while the status is settled: a transition of package `status`, or the
write `reconciler.Service.Status().Update` of the CR. -/
inductive StatusCall where
  | SetProvisioning
  | SetDeployed
  | Update (inst : KieApp)
deriving DecidableEq, Repr

/-- The loop `for i := range instance.Status.Applied.Objects.Servers` of
`hasStatusChanges`, from index `i` on: `none` is an index out of range in the cached
server list. -/
def serversDiffer (cachedServers : List KieServerSet) : Nat → List KieServerSet → Option Bool
  | _, [] => some false
  | i, server :: rest =>
    match cachedServers[i]? with
    | none => none
    | some cachedServer =>
      if server ≠ cachedServer then some true
      else serversDiffer cachedServers (i + 1) rest

/-- The function `hasStatusChanges`; `none` is an index out of range. -/
def hasStatusChanges (inst cachedInstance : KieApp) : Option Bool :=
  if inst.Status ≠ cachedInstance.Status then some true
  else if inst.Status.Applied.Objects.Servers.length > 0 then
    if inst.Status.Applied.Objects.Servers.length
        ≠ cachedInstance.Status.Applied.Objects.Servers.length then some true
    else
      match serversDiffer cachedInstance.Status.Applied.Objects.Servers 0
          inst.Status.Applied.Objects.Servers with
      | none => none
      | some true => some true
      | some false => some false
  else some false

/-- The function `updateStatus`. The argument `StatusUpdate` is the write
`reconciler.Service.Status().Update`. Returns the Go results, the cluster state and the
calls made; `none` is a panic of `hasStatusChanges`. -/
def updateStatus {σ : Type} (StatusUpdate : KieApp → σ → Option Error × σ)
    (inst cachedInstance : KieApp) (requeue : Bool) (s : σ) :
    Option ((Result × Option Error) × σ × List StatusCall) :=
  match hasStatusChanges inst cachedInstance with
  | none => none
  | some true =>
    if inst.ResourceVersion = cachedInstance.ResourceVersion then
      match StatusUpdate inst s with
      | (some err, s1) => some ((noRequeue, some err), s1, [.Update inst])
      | (none, s1) => some (({ Requeue := requeue, RequeueAfter := 0 }, none), s1, [.Update inst])
    else some (({ Requeue := true, RequeueAfter := 0 }, none), s, [])
  | some false => some (({ Requeue := requeue, RequeueAfter := 0 }, none), s, [])

/-- The function `checkStatus`. -/
def checkStatus {σ : Type} (status : StatusLib) (StatusUpdate : KieApp → σ → Option Error × σ)
    (inst cachedInstance : KieApp) (hasUpdates : Bool) (s : σ) :
    Option ((Result × Option Error) × σ × List StatusCall) :=
  let (transition, call) : (Bool × KieApp) × StatusCall :=
    if hasUpdates then (status.SetProvisioning inst, .SetProvisioning)
    else (status.SetDeployed inst, .SetDeployed)
  match updateStatus StatusUpdate transition.2 cachedInstance transition.1 s with
  | none => none
  | some (result, s1, calls) => some (result, s1, call :: calls)

/-! ## Deployed-state loader (`getDeployedResources`) -/

/-- What `getDeployedResources` reads: `ListAll` is the owner-scoped list
`reader.ListAll(...)` of the eleven listed kinds (operator-utils), `GetSecret name ns` and
`GetConsoleLink name` are reads `reconciler.Service.Get`, and `semverCompare` is
`semver.Compare` of golang.org/x/mod. -/
structure DeployedReader where
  ListAll : KieApp → Except Error ResourceMap
  GetSecret : String → String → Except Error Secret
  GetConsoleLink : String → Except Error GenericResource
  semverCompare : String → String → Int

/-- The assignment `resourceMap[resourceType] = resources`. -/
def ResourceMap.set (m : ResourceMap) (resourceType : ResourceType) (resources : List Object) :
    ResourceMap :=
  (resourceType, resources) :: m.filter (fun entry => entry.1 != resourceType)

/-- The function `getConsoleLinkName`. -/
def getConsoleLinkName (cr : KieApp) : String :=
  cr.Namespace ++ "-link-" ++ cr.Name

/-- The loop `for _, ownerRef := range secret.GetOwnerReferences()` of
`getDeployedResources`: the secret is appended at the first owner reference with the UID
of the CR. -/
def appendIfOwned (inst : KieApp) (secret : Secret) (secrets : List Object) :
    List OwnerReference → List Object
  | [] => secrets
  | ownerRef :: rest =>
    if ownerRef.UID = inst.UID then secrets ++ [Object.secret secret]
    else appendIfOwned inst secret secrets rest

/-- The loop `for _, volume := range dc.Spec.Template.Spec.Volumes` of
`getDeployedResources`, from the secrets and the Store calls so far: the error of a
failed read other than NotFound, or the secrets afterwards. After a NotFound the secret
read into is the zero value. -/
def loadVolumeSecrets (reader : DeployedReader) (inst : KieApp) :
    List Volume → List Object → List StoreCall → Except Error (List Object) × List StoreCall
  | [], secrets, calls => (.ok secrets, calls)
  | volume :: rest, secrets, calls =>
    match volume.Secret with
    | none => loadVolumeSecrets reader inst rest secrets calls
    | some source =>
      let name := source.SecretName
      let calls := calls ++ [StoreCall.Get "Secret" name inst.Namespace]
      match reader.GetSecret name inst.Namespace with
      | .error err =>
        if !err.IsNotFound then (.error err, calls)
        else
          loadVolumeSecrets reader inst rest
            (appendIfOwned inst zeroSecret secrets zeroSecret.OwnerReferences) calls
      | .ok secret =>
        loadVolumeSecrets reader inst rest
          (appendIfOwned inst secret secrets secret.OwnerReferences) calls

/-- The loop `for _, res := range dcs` of `getDeployedResources`; `none` is a panic: a
listed object that is not a deployment config, or a deployment config without template. -/
def loadSecrets (reader : DeployedReader) (inst : KieApp) :
    List Object → List Object → List StoreCall →
      Option (Except Error (List Object) × List StoreCall)
  | [], secrets, calls => some (.ok secrets, calls)
  | .deploymentConfig dc :: rest, secrets, calls =>
    match dc.Spec.Template with
    | none => none
    | some template =>
      match loadVolumeSecrets reader inst template.Spec.Volumes secrets calls with
      | (.error err, calls) => some (.error err, calls)
      | (.ok secrets, calls) => loadSecrets reader inst rest secrets calls
  | _ :: _, _, _ => none

/-- The function `getDeployedResources`: the Go results `(map, error)`, the nil map being
the empty one, and the reads of single objects made; `none` is a panic. -/
def getDeployedResources (reader : DeployedReader) (OcpVersion : String) (inst : KieApp) :
    Option ((ResourceMap × Option Error) × List StoreCall) :=
  match reader.ListAll inst with
  | .error err => some (([], some err), [])
  | .ok resourceMap =>
    let dcs := resourceMap.get "DeploymentConfig"
    match loadSecrets reader inst dcs [] [] with
    | none => none
    | some (.error err, calls) => some (([], some err), calls)
    | some (.ok secrets, calls) =>
      let resourceMap := resourceMap.set "Secret" secrets
      if reader.semverCompare OcpVersion "v4.2" ≥ 0 ∨ OcpVersion = "" then
        let calls := calls ++ [StoreCall.Get "ConsoleLink" (getConsoleLinkName inst) ""]
        match reader.GetConsoleLink (getConsoleLinkName inst) with
        | .error err =>
          if err.IsNotFound then some ((resourceMap, none), calls)
          else some ((resourceMap, some err), calls)
        | .ok consoleLink =>
          some ((resourceMap.set "ConsoleLink" [Object.generic "ConsoleLink" consoleLink], none),
            calls)
      else some ((resourceMap, none), calls)

/-! ## Relations used to state the loader properties -/

/-- The names of the secrets behind the secret-backed volumes of a pod template. -/
def secretNamesOf (volumes : List Volume) : List String :=
  volumes.filterMap (fun volume => volume.Secret.map (fun source => source.SecretName))

/-- The names of the secrets referenced by the secret-backed volumes of the deployment
configs, in the order of the deployment configs and of their volumes. -/
def secretVolumeNames (dcs : List DeploymentConfig) : List String :=
  dcs.flatMap (fun dc =>
    match dc.Spec.Template with
    | none => []
    | some template => secretNamesOf template.Spec.Volumes)

/-- The secret has an owner reference with the UID of the CR. -/
def ownedBy (inst : KieApp) (secret : Secret) : Bool :=
  secret.OwnerReferences.any (fun ownerRef => decide (ownerRef.UID = inst.UID))

/-- The secret of the given name as the loader keeps it: it exists and is owned by the CR. -/
def ownedSecret (reader : DeployedReader) (inst : KieApp) (name : String) : Option Object :=
  match reader.GetSecret name inst.Namespace with
  | .ok secret => if ownedBy inst secret then some (Object.secret secret) else none
  | .error _ => none

/-- The error of the read of the secret of the given name, when it is one other than
NotFound. -/
def readFailure (reader : DeployedReader) (inst : KieApp) (name : String) : Option Error :=
  match reader.GetSecret name inst.Namespace with
  | .ok _ => none
  | .error err => if err.IsNotFound then none else some err

/-- The reads of the secrets of the given names. -/
def secretReads (inst : KieApp) (names : List String) : List StoreCall :=
  names.map (fun name => StoreCall.Get "Secret" name inst.Namespace)

/-- The secrets kept and the reads made for a list of referenced names, from the secrets
and the reads so far, stopping at the first failed read. -/
def collectOwned (reader : DeployedReader) (inst : KieApp) :
    List String → List Object → List StoreCall → Except Error (List Object) × List StoreCall
  | [], secrets, calls => (.ok secrets, calls)
  | name :: rest, secrets, calls =>
    match readFailure reader inst name with
    | some err => (.error err, calls ++ [StoreCall.Get "Secret" name inst.Namespace])
    | none =>
      collectOwned reader inst rest (secrets ++ (ownedSecret reader inst name).toList)
        (calls ++ [StoreCall.Get "Secret" name inst.Namespace])

/-- The object metadata of a resource. -/
def Object.objectMeta : Object → ObjectMeta
  | .deploymentConfig x => x.toObjectMeta
  | .buildConfig x => x.toObjectMeta
  | .configMap x => x.toObjectMeta
  | .secret x => x.toObjectMeta
  | .route x => x.toObjectMeta
  | .generic _ x => x.toObjectMeta

/-- The identity of a resource within its kind: namespace and name. -/
def Object.identity (resource : Object) : String × String :=
  (resource.objectMeta.Namespace, resource.objectMeta.Name)

/-! ## Credential provisioner (`generateTruststoreSecret`, `setEnvironmentProperties`) -/

/-- Truststore helpers of package `shared`, whose sources are not at hand: `Validates`
checks a truststore against the bytes of a CA bundle, `GenerateTruststore` is
`shared.GenerateTruststore`. -/
structure Truststores where
  Validates : Bytes → Bytes → Bool
  GenerateTruststore : Bytes → Except Error Bytes

/-- Modelled from the spec: `shared.IsValidTruststoreSecret`, the existing truststore "can
be validated against the current CA bundle bytes". The truststore is the entry
`constants.TruststoreName` of the secret. -/
def IsValidTruststoreSecret (consts : Constants) (truststores : Truststores) (secret : Secret)
    (caBundle : Bytes) : Bool :=
  match secret.Data.getBytes consts.TruststoreName with
  | none => false
  | some truststore => truststores.Validates truststore caBundle

/-- The function `generateTruststoreSecret`. The argument `getSecret name ns` is the read
`reconciler.Service.Get` of a secret. Returns the Go results `(secret, err)` and the
Store calls made. -/
def generateTruststoreSecret (getSecret : String → String → Except Error Secret)
    (consts : Constants) (truststores : Truststores) (secretName : String) (cr : KieApp)
    (caConfigMap : ConfigMap) : (Secret × Option Error) × List StoreCall :=
  if caConfigMap.Data.length > 0 ∧ caConfigMap.Data.get consts.CaBundleKey ≠ "" then
    let calls := [StoreCall.Get "Secret" secretName cr.Namespace]
    let (existingSecret, err) : Secret × Option Error :=
      match getSecret secretName cr.Namespace with
      | .ok found => (found, none)
      | .error err => (zeroSecret, some err)
    if (match err with
        | some e => !e.IsNotFound
        | none => false) then
      ((zeroSecret, err), calls)
    else
      let caBundle := stringBytes (caConfigMap.Data.get consts.CaBundleKey)
      if IsValidTruststoreSecret consts truststores existingSecret caBundle then
        ((existingSecret, none), calls)
      else
        match truststores.GenerateTruststore caBundle with
        | .error genErr => ((zeroSecret, some genErr), calls)
        | .ok truststoreByte =>
          (({ Kind := "Secret", APIVersion := "v1",
              Name := secretName, Namespace := "",
              Labels := [("app", cr.Status.Applied.CommonConfig.ApplicationName),
                         ("application", cr.Status.Applied.CommonConfig.ApplicationName)],
              Annotations := [], UID := "", ResourceVersion := "", OwnerReferences := [],
              Type_ := "Opaque",
              Data := [(consts.TruststoreName, truststoreByte)] }, none), calls)
  else ((zeroSecret, none), [])

/-- The zero value `api.CustomObject{}`. -/
def zeroCustomObject : CustomObject :=
  { Omit := false, PersistentVolumeClaims := [], ServiceAccounts := [], Secrets := [],
    Roles := [], RoleBindings := [], DeploymentConfigs := [], Services := [],
    StatefulSets := [], Routes := [], ImageStreams := [], BuildConfigs := [], ConfigMaps := [] }

/-- The zero value `api.Environment{}`. -/
def zeroEnvironment : Environment :=
  { Console := zeroCustomObject, Dashbuilder := zeroCustomObject, Servers := [],
    SmartRouter := zeroCustomObject, ProcessMigration := zeroCustomObject, Databases := [],
    Others := [] }

/-- What the parts of `setEnvironmentProperties` work with: the reads of the Store, the
package constants and the helper packages. -/
structure Provisioner where
  getSecret : String → String → Except Error Secret
  consts : Constants
  defaults : Defaults
  keystores : Keystores
  truststores : Truststores

/-- The state of `setEnvironmentProperties` after one of its parts: `none` is a panic;
otherwise the error the function returns at once, or the environment so far, together
with the CR as changed so far and the Store calls made so far. -/
abbrev Provisioned := Option (Except Error Environment × KieApp × List StoreCall)

/-- The truststore part of `setEnvironmentProperties`; `none` is the panic of
`env.Others[0]` on an empty list. -/
def provisionTruststore (pr : Provisioner) (cr : KieApp) (env : Environment)
    (caConfigMap : ConfigMap) (calls : List StoreCall) : Provisioned :=
  if pr.defaults.IsOcpCA cr then
    match generateTruststoreSecret pr.getSecret pr.consts pr.truststores
        (cr.Status.Applied.CommonConfig.ApplicationName ++ pr.consts.TruststoreSecret)
        cr caConfigMap with
    | ((_, some err), more) => some (.error err, cr, calls ++ more)
    | ((secret, none), more) =>
      match env.Others with
      | [] => none
      | first :: rest =>
        some (.ok { env with Others := { first with Secrets := first.Secrets ++ [secret] } :: rest },
          cr, calls ++ more)
  else some (.ok env, cr, calls)

/-- The console part of `setEnvironmentProperties`; `none` is a panic of `setConsoleHost`
or the nil dereference of `cr.Status.Applied.Objects.Console`. -/
def provisionConsole (pr : Provisioner) (cr : KieApp) (env : Environment)
    (routes : List Object) (calls : List StoreCall) : Provisioned :=
  if !env.Console.Omit then
    match setConsoleHost pr.consts cr env routes with
    | none => none
    | some (consoleCN, cr) =>
      let env := { env with Console := pr.defaults.ConfigureHostname env.Console cr consoleCN }
      match cr.Status.Applied.Objects.Console with
      | none => none
      | some console =>
        if console.KeystoreSecret = "" ∧ !cr.Status.Applied.CommonConfig.DisableSsl then
          match generateKeystoreSecret pr.getSecret pr.consts pr.keystores
              (pr.consts.KeystoreSecret
                (cr.Status.Applied.CommonConfig.ApplicationName ++ "-" ++ "businesscentral"))
              consoleCN cr with
          | ((_, some err), more) => some (.error err, cr, calls ++ more)
          | ((secret, none), more) =>
            some (.ok { env with
                Console := { env.Console with Secrets := env.Console.Secrets ++ [secret] } },
              cr, calls ++ more)
        else some (.ok env, cr, calls)
  else some (.ok env, cr, calls)

/-- The dashbuilder part of `setEnvironmentProperties`; `none` is a panic of
`setConsoleHost`. -/
def provisionDashbuilder (pr : Provisioner) (cr : KieApp) (env : Environment)
    (routes : List Object) (calls : List StoreCall) : Provisioned :=
  match cr.Status.Applied.Objects.Dashbuilder with
  | none => some (.ok env, cr, calls)
  | some _ =>
    if !cr.Status.Applied.CommonConfig.DisableSsl then
      match setConsoleHost pr.consts cr env routes with
      | none => none
      | some (consoleCN, cr) =>
        let env :=
          { env with Dashbuilder := pr.defaults.ConfigureHostname env.Dashbuilder cr consoleCN }
        match cr.Status.Applied.Objects.Dashbuilder with
        | none => none
        | some dashbuilder =>
          if dashbuilder.KeystoreSecret = "" then
            match generateKeystoreSecret pr.getSecret pr.consts pr.keystores
                (pr.consts.KeystoreSecret
                  (cr.Status.Applied.CommonConfig.ApplicationName ++ "-" ++ "dashbuilder"))
                consoleCN cr with
            | ((_, some err), more) => some (.error err, cr, calls ++ more)
            | ((secret, none), more) =>
              some (.ok { env with
                  Dashbuilder :=
                    { env.Dashbuilder with Secrets := env.Dashbuilder.Secrets ++ [secret] } },
                cr, calls ++ more)
          else some (.ok env, cr, calls)
    else some (.ok env, cr, calls)

/-- The loop `for _, rt := range routes` of the server and smart router parts: the host
of the first TLS-enabled route, empty when there is none; `none` is a panic of
`GetRouteHost`. -/
def firstTLSHost (routes : List Object) : List Route → Option String
  | [] => some ""
  | rt :: rest =>
    if checkTLS rt.Spec.TLS then GetRouteHost rt routes
    else firstTLSHost routes rest

/-- The loop `for i, server := range env.Servers` of `setEnvironmentProperties`, from
index `i` on: the servers from that index on as the loop leaves them, with the Store
calls made; the error a keystore generation returned; or `none`, a panic of
`GetRouteHost`. The loop ends at the first omitted server. -/
def provisionServersFrom (pr : Provisioner) (cr : KieApp) (routes : List Object) :
    Nat → List CustomObject → List StoreCall →
      Option (Except Error (List CustomObject) × List StoreCall)
  | _, [], calls => some (.ok [], calls)
  | i, server :: rest, calls =>
    if server.Omit then some (.ok (server :: rest), calls)
    else
      match firstTLSHost routes server.Routes with
      | none => none
      | some serverCN =>
        let serverCN :=
          if serverCN = "" then cr.Status.Applied.CommonConfig.ApplicationName else serverCN
        let server := pr.defaults.ConfigureHostname server cr serverCN
        let (serverSet, kieDeploymentName) := pr.defaults.GetServerSet cr i
        if serverSet.KeystoreSecret = "" ∧ !cr.Status.Applied.CommonConfig.DisableSsl then
          match generateKeystoreSecret pr.getSecret pr.consts pr.keystores
              (pr.consts.KeystoreSecret kieDeploymentName) serverCN cr with
          | ((_, some err), more) => some (.error err, calls ++ more)
          | ((secret, none), more) =>
            match provisionServersFrom pr cr routes (i + 1) rest (calls ++ more) with
            | none => none
            | some (.error err, calls) => some (.error err, calls)
            | some (.ok servers, calls) =>
              some (.ok ({ server with Secrets := server.Secrets ++ [secret] } :: servers), calls)
        else
          match provisionServersFrom pr cr routes (i + 1) rest calls with
          | none => none
          | some (.error err, calls) => some (.error err, calls)
          | some (.ok servers, calls) => some (.ok (server :: servers), calls)

/-- The server part of `setEnvironmentProperties`. -/
def provisionServers (pr : Provisioner) (cr : KieApp) (env : Environment)
    (routes : List Object) (calls : List StoreCall) : Provisioned :=
  match provisionServersFrom pr cr routes 0 env.Servers calls with
  | none => none
  | some (.error err, calls) => some (.error err, cr, calls)
  | some (.ok servers, calls) => some (.ok { env with Servers := servers }, cr, calls)

/-- The smart router part of `setEnvironmentProperties`; `none` is a panic of
`GetRouteHost`. -/
def provisionSmartRouter (pr : Provisioner) (cr : KieApp) (env : Environment)
    (routes : List Object) (calls : List StoreCall) : Provisioned :=
  if !env.SmartRouter.Omit then
    match firstTLSHost routes env.SmartRouter.Routes with
    | none => none
    | some smartCN =>
      let smartCN :=
        if smartCN = "" then cr.Status.Applied.CommonConfig.ApplicationName else smartCN
      let env :=
        { env with SmartRouter := pr.defaults.ConfigureHostname env.SmartRouter cr smartCN }
      if (match cr.Status.Applied.Objects.SmartRouter with
          | none => true
          | some smartRouter => decide (smartRouter.KeystoreSecret = ""))
          && !cr.Status.Applied.CommonConfig.DisableSsl then
        match generateKeystoreSecret pr.getSecret pr.consts pr.keystores
            (pr.consts.KeystoreSecret
              (cr.Status.Applied.CommonConfig.ApplicationName ++ "-" ++ "smartrouter"))
            smartCN cr with
        | ((_, some err), more) => some (.error err, cr, calls ++ more)
        | ((secret, none), more) =>
          some (.ok { env with
              SmartRouter :=
                { env.SmartRouter with Secrets := env.SmartRouter.Secrets ++ [secret] } },
            cr, calls ++ more)
      else some (.ok env, cr, calls)
  else some (.ok env, cr, calls)

/-- One part of `setEnvironmentProperties` after the parts before it: an error or a panic
before ends the function. -/
def Provisioned.andThen (before : Provisioned)
    (part : KieApp → Environment → List StoreCall → Provisioned) : Provisioned :=
  match before with
  | none => none
  | some (.error err, cr, calls) => some (.error err, cr, calls)
  | some (.ok env, cr, calls) => part cr env calls

/-- The environment of `setEnvironmentProperties` before the final
`defaults.ConsolidateObjects`: the truststore, console, dashbuilder, server and smart
router parts in this order. -/
def provisionCredentials (pr : Provisioner) (cr : KieApp) (env : Environment)
    (routes : List Object) (caConfigMap : ConfigMap) : Provisioned :=
  ((((provisionTruststore pr cr env caConfigMap []).andThen
      (fun cr env calls => provisionConsole pr cr env routes calls)).andThen
      (fun cr env calls => provisionDashbuilder pr cr env routes calls)).andThen
      (fun cr env calls => provisionServers pr cr env routes calls)).andThen
      (fun cr env calls => provisionSmartRouter pr cr env routes calls)

/-- The function `setEnvironmentProperties`: the Go results `(env, err)`, the CR as the
function leaves it and the Store calls made; `none` is a panic. -/
def setEnvironmentProperties (pr : Provisioner) (cr : KieApp) (env : Environment)
    (routes : List Object) (caConfigMap : ConfigMap) :
    Option ((Environment × Option Error) × KieApp × List StoreCall) :=
  match provisionCredentials pr cr env routes caConfigMap with
  | none => none
  | some (.error err, cr, calls) => some ((zeroEnvironment, some err), cr, calls)
  | some (.ok env, cr, calls) => some ((pr.defaults.ConsolidateObjects env cr, none), cr, calls)

/-! ## External references (`verifyExternalReferences`) -/

/-- The type names of `allowedObjects` in `verifyExternalReference`, in order: what
`reflect.Indirect(reflect.ValueOf(obj)).Type().Name()` yields for each. -/
def allowedObjects : List String :=
  ["ConfigMap", "Secret", "PersistentVolumeClaim"]

/-- The loop `for _, obj := range allowedObjects` of `verifyExternalReference` and the
`return` after it. The argument `getObject expected name ns` is the read
`reconciler.Service.Get` into an object of the type named `expected`. -/
def verifyAgainst (getObject : String → String → String → Option Error) (ns : String)
    (ref : ObjRef) : List String → Option Error × List StoreCall
  | [] => (some ⟨"", "unsupported Kind: " ++ ref.Kind⟩, [])
  | expected :: rest =>
    if ref.Kind = expected then
      (getObject expected ref.Name ns, [StoreCall.Get expected ref.Name ns])
    else verifyAgainst getObject ns ref rest

/-- The function `verifyExternalReference`: the error returned and the Store calls made. -/
def verifyExternalReference (getObject : String → String → String → Option Error)
    (ns : String) (ref : Option ObjRef) : Option Error × List StoreCall :=
  match ref with
  | none => (none, [])
  | some ref => verifyAgainst getObject ns ref allowedObjects

/-- The function `verifyExternalReferences`: the error returned and the Store calls made. -/
def verifyExternalReferences (getObject : String → String → String → Option Error)
    (cr : KieApp) : Option Error × List StoreCall :=
  let (err, calls) : Option Error × List StoreCall :=
    match cr.Status.Applied.Auth with
    | none => (none, [])
    | some auth =>
      match auth.RoleMapper with
      | none => (none, [])
      | some roleMapper => verifyExternalReference getObject cr.Namespace roleMapper.From
  match cr.Status.Applied.Objects.Console with
  | none => (err, calls)
  | some console =>
    match err, console.GitHooks with
    | none, some gitHooks =>
      let (err, more) := verifyExternalReference getObject cr.Namespace gitHooks.From
      (err, calls ++ more)
    | _, _ => (err, calls)

/-! ## Relations used to state the external reference properties -/

/-- The role mapper reference a CR points to, if any. -/
def roleMapperRef (cr : KieApp) : Option ObjRef :=
  (cr.Status.Applied.Auth.bind (fun auth => auth.RoleMapper)).bind
    (fun roleMapper => roleMapper.From)

/-- The git hooks reference a CR points to, if a console is configured and has one. -/
def gitHooksRef (cr : KieApp) : Option ObjRef :=
  (cr.Status.Applied.Objects.Console.bind (fun console => console.GitHooks)).bind
    (fun gitHooks => gitHooks.From)

/-- A reference is resolvable when it is absent, or names one of the kinds ConfigMap,
Secret and PersistentVolumeClaim and the Store fetches an object of that kind by the name
of the reference in the given namespace. -/
def Resolvable (getObject : String → String → String → Option Error) (ns : String)
    (ref : Option ObjRef) : Prop :=
  ∀ r, ref = some r →
    r.Kind ∈ ["ConfigMap", "Secret", "PersistentVolumeClaim"] ∧
      getObject r.Kind r.Name ns = none

/-- Spec reading of `hasStatusChanges`: the statuses of the two instances are not
structurally equal. -/
def statusNotEqual (inst cachedInstance : KieApp) : Bool :=
  decide (inst.Status ≠ cachedInstance.Status)

/-! ## Indexing in the trigger loop of the DeploymentConfig comparator -/

/-- The loop `for i := range dc1.Spec.Triggers` of the DeploymentConfig comparator with
the indexing `dc2.Spec.Triggers[i]` spelled out, from index `i` on: the outer `none` is
an index out of range, the inner `none` the early `return false`, otherwise the deployed
triggers as the loop leaves them. -/
def maskTriggersIndexed (triggers2 : List DeploymentTriggerPolicy) :
    Nat → List DeploymentTriggerPolicy → Option (Option (List DeploymentTriggerPolicy))
  | _, [] => some (some [])
  | i, trigger1 :: rest =>
    if triggers2.length ≤ i then some none
    else
      match triggers2[i]? with
      | none => none
      | some trigger2 =>
        match maskTriggersIndexed triggers2 (i + 1) rest with
        | none => none
        | some none => some none
        | some (some masked) => some (some (maskTrigger trigger1 trigger2 :: masked))

/-! ## Relations used to state the differ/applier properties -/

/-- What the writer returns for a call in a cluster state. -/
def WriterCall.run {σ : Type} (writer : ResourceWriter σ) :
    WriterCall → σ → (Bool × Option Error) × σ
  | .AddResources resources, s => writer.AddResources resources s
  | .UpdateResources existing resources, s => writer.UpdateResources existing resources s
  | .RemoveResources resources, s => writer.RemoveResources resources s

/-- The calls handed to the writer one after the other, each in the state the call before
it left, up to and including the first call for which the writer returns an error: each
call with what the writer returned for it, and the final cluster state. -/
def runCalls {σ : Type} (writer : ResourceWriter σ) :
    List WriterCall → σ → List WriterEvent × σ
  | [], s => ([], s)
  | call :: rest, s =>
    match call.run writer s with
    | ((changed, some err), s1) => ([⟨call, changed, some err⟩], s1)
    | ((changed, none), s1) =>
      let (events, s2) := runCalls writer rest s1
      (⟨call, changed, none⟩ :: events, s2)

/-- The first error the writer returned. -/
def firstError (events : List WriterEvent) : Option Error :=
  events.findSome? (fun ev => ev.err)

/-- The results `(bool, error)` that the answers of the writer call for: false with the
first error, or the disjunction of the changes reported. -/
def reportedOutcome (events : List WriterEvent) : Bool × Option Error :=
  match firstError events with
  | some err => (false, some err)
  | none => (events.any (fun ev => ev.changed), none)

/-! ## Relations used to state the tag creation properties -/

/-- The error `createLocalImageTag` makes of the error of `Create`: a tag that already
exists is no error. -/
def ignoreAlreadyExists (err : Option Error) : Option Error :=
  match err with
  | none => none
  | some e => if e.IsAlreadyExists then none else some e

/-! ## Relations used to state the status properties -/

/-- The apply step returned no error: `reconcileResources`, called with the writer and the
comparator of the platform, returned `hasUpdates` and a nil error after the writer calls
`events`. -/
def ApplySucceeded {σ : Type} (p : Platform σ) (hasUpdates : Bool)
    (events : List WriterEvent) : Prop :=
  ∃ (inst : KieApp) (requestedResources : List Object) (deployed : ResourceMap) (s s1 : σ),
    reconcileResources (p.writer inst) p.compare requestedResources deployed s
      = ((hasUpdates, none), s1, events)

/-- The transition of package `status` that the apply outcome calls for: Provisioning
after changes, Deployed otherwise. -/
def transitionFor (status : StatusLib) (hasUpdates : Bool) (inst : KieApp) : Bool × KieApp :=
  if hasUpdates then status.SetProvisioning inst else status.SetDeployed inst

/-- The requested resources with the namespace of the CR set on every namespaced one, as
`Reconcile` hands them to `reconcileResources`. -/
def namespacedResources (inst : KieApp) (resources : List Object) : List Object :=
  resources.map (fun resource =>
    if isNamespaced resource then resource.SetNamespace inst.Namespace else resource)

/-! ## Relations used to state the credential properties -/

/-- The routes of the console: those of the dashbuilder when the environment is the
standalone dashbuilder, those of the console otherwise. -/
def consoleRoutes (consts : Constants) (cr : KieApp) (env : Environment) : List Route :=
  if cr.Status.Applied.Environment = consts.RhpamStandaloneDashbuilder then
    env.Dashbuilder.Routes
  else env.Console.Routes

/-- The first TLS-enabled route of the console. -/
def firstTLSRoute (consts : Constants) (cr : KieApp) (env : Environment) : Option Route :=
  (consoleRoutes consts cr env).find? (fun rt => rt.Spec.TLS.isSome)

/-- The deployed route matching `rt` by name and namespace. -/
def deployedMatch (rt : Route) (routes : List Route) : Option Route :=
  routes.find? (fun d => decide (d.Name = rt.Name ∧ d.Namespace = rt.Namespace))

/-- The CR with its `Status.ConsoleHost` replaced. -/
def withConsoleHost (cr : KieApp) (host : String) : KieApp :=
  { cr with Status := { cr.Status with ConsoleHost := host } }

/-! ## Relations used to state the comparator properties -/

/-- The deployed trigger `t1` is the requested trigger `t2`, except that where `t2` carries
image-change parameters with an empty source namespace, `t1` may hold any namespace. -/
def TriggerUpToMaskedNamespace (t1 t2 : DeploymentTriggerPolicy) : Prop :=
  t1 = t2 ∨ ∃ p2 ns, t2.ImageChangeParams = some p2 ∧ p2.From.Namespace = "" ∧
    t1 = { t2 with ImageChangeParams := some { p2 with From := { p2.From with Namespace := ns } } }

/-- The trigger `t` with the source namespace of its image-change parameters `p` replaced. -/
def withTriggerNamespace (t : DeploymentTriggerPolicy) (p : DeploymentTriggerImageChangeParams)
    (ns : String) : DeploymentTriggerPolicy :=
  { t with ImageChangeParams := some { p with From := { p.From with Namespace := ns } } }

/-- The deployment config `dc` with its trigger list replaced. -/
def withTriggers (dc : DeploymentConfig) (triggers : List DeploymentTriggerPolicy) :
    DeploymentConfig :=
  { dc with Spec := { dc.Spec with Triggers := triggers } }

/-- Both configs are the same but for the source namespace of the trigger at one position:
the requested trigger there carries image-change parameters with namespace `nsRequested`,
the deployed one the different namespace `nsDeployed`. -/
def DiffersOnlyInTriggerNamespace (deployed requested : DeploymentConfig)
    (nsDeployed nsRequested : String) : Prop :=
  ∃ before t p after,
    t.ImageChangeParams = some p ∧ p.From.Namespace = nsRequested ∧ nsDeployed ≠ nsRequested ∧
    requested.Spec.Triggers = before ++ t :: after ∧
    deployed = withTriggers requested (before ++ withTriggerNamespace t p nsDeployed :: after)

/-! ## Sample resources -/

/-- A deployment config with one image-change trigger whose source namespace is `ns`. -/
def sampleDC (ns : String) : DeploymentConfig :=
  { Kind := "DeploymentConfig", APIVersion := "apps.openshift.io/v1",
    Name := "rhpam-kieserver", Namespace := "demo", Labels := [("app", "rhpam")],
    Annotations := [], UID := "", ResourceVersion := "", OwnerReferences := [],
    Spec :=
      { Replicas := 1,
        Triggers :=
          [ { Type_ := "ConfigChange", ImageChangeParams := none },
            { Type_ := "ImageChange",
              ImageChangeParams := some
                { Automatic := true, ContainerNames := ["rhpam-kieserver"],
                  From := { Kind := "ImageStreamTag", Namespace := ns,
                            Name := "rhpam-kieserver-rhel8:7.13.5" },
                  LastTriggeredImage := "" } } ],
        Template := none } }

/-- A build config with a source strategy taking its builder image from namespace `ns`,
and the given triggers. -/
def sampleBC (ns : String) (triggers : List BuildTriggerPolicy) : BuildConfig :=
  { Kind := "BuildConfig", APIVersion := "build.openshift.io/v1",
    Name := "rhpam-kieserver", Namespace := "demo", Labels := [("app", "rhpam")],
    Annotations := [], UID := "", ResourceVersion := "", OwnerReferences := [],
    Spec :=
      { Triggers := triggers,
        Strategy :=
          { Type_ := "Source",
            SourceStrategy := some
              { From := { Kind := "ImageStreamTag", Namespace := ns,
                          Name := "rhpam-kieserver-rhel8:7.13.5" },
                ForcePull := true } } } }

/-- A config map with the given labels and data. -/
def sampleCM (labels : GoMap String) (data : GoMap String) : ConfigMap :=
  { Kind := "ConfigMap", APIVersion := "v1",
    Name := "rhpam-kieapp-ca-bundle", Namespace := "demo", Labels := labels,
    Annotations := [], UID := "", ResourceVersion := "", OwnerReferences := [],
    Data := data, BinaryData := [] }

/-- A route named `name` in namespace "demo" with the given host. -/
def sampleRoute (name host : String) : Route :=
  { Kind := "Route", APIVersion := "route.openshift.io/v1",
    Name := name, Namespace := "demo", Labels := [], Annotations := [], UID := "",
    ResourceVersion := "", OwnerReferences := [],
    Spec := { Host := host, TLS := some { Termination := "passthrough" } } }

/-- A writer over a counter of performed calls: every call succeeds and reports a change
exactly when it was given something to write. -/
def countingWriter : ResourceWriter Nat :=
  { AddResources := fun resources n => ((decide (resources ≠ []), none), n + 1),
    UpdateResources := fun _ resources n => ((decide (resources ≠ []), none), n + 1),
    RemoveResources := fun resources n => ((decide (resources ≠ []), none), n + 1) }

/-- A writer whose updates are rejected by the cluster. -/
def rejectingWriter : ResourceWriter Nat :=
  { countingWriter with
    UpdateResources := fun _ _ n => ((false, some ⟨"Conflict", "object was modified"⟩), n + 1) }

/-- A comparison outcome with one kind to change and one kind without changes. -/
def sampleCompare (_deployed : ResourceMap) (requested : List Object) :
    List (ResourceType × ResourceDelta) :=
  [("Service", { Added := [], Updated := [], Removed := [] }),
   ("Route", { Added := requested, Updated := [], Removed := [] }),
   ("ConfigMap", { Added := [], Updated := requested, Removed := [] })]

/-- Values of the package constants used in the samples. -/
def sampleConsts : Constants :=
  { KeystoreName := "keystore.jks", RhpamStandaloneDashbuilder := "rhpam-standalone-dashbuilder",
    ImageRegistry := "registry.redhat.io", TruststoreSecret := "-truststore",
    TruststoreName := "truststore.jks", CaBundleKey := "ca-bundle.crt",
    KeystoreSecret := fun name => name ++ "-app-secret" }

/-- A sub-component descriptor without resources. -/
def emptyCustomObject : CustomObject :=
  { Omit := false, PersistentVolumeClaims := [], ServiceAccounts := [], Secrets := [],
    Roles := [], RoleBindings := [], DeploymentConfigs := [], Services := [],
    StatefulSets := [], Routes := [], ImageStreams := [], BuildConfigs := [], ConfigMaps := [] }

/-- An environment whose console has the given routes. -/
def sampleEnv (routes : List Route) : Environment :=
  { Console := { emptyCustomObject with Routes := routes },
    Dashbuilder := emptyCustomObject, Servers := [], SmartRouter := emptyCustomObject,
    ProcessMigration := emptyCustomObject, Databases := [], Others := [] }

/-- A CR in namespace "demo" with the given application name and keystore password. -/
def sampleCR (appName password : String) : KieApp :=
  let spec : KieAppSpec :=
    { Environment := "rhpam-trial", ImageRegistry := none,
      Objects := { Console := none, Dashbuilder := none, Servers := [], SmartRouter := none },
      CommonConfig := { ApplicationName := appName, KeyStorePassword := password,
                        DisableSsl := false },
      Auth := none, UseImageTags := false, ScheduledImportPolicy := false, Version := "7.13.5" }
  { Kind := "KieApp", APIVersion := "app.kiegroup.org/v2",
    Name := "rhpam-trial", Namespace := "demo", Labels := [], Annotations := [],
    UID := "6b0cd0e3", ResourceVersion := "41", OwnerReferences := [],
    Spec := spec, Status := { Applied := spec, ConsoleHost := "", Phase := "" } }

/-- A toy keystore format, the password followed by a zero byte and the CN; passwords
shorter than six bytes are rejected. -/
def sampleKeystores : Keystores :=
  { CommonName := fun keystore password =>
      if keystore.take (password.length + 1) = password ++ [0] then
        some (String.mk ((keystore.drop (password.length + 1)).map Char.ofNat))
      else none,
    GenerateKeystore := fun cn password =>
      if password.length < 6 then .error ⟨"", "keystore password is too short"⟩
      else .ok (password ++ [0] ++ stringBytes cn) }

/-- The keystore secret of the console of "rhpam", generated for the CN `cn` and the
password "changeit". -/
def sampleKeystoreSecret (cn : String) : Secret :=
  { zeroSecret with
    Kind := "Secret", APIVersion := "v1", Name := "rhpam-businesscentral-app-secret",
    Namespace := "demo", Labels := [("app", "rhpam"), ("application", "rhpam")],
    Type_ := "Opaque",
    Data := [("keystore.jks", stringBytes "changeit" ++ [0] ++ stringBytes cn)] }

/-- A platform over a counter of performed writes: the CR "rhpam-trial" exists, its
environment asks for one console route, and no route is deployed yet. -/
def samplePlatform : Platform Nat :=
  { embeddedFiles := fun n => n,
    GetInstance := fun _ _ => .ok (sampleCR "rhpam" "changeit"),
    getDeployedResources := fun _ _ => .ok [],
    setFailedStatus := fun inst _ _ n => (inst, n + 1),
    GetEnvironment := fun inst _ => (inst, .ok (sampleEnv [sampleRoute "rhpam-rhpamcentr" ""])),
    verifyExternalReferences := fun _ _ => none,
    ListRoutes := fun _ _ => .ok [],
    CompareArrays := fun deployed requested =>
      { Added := requested.filter (fun r => !deployed.contains r), Updated := [],
        Removed := deployed.filter (fun r => !requested.contains r) },
    writer := fun _ => countingWriter,
    compare := sampleCompare,
    IsOcpCA := fun _ => false,
    GetCAConfigMap := fun _ _ => .error ⟨"NotFound", "config map not found"⟩,
    setEnvironmentProperties := fun inst env _ _ _ => (inst, .ok env),
    getKubernetesResources := fun _ _ n => ([], n),
    setDeploymentStatus := fun inst _ => inst,
    checkKieServerConfigMap := fun _ _ n => n,
    GetCached := fun _ _ => .ok (sampleCR "rhpam" "changeit"),
    checkStatus := fun _ _ hasUpdates n => (({ Requeue := hasUpdates, RequeueAfter := 0 }, none), n) }

/-- An image stream tag client over the list of the existing tags, by namespace and name. -/
def sampleTagsClient : ImageStreamTagsClient (List (String × String)) :=
  { Get := fun ns name store =>
      if (ns, name) ∈ store then none else some ⟨"NotFound", "image stream tag not found"⟩,
    Create := fun ns tag store =>
      if (ns, tag.Name) ∈ store then (some ⟨"AlreadyExists", "image stream tag exists"⟩, store)
      else (none, store ++ [(ns, tag.Name)]) }

/-- Helpers of package `defaults` for the samples: product "rhpam", no context in image
URLs, hostnames and consolidation left out. -/
def sampleDefaults : Defaults :=
  { GetProduct := fun _ => "rhpam",
    GetMajorMinorMicro := fun _ => ("7", "13", "5"),
    GetImage := fun _ => ("", "", ""),
    IsOcpCA := fun _ => false,
    ConfigureHostname := fun object _ _ => object,
    GetServerSet := fun cr index =>
      ((cr.Status.Applied.Objects.Servers.get? index).getD
          { Name := "", Deployments := none, KeystoreSecret := "" },
        cr.Status.Applied.CommonConfig.ApplicationName ++ "-kieserver-" ++ toString index),
    ConsolidateObjects := fun env _ => env }

/-- A process environment without settings. -/
def sampleLogs : Logs :=
  { GetBoolEnv := fun _ => false, GetEnv := fun _ fallback => fallback }

/-- The sample CR with an image registry configured. -/
def sampleCRWithRegistry : KieApp :=
  { sampleCR "rhpam" "changeit" with
    Status := { (sampleCR "rhpam" "changeit").Status with
      Applied := { (sampleCR "rhpam" "changeit").Status.Applied with
        ImageRegistry := some { Registry := "quay.io", Insecure := false } } } }

/-- Transitions of package `status` for the samples: the phase is set, Provisioning asks
for a requeue. -/
def sampleStatusLib : StatusLib :=
  { SetProvisioning := fun inst =>
      (true, { inst with Status := { inst.Status with Phase := "Provisioning" } }),
    SetDeployed := fun inst =>
      (false, { inst with Status := { inst.Status with Phase := "Deployed" } }) }

/-- A status write over a counter of performed writes that always succeeds. -/
def sampleStatusUpdate (_inst : KieApp) (n : Nat) : Option Error × Nat :=
  (none, n + 1)

/-- A deployed deployment config with one secret-backed volume. -/
def sampleDCWithSecret (name secretName : String) : DeploymentConfig :=
  { sampleDC "" with
    Name := name,
    Spec := { (sampleDC "").Spec with
      Template := some
        { Spec := { Volumes := [{ Name := "keystore-volume",
                                  Secret := some { SecretName := secretName } }],
                    Containers := [] } } } }

/-- The console keystore secret, owned by the sample CR. -/
def ownedKeystoreSecret : Secret :=
  { sampleKeystoreSecret "rhpam-demo.apps.example.com" with
    OwnerReferences := [{ RefKind := "KieApp", RefName := "rhpam-trial", UID := "6b0cd0e3" }] }

/-- A cluster in which the given deployment configs are owned by the CR and the given
secrets exist; there is no console link. -/
def sampleReader (dcs : List DeploymentConfig) (store : List Secret) : DeployedReader :=
  { ListAll := fun _ => .ok [("DeploymentConfig", dcs.map Object.deploymentConfig)],
    GetSecret := getSecretFrom store,
    GetConsoleLink := fun _ => .error ⟨"NotFound", "console link not found"⟩,
    semverCompare := fun _ _ => 0 }

/-- A toy truststore format, a marker byte followed by the CA bundle; a bundle that does
not start with a dash (as PEM blocks do) holds no certificate and is rejected. -/
def sampleTruststores : Truststores :=
  { Validates := fun truststore caBundle => decide (truststore = 1 :: caBundle),
    GenerateTruststore := fun caBundle =>
      if caBundle.head? = some 45 then .ok (1 :: caBundle)
      else .error ⟨"", "no certificate in the CA bundle"⟩ }

/-- The CA config map of the CR "rhpam-trial" with the given bundle. -/
def sampleCAConfigMap (bundle : String) : ConfigMap :=
  { sampleCM [] [("ca-bundle.crt", bundle)] with
    Name := "rhpam-trial-kieapp-ca-bundle", Namespace := "demo" }

/-- The truststore secret of "rhpam" generated for the given bundle. -/
def sampleTruststoreSecret (bundle : String) : Secret :=
  { zeroSecret with
    Kind := "Secret", APIVersion := "v1", Name := "rhpam-truststore",
    Labels := [("app", "rhpam"), ("application", "rhpam")],
    Type_ := "Opaque",
    Data := [("truststore.jks", 1 :: stringBytes bundle)] }

/-- The sample helpers of package `defaults` with a hostname configuration that can be
seen: the hostname is recorded as a config map of the descriptor. -/
def hostnameDefaults (ocpCA : Bool) : Defaults :=
  { sampleDefaults with
    IsOcpCA := fun _ => ocpCA,
    ConfigureHostname := fun object _ hostname =>
      { object with ConfigMaps := object.ConfigMaps ++ [sampleCM [] [("HOSTNAME_HTTPS", hostname)]] } }

/-- A provisioner over a Store that holds the given secrets. -/
def sampleProvisioner (store : List Secret) (ocpCA : Bool) : Provisioner :=
  { getSecret := getSecretFrom store, consts := sampleConsts, defaults := hostnameDefaults ocpCA,
    keystores := sampleKeystores, truststores := sampleTruststores }

/-- The sample CR with two server sets, neither naming a keystore secret. -/
def sampleServerCR : KieApp :=
  let cr := sampleCR "rhpam" "changeit"
  let spec : KieAppSpec :=
    { cr.Spec with
      Objects := { cr.Spec.Objects with
        Servers := [{ Name := "rhpam-kieserver-0", Deployments := none, KeystoreSecret := "" },
                    { Name := "rhpam-kieserver-1", Deployments := none, KeystoreSecret := "" }] } }
  { cr with Spec := spec, Status := { cr.Status with Applied := spec } }

/-- A server marked omitted. -/
def omittedServer : CustomObject :=
  { emptyCustomObject with Omit := true }

/-- A server that is not omitted, with one deployment config and no route. -/
def presentServer : CustomObject :=
  { emptyCustomObject with DeploymentConfigs := [sampleDC ""] }

/-- An environment with the given servers, without console and smart router, and with one
descriptor of other resources. -/
def serversEnv (servers : List CustomObject) : Environment :=
  { Console := omittedServer, Dashbuilder := emptyCustomObject, Servers := servers,
    SmartRouter := omittedServer, ProcessMigration := emptyCustomObject, Databases := [],
    Others := [emptyCustomObject] }

/-- The reads of a Store that holds objects of the given kinds, names and namespaces. -/
def getObjectFrom (store : List (String × String × String)) (kind name ns : String) :
    Option Error :=
  if (kind, name, ns) ∈ store then none
  else some ⟨"NotFound", kind ++ " not found: " ++ name⟩

/-- The sample CR with a console, a role mapper and git hooks that point to the given
references. -/
def sampleCRWithRefs (roleMapper gitHooks : Option ObjRef) : KieApp :=
  let cr := sampleCR "rhpam" "changeit"
  let spec : KieAppSpec :=
    { cr.Spec with
      Auth := some { RoleMapper := some { From := roleMapper } },
      Objects := { cr.Spec.Objects with
        Console := some { KeystoreSecret := "", GitHooks := some { From := gitHooks } } } }
  { cr with Spec := spec, Status := { cr.Status with Applied := spec } }

/-- A build config with a Docker strategy, that is, without a source strategy. -/
def sampleDockerBC : BuildConfig :=
  { sampleBC "" [] with
    Spec := { Triggers := [], Strategy := { Type_ := "Docker", SourceStrategy := none } } }

/-- A writer that finds everything in place: every call succeeds, changes nothing and
reports no change. -/
def idleWriter : ResourceWriter Nat :=
  { AddResources := fun _ n => ((false, none), n),
    UpdateResources := fun _ _ n => ((false, none), n),
    RemoveResources := fun _ n => ((false, none), n) }

/-- The sample platform with the console route of the environment already deployed. -/
def samplePlatformWithRoutes : Platform Nat :=
  { samplePlatform with
    ListRoutes := fun _ _ => .ok
      [Object.route
        { sampleRoute "rhpam-rhpamcentr" "" with
          Kind := "Route", APIVersion := "route.openshift.io/v1", Namespace := "demo" }] }

/-- An image stream tag client over the list of the tag objects of the cluster. -/
def recordingTagsClient : ImageStreamTagsClient (List ImageStreamTag) :=
  { Get := fun ns name store =>
      if store.any (fun tag => decide (tag.Namespace = ns ∧ tag.Name = name)) then none
      else some ⟨"NotFound", "image stream tag not found"⟩,
    Create := fun ns tag store =>
      if store.any (fun other => decide (other.Namespace = ns ∧ other.Name = tag.Name)) then
        (some ⟨"AlreadyExists", "image stream tag exists"⟩, store)
      else (none, store ++ [{ tag with Namespace := ns }]) }

/-- An image stream tag client of a cluster that refuses every creation. -/
def forbiddingTagsClient : ImageStreamTagsClient (List ImageStreamTag) :=
  { recordingTagsClient with
    Create := fun _ _ store => (some ⟨"Forbidden", "image stream tags are read-only"⟩, store) }

/-- A writer whose creations are rejected by the cluster. -/
def addRejectingWriter : ResourceWriter Nat :=
  { countingWriter with
    AddResources := fun _ n => ((false, some ⟨"Forbidden", "creation is not allowed"⟩), n + 1) }

/-- A writer whose deletions are rejected by the cluster. -/
def removeRejectingWriter : ResourceWriter Nat :=
  { countingWriter with
    RemoveResources := fun _ n => ((false, some ⟨"Forbidden", "deletion is not allowed"⟩), n + 1) }

/-! ## Lemmas on the trigger loop -/

theorem maskTrigger_of_upTo (t1 t2 : DeploymentTriggerPolicy)
    (h : TriggerUpToMaskedNamespace t1 t2) : maskTrigger t1 t2 = t2 := by
  rcases h with rfl | ⟨p2, ns, hp, hns, rfl⟩
  · obtain ⟨ty, icp⟩ := t1
    cases icp with
    | none => rfl
    | some p =>
      obtain ⟨a, c, ⟨k, n, nm⟩, l⟩ := p
      by_cases hn : n = ""
      · subst hn; simp [maskTrigger]
      · simp [maskTrigger, hn]
  · obtain ⟨ty, icp⟩ := t2
    simp only at hp
    subst hp
    obtain ⟨a, c, ⟨k, n, nm⟩, l⟩ := p2
    simp only at hns
    subst hns
    simp [maskTrigger]

theorem maskTriggers_of_upTo (l1 l2 : List DeploymentTriggerPolicy)
    (h : List.Forall₂ TriggerUpToMaskedNamespace l1 l2) : maskTriggers l1 l2 = some l2 := by
  induction h with
  | nil => rfl
  | cons hhead _ ih => simp [maskTriggers, ih, maskTrigger_of_upTo _ _ hhead]

theorem maskTriggers_self (l : List DeploymentTriggerPolicy) : maskTriggers l l = some l :=
  maskTriggers_of_upTo l l (List.forall₂_same.mpr (fun _ _ => Or.inl rfl))

/-! ## Comparator theorems -/

/-- C1: a deployed DeploymentConfig that is the requested one except for the source
namespace at trigger positions where both carry image-change parameters and the requested
namespace is empty is handed to the default comparator with those namespaces cleared, so
the default comparator sees two identical configs; with structural equality as the default,
the comparator returns true. -/
theorem dcComparator_clears_unresolved_namespace (deployed requested : DeploymentConfig)
    (hrest : deployed = withTriggers requested deployed.Spec.Triggers)
    (htriggers : List.Forall₂ TriggerUpToMaskedNamespace
      deployed.Spec.Triggers requested.Spec.Triggers) :
    (∀ defaultDCComparator : DeploymentConfig → DeploymentConfig → Bool,
      dcComparator defaultDCComparator deployed requested
        = defaultDCComparator requested requested) ∧
    dcComparator deepEquals deployed requested = true := by
  have hmask := maskTriggers_of_upTo _ _ htriggers
  have key : ∀ defaultDCComparator : DeploymentConfig → DeploymentConfig → Bool,
      dcComparator defaultDCComparator deployed requested
        = defaultDCComparator requested requested := by
    intro d
    unfold dcComparator
    rw [hmask]
    simp only
    rw [hrest]
    rfl
  exact ⟨key, by rw [key]; simp [deepEquals]⟩

theorem dcComparator_clears_unresolved_namespace_witness :
    sampleDC "openshift" = withTriggers (sampleDC "") (sampleDC "openshift").Spec.Triggers ∧
    dcComparator deepEquals (sampleDC "openshift") (sampleDC "") = true :=
  ⟨by decide,
   (dcComparator_clears_unresolved_namespace (sampleDC "openshift") (sampleDC "") (by decide)
      (List.Forall₂.cons (Or.inl rfl)
        (List.Forall₂.cons
          (Or.inr ⟨_, "openshift", rfl, rfl, rfl⟩) List.Forall₂.nil))).2⟩

theorem maskTriggers_at (before after : List DeploymentTriggerPolicy)
    (t1 t2 : DeploymentTriggerPolicy) :
    maskTriggers (before ++ t1 :: after) (before ++ t2 :: after)
      = some (before ++ maskTrigger t1 t2 :: after) := by
  induction before with
  | nil => simp [maskTriggers, maskTriggers_self]
  | cons b bs ih => simp [maskTriggers, ih, maskTrigger_of_upTo b b (Or.inl rfl)]

theorem maskTrigger_withTriggerNamespace (t : DeploymentTriggerPolicy)
    (p : DeploymentTriggerImageChangeParams) (ns : String) (hp : t.ImageChangeParams = some p) :
    maskTrigger (withTriggerNamespace t p ns) t
      = if p.From.Namespace = "" then t else withTriggerNamespace t p ns := by
  obtain ⟨ty, icp⟩ := t
  simp only at hp
  subst hp
  obtain ⟨a, c, ⟨k, n, nm⟩, l⟩ := p
  by_cases hn : n = ""
  · subst hn; simp [maskTrigger, withTriggerNamespace]
  · simp [maskTrigger, withTriggerNamespace, hn]

/-- C2 (counterexample): the deployed and the requested config differ only in the source
namespace of their image-change trigger ("demo" deployed, "openshift" requested), and the
comparator judges them different. -/
theorem dcComparator_requested_namespace_counterexample :
    DiffersOnlyInTriggerNamespace (sampleDC "demo") (sampleDC "openshift") "demo" "openshift" ∧
    dcComparator deepEquals (sampleDC "demo") (sampleDC "openshift") = false :=
  ⟨⟨[{ Type_ := "ConfigChange", ImageChangeParams := none }], _, _, [],
      rfl, rfl, by decide, rfl, by decide⟩, by decide⟩

/-- C2 (amended): for a deployed and a requested DeploymentConfig that differ only in the
source namespace of one trigger, the comparator (default taken as structural equality)
judges them equivalent exactly when the requested side leaves that namespace empty. -/
theorem dcComparator_namespace_only_iff (deployed requested : DeploymentConfig)
    (nsDeployed nsRequested : String)
    (h : DiffersOnlyInTriggerNamespace deployed requested nsDeployed nsRequested) :
    dcComparator deepEquals deployed requested = true ↔ nsRequested = "" := by
  obtain ⟨before, t, p, after, hp, hns, hne, hreq, hdep⟩ := h
  have hdt : deployed.Spec.Triggers = before ++ withTriggerNamespace t p nsDeployed :: after := by
    rw [hdep]; rfl
  unfold dcComparator
  rw [hdt, hreq, maskTriggers_at, maskTrigger_withTriggerNamespace t p nsDeployed hp, hns]
  simp only [deepEquals, decide_eq_true_eq]
  constructor
  · intro heq
    by_contra hcon
    rw [if_neg hcon] at heq
    have h2 := congrArg (fun dc : DeploymentConfig => dc.Spec.Triggers) heq
    simp only [hreq] at h2
    have h3 := List.append_cancel_left h2
    have h4 : withTriggerNamespace t p nsDeployed = t := (List.cons.inj h3).1
    have h5 := congrArg (fun x : DeploymentTriggerPolicy =>
      x.ImageChangeParams.map (fun q => q.From.Namespace)) h4
    simp [withTriggerNamespace, hp, hns] at h5
    exact hne h5
  · intro hempty
    rw [if_pos hempty, hdep]
    obtain ⟨tm, om, ⟨r, tr, tpl⟩⟩ := requested
    simp only at hreq
    subst hreq
    rfl

theorem dcComparator_namespace_only_iff_witness :
    DiffersOnlyInTriggerNamespace (sampleDC "openshift") (sampleDC "") "openshift" "" ∧
    (dcComparator deepEquals (sampleDC "openshift") (sampleDC "") = true ↔ "" = "") :=
  have h : DiffersOnlyInTriggerNamespace (sampleDC "openshift") (sampleDC "") "openshift" "" :=
    ⟨[{ Type_ := "ConfigChange", ImageChangeParams := none }], _, _, [],
      rfl, rfl, by decide, rfl, by decide⟩
  ⟨h, dcComparator_namespace_only_iff _ _ _ _ h⟩

/-- C3: for a deployed and a requested BuildConfig that both declare a source strategy and
are identical except for the strategy's source namespace and for the deployed side having
triggers where the requested side declares none, the comparator (default taken as
structural equality) returns true; whatever the default comparator, it is handed the
deployed config with namespace and triggers overwritten by the requested values, that is,
the requested config itself. -/
theorem bcComparator_overwrites_namespace_and_triggers (deployed requested : BuildConfig)
    (s2 : SourceBuildStrategy) (ns : String)
    (hs2 : requested.Spec.Strategy.SourceStrategy = some s2)
    (hrest : deployed =
      { requested with
        Spec := { requested.Spec with
          Triggers := deployed.Spec.Triggers
          Strategy := { requested.Spec.Strategy with
            SourceStrategy := some { s2 with From := { s2.From with Namespace := ns } } } } })
    (htriggers : deployed.Spec.Triggers = requested.Spec.Triggers ∨
      (deployed.Spec.Triggers ≠ [] ∧ requested.Spec.Triggers = [])) :
    (∀ defaultBCComparator : BuildConfig → BuildConfig → Bool,
      bcComparator defaultBCComparator deployed requested
        = some (defaultBCComparator requested requested)) ∧
    bcComparator deepEquals deployed requested = some true := by
  have key : ∀ defaultBCComparator : BuildConfig → BuildConfig → Bool,
      bcComparator defaultBCComparator deployed requested
        = some (defaultBCComparator requested requested) := by
    intro d
    obtain ⟨tm, om, ⟨tr, ⟨ty, ss⟩⟩⟩ := requested
    simp only at hs2
    subst hs2
    obtain ⟨fr, fp⟩ := s2
    obtain ⟨k, n, nm⟩ := fr
    generalize hdt : deployed.Spec.Triggers = dtr at hrest htriggers
    subst hrest
    simp only at htriggers
    rcases htriggers with rfl | ⟨hne, rfl⟩
    · by_cases hlen : dtr.length > 0 ∧ dtr.length = 0
      · omega
      · simp [bcComparator]
    · have hpos : dtr.length > 0 := List.length_pos.mpr hne
      simp [bcComparator, hpos]
  exact ⟨key, by rw [key]; simp [deepEquals]⟩

theorem bcComparator_overwrites_namespace_and_triggers_witness :
    bcComparator deepEquals
      (sampleBC "openshift" [{ Type_ := "GitHub", WebHookSecret := "s3cr3t" }])
      (sampleBC "" []) = some true :=
  (bcComparator_overwrites_namespace_and_triggers
    (sampleBC "openshift" [{ Type_ := "GitHub", WebHookSecret := "s3cr3t" }]) (sampleBC "" [])
    { From := { Kind := "ImageStreamTag", Namespace := "",
                Name := "rhpam-kieserver-rhel8:7.13.5" }, ForcePull := true }
    "openshift" rfl (by decide) (Or.inr ⟨by decide, rfl⟩)).2

/-- C4: the ConfigMap comparator returns true exactly when name, namespace, labels and
annotations are equal and, unless the (deployed) config map carries the CA-bundle
injection label with value "true", data and binary data are equal too; when either side
carries the label, the result is the same whatever the data and binary data of both
sides. -/
theorem configMapComparator_iff (deployed requested : ConfigMap) :
    (configMapComparator deployed requested = true ↔
      deployed.Name = requested.Name ∧ deployed.Namespace = requested.Namespace ∧
      deployed.Labels = requested.Labels ∧ deployed.Annotations = requested.Annotations ∧
      (deployed.Labels.get injectCABundleLabel ≠ "true" →
        deployed.Data = requested.Data ∧ deployed.BinaryData = requested.BinaryData)) ∧
    (deployed.Labels.get injectCABundleLabel = "true" ∨
        requested.Labels.get injectCABundleLabel = "true" →
      ∀ (data1 data2 : GoMap String) (binary1 binary2 : GoMap Bytes),
        configMapComparator { deployed with Data := data1, BinaryData := binary1 }
            { requested with Data := data2, BinaryData := binary2 }
          = configMapComparator deployed requested) := by
  have hiff : ∀ d r : ConfigMap, (configMapComparator d r = true ↔
      d.Name = r.Name ∧ d.Namespace = r.Namespace ∧
      d.Labels = r.Labels ∧ d.Annotations = r.Annotations ∧
      (d.Labels.get injectCABundleLabel ≠ "true" →
        d.Data = r.Data ∧ d.BinaryData = r.BinaryData)) := by
    intro d r
    by_cases hl : d.Labels.get injectCABundleLabel = "true"
    · simp [configMapComparator, configMapPairs, EqualPairs, Equals, hl]
    · simp [configMapComparator, configMapPairs, EqualPairs, Equals, hl]
  refine ⟨hiff deployed requested, ?_⟩
  intro hlabel data1 data2 binary1 binary2
  rw [Bool.eq_iff_iff, hiff, hiff]
  simp only
  constructor
  · rintro ⟨h1, h2, h3, h4, _⟩
    refine ⟨h1, h2, h3, h4, fun hne => ?_⟩
    rcases hlabel with hd | hr
    · exact absurd hd hne
    · rw [h3] at hne; exact absurd hr hne
  · rintro ⟨h1, h2, h3, h4, _⟩
    refine ⟨h1, h2, h3, h4, fun hne => ?_⟩
    rcases hlabel with hd | hr
    · exact absurd hd hne
    · rw [h3] at hne; exact absurd hr hne

theorem configMapComparator_iff_witness :
    configMapComparator
      (sampleCM [(injectCABundleLabel, "true")] [("ca-bundle.crt", "-----BEGIN CERTIFICATE-----")])
      (sampleCM [(injectCABundleLabel, "true")] []) = true ∧
    configMapComparator (sampleCM [] [("ca-bundle.crt", "x")]) (sampleCM [] []) = false :=
  ⟨((configMapComparator_iff _ _).1).2 ⟨rfl, rfl, rfl, rfl, fun h => absurd rfl h⟩, by decide⟩

/-! ## Differ/Applier theorems -/

/-- Outcome of the delta loop: either it ran to the end, every call succeeded and the
result is the disjunction of the flags reported, or it stopped at the first failed call
and returned that error. -/
theorem reconcileDeltas_outcome {σ : Type} (writer : ResourceWriter σ) (deployed : ResourceMap) :
    ∀ (deltas : List (ResourceType × ResourceDelta)) (hasUpdates : Bool) (s : σ),
      ((reconcileDeltas writer deployed deltas hasUpdates s).1
          = (hasUpdates || (reconcileDeltas writer deployed deltas hasUpdates s).2.2.any
              (fun ev => ev.changed), none) ∧
        (∀ ev ∈ (reconcileDeltas writer deployed deltas hasUpdates s).2.2, ev.err = none) ∧
        (reconcileDeltas writer deployed deltas hasUpdates s).2.2.map (fun ev => ev.call)
          = plannedCalls deployed deltas) ∨
      (∃ e init last,
        (reconcileDeltas writer deployed deltas hasUpdates s).1 = (false, some e) ∧
        (reconcileDeltas writer deployed deltas hasUpdates s).2.2 = init ++ [last] ∧
        last.err = some e ∧ (∀ ev ∈ init, ev.err = none) ∧
        ((reconcileDeltas writer deployed deltas hasUpdates s).2.2.map (fun ev => ev.call))
          <+: plannedCalls deployed deltas) := by
  intro deltas
  induction deltas with
  | nil => intro hu s; left; simp [reconcileDeltas, plannedCalls]
  | cons entry rest ih =>
    intro hu s
    obtain ⟨k, delta⟩ := entry
    by_cases hc : delta.HasChanges = true
    · have hplan : plannedCalls deployed ((k, delta) :: rest)
          = plannedCallsOfKind deployed (k, delta) ++ plannedCalls deployed rest := by
        simp [plannedCalls, hc]
      rcases hadd : writer.AddResources delta.Added s with ⟨⟨added, _ | err⟩, s1⟩
      · rcases hupd : writer.UpdateResources (deployed.get k) delta.Updated s1
          with ⟨⟨updated, _ | err⟩, s2⟩
        · rcases hrem : writer.RemoveResources delta.Removed s2 with ⟨⟨removed, _ | err⟩, s3⟩
          · have hstep : reconcileDeltas writer deployed ((k, delta) :: rest) hu s
                = ((reconcileDeltas writer deployed rest (hu || added || updated || removed) s3).1,
                   (reconcileDeltas writer deployed rest (hu || added || updated || removed) s3).2.1,
                   ⟨.AddResources delta.Added, added, none⟩ ::
                   ⟨.UpdateResources (deployed.get k) delta.Updated, updated, none⟩ ::
                   ⟨.RemoveResources delta.Removed, removed, none⟩ ::
                   (reconcileDeltas writer deployed rest
                      (hu || added || updated || removed) s3).2.2) := by
              simp [reconcileDeltas, hc, hadd, hupd, hrem]
            rw [hstep]
            rcases ih (hu || added || updated || removed) s3 with
              ⟨h1, h2, h3⟩ | ⟨e, init, last, h1, h2, h3, h4, h5⟩
            · left
              refine ⟨?_, ?_, ?_⟩
              · rw [h1]; simp [Bool.or_assoc]
              · intro ev hev
                simp only [List.mem_cons] at hev
                rcases hev with rfl | rfl | rfl | hev
                · rfl
                · rfl
                · rfl
                · exact h2 ev hev
              · simp [hplan, plannedCallsOfKind, h3]
            · right
              refine ⟨e, (⟨.AddResources delta.Added, added, none⟩ : WriterEvent) ::
                (⟨.UpdateResources (deployed.get k) delta.Updated, updated, none⟩ : WriterEvent) ::
                (⟨.RemoveResources delta.Removed, removed, none⟩ : WriterEvent) :: init, last, ?_, ?_, h3, ?_, ?_⟩
              · exact h1
              · simp [h2]
              · intro ev hev
                simp only [List.mem_cons] at hev
                rcases hev with rfl | rfl | rfl | hev
                · rfl
                · rfl
                · rfl
                · exact h4 ev hev
              · obtain ⟨t, ht⟩ := h5
                refine ⟨t, ?_⟩
                simp [hplan, plannedCallsOfKind, ← ht]
          · right
            refine ⟨err, [(⟨.AddResources delta.Added, added, none⟩ : WriterEvent),
                (⟨.UpdateResources (deployed.get k) delta.Updated, updated, none⟩ : WriterEvent)],
              ⟨.RemoveResources delta.Removed, removed, some err⟩, ?_, ?_, rfl, ?_, ?_⟩
            · simp [reconcileDeltas, hc, hadd, hupd, hrem]
            · simp [reconcileDeltas, hc, hadd, hupd, hrem]
            · intro ev hev
              simp only [List.mem_cons, List.mem_singleton, List.not_mem_nil, or_false] at hev
              rcases hev with rfl | rfl <;> rfl
            · refine ⟨plannedCalls deployed rest, ?_⟩
              simp [reconcileDeltas, hc, hadd, hupd, hrem, hplan, plannedCallsOfKind]
        · right
          refine ⟨err, [(⟨.AddResources delta.Added, added, none⟩ : WriterEvent)],
            ⟨.UpdateResources (deployed.get k) delta.Updated, updated, some err⟩,
            ?_, ?_, rfl, ?_, ?_⟩
          · simp [reconcileDeltas, hc, hadd, hupd]
          · simp [reconcileDeltas, hc, hadd, hupd]
          · intro ev hev
            simp only [List.mem_singleton] at hev
            subst hev; rfl
          · refine ⟨.RemoveResources delta.Removed :: plannedCalls deployed rest, ?_⟩
            simp [reconcileDeltas, hc, hadd, hupd, hplan, plannedCallsOfKind]
      · right
        refine ⟨err, [], ⟨.AddResources delta.Added, added, some err⟩, ?_, ?_, rfl, ?_, ?_⟩
        · simp [reconcileDeltas, hc, hadd]
        · simp [reconcileDeltas, hc, hadd]
        · intro ev hev; simp at hev
        · refine ⟨.UpdateResources (deployed.get k) delta.Updated ::
            .RemoveResources delta.Removed :: plannedCalls deployed rest, ?_⟩
          simp [reconcileDeltas, hc, hadd, hplan, plannedCallsOfKind]
    · have hplan : plannedCalls deployed ((k, delta) :: rest) = plannedCalls deployed rest := by
        simp [plannedCalls, hc]
      have hstep : reconcileDeltas writer deployed ((k, delta) :: rest) hu s
          = reconcileDeltas writer deployed rest hu s := by
        simp [reconcileDeltas, hc]
      rw [hstep, hplan]
      exact ih hu s

theorem failed_event_is_last (before after init : List WriterEvent) (failed last : WriterEvent)
    (e : Error) (hlog : before ++ failed :: after = init ++ [last]) (herr : failed.err = some e)
    (hinit : ∀ ev ∈ init, ev.err = none) : after = [] ∧ failed = last := by
  rcases List.eq_nil_or_concat after with rfl | ⟨after1, x, rfl⟩
  · have h := List.append_inj' hlog rfl
    exact ⟨rfl, (List.cons.inj h.2).1⟩
  · have hlog2 : (before ++ failed :: after1) ++ [x] = init ++ [last] := by
      rw [← hlog]; simp
    have h := List.append_inj' hlog2 rfl
    have hmem : failed ∈ init := by rw [← h.1]; simp
    have := hinit failed hmem
    rw [herr] at this
    cases this

theorem plannedCalls_cons_changed (deployed : ResourceMap) (resourceType : ResourceType)
    (delta : ResourceDelta) (rest : List (ResourceType × ResourceDelta))
    (hc : delta.HasChanges = true) :
    plannedCalls deployed ((resourceType, delta) :: rest)
      = .AddResources delta.Added ::
        .UpdateResources (deployed.get resourceType) delta.Updated ::
        .RemoveResources delta.Removed :: plannedCalls deployed rest := by
  simp [plannedCalls, hc, plannedCallsOfKind]

theorem plannedCalls_cons_unchanged (deployed : ResourceMap) (resourceType : ResourceType)
    (delta : ResourceDelta) (rest : List (ResourceType × ResourceDelta))
    (hc : ¬ delta.HasChanges = true) :
    plannedCalls deployed ((resourceType, delta) :: rest) = plannedCalls deployed rest := by
  simp [plannedCalls, hc]

/-- The delta loop returns what the writer returned: the calls of the kinds with changes
are handed to the writer in order, each in the state the call before it left, up to the
first error. -/
theorem reconcileDeltas_eq_runCalls {σ : Type} (writer : ResourceWriter σ)
    (deployed : ResourceMap) :
    ∀ (deltas : List (ResourceType × ResourceDelta)) (hasUpdates : Bool) (s : σ),
      reconcileDeltas writer deployed deltas hasUpdates s
        = ((match firstError (runCalls writer (plannedCalls deployed deltas) s).1 with
            | some err => (false, some err)
            | none =>
              (hasUpdates ||
                (runCalls writer (plannedCalls deployed deltas) s).1.any (fun ev => ev.changed),
               none)),
           (runCalls writer (plannedCalls deployed deltas) s).2,
           (runCalls writer (plannedCalls deployed deltas) s).1) := by
  intro deltas
  induction deltas with
  | nil => intro hu s; simp [reconcileDeltas, plannedCalls, runCalls, firstError]
  | cons entry rest ih =>
    intro hu s
    obtain ⟨k, delta⟩ := entry
    by_cases hc : delta.HasChanges = true
    · rw [plannedCalls_cons_changed deployed k delta rest hc]
      rcases hadd : writer.AddResources delta.Added s with ⟨⟨added, _ | err⟩, s1⟩
      · rcases hupd : writer.UpdateResources (deployed.get k) delta.Updated s1
          with ⟨⟨updated, _ | err⟩, s2⟩
        · rcases hrem : writer.RemoveResources delta.Removed s2 with ⟨⟨removed, _ | err⟩, s3⟩
          · have hstep : reconcileDeltas writer deployed ((k, delta) :: rest) hu s
                = ((reconcileDeltas writer deployed rest (hu || added || updated || removed) s3).1,
                   (reconcileDeltas writer deployed rest (hu || added || updated || removed) s3).2.1,
                   ⟨.AddResources delta.Added, added, none⟩ ::
                   ⟨.UpdateResources (deployed.get k) delta.Updated, updated, none⟩ ::
                   ⟨.RemoveResources delta.Removed, removed, none⟩ ::
                   (reconcileDeltas writer deployed rest
                      (hu || added || updated || removed) s3).2.2) := by
              simp [reconcileDeltas, hc, hadd, hupd, hrem]
            rw [hstep, ih]
            simp only [runCalls, WriterCall.run, hadd, hupd, hrem, firstError,
              List.findSome?_cons, List.any_cons]
            rcases hfe : List.findSome? (fun ev => ev.err)
                (runCalls writer (plannedCalls deployed rest) s3).1 with _ | e
            · simp [hfe, Bool.or_assoc]
            · simp [hfe]
          · simp [reconcileDeltas, hc, hadd, hupd, hrem, runCalls, WriterCall.run, firstError]
        · simp [reconcileDeltas, hc, hadd, hupd, runCalls, WriterCall.run, firstError]
      · simp [reconcileDeltas, hc, hadd, runCalls, WriterCall.run, firstError]
    · rw [plannedCalls_cons_unchanged deployed k delta rest hc]
      have hstep : reconcileDeltas writer deployed ((k, delta) :: rest) hu s
          = reconcileDeltas writer deployed rest hu s := by
        simp [reconcileDeltas, hc]
      rw [hstep]
      exact ih hu s

theorem reconcileResources_eq_runCalls {σ : Type} (writer : ResourceWriter σ)
    (compare : ResourceMap → List Object → List (ResourceType × ResourceDelta))
    (requestedResources : List Object) (deployed : ResourceMap) (s : σ) :
    reconcileResources writer compare requestedResources deployed s
      = (reportedOutcome
           (runCalls writer (plannedCalls deployed (compare deployed requestedResources)) s).1,
         (runCalls writer (plannedCalls deployed (compare deployed requestedResources)) s).2,
         (runCalls writer (plannedCalls deployed (compare deployed requestedResources)) s).1) := by
  unfold reconcileResources reportedOutcome
  simp only [reconcileDeltas_eq_runCalls, Bool.false_or]

theorem runCalls_append_ok {σ : Type} (writer : ResourceWriter σ) :
    ∀ (before after : List WriterCall) (s : σ),
      (∀ ev ∈ (runCalls writer before s).1, ev.err = none) →
      runCalls writer (before ++ after) s
        = ((runCalls writer before s).1 ++ (runCalls writer after (runCalls writer before s).2).1,
           (runCalls writer after (runCalls writer before s).2).2) := by
  intro before
  induction before with
  | nil => intro after s _; simp [runCalls]
  | cons call rest ih =>
    intro after s hok
    rcases hrun : call.run writer s with ⟨⟨changed, _ | err⟩, s1⟩
    · have hrest : ∀ ev ∈ (runCalls writer rest s1).1, ev.err = none := by
        intro ev hev
        apply hok
        simp [runCalls, hrun, hev]
      simp [runCalls, hrun, ih after s1 hrest]
    · have := hok ⟨call, changed, some err⟩ (by simp [runCalls, hrun])
      cases this

theorem runCalls_calls_of_ok {σ : Type} (writer : ResourceWriter σ) :
    ∀ (calls : List WriterCall) (s : σ),
      firstError (runCalls writer calls s).1 = none →
      (runCalls writer calls s).1.map (fun ev => ev.call) = calls ∧
      ∀ ev ∈ (runCalls writer calls s).1, ev.err = none := by
  intro calls
  induction calls with
  | nil => intro s _; simp [runCalls]
  | cons call rest ih =>
    intro s h
    rcases hrun : call.run writer s with ⟨⟨changed, _ | err⟩, s1⟩
    · simp only [runCalls, hrun, firstError, List.findSome?_cons] at h
      obtain ⟨h1, h2⟩ := ih s1 h
      simp only [runCalls, hrun, List.map_cons, h1, List.mem_cons, true_and]
      intro ev hev
      rcases hev with rfl | hev
      · rfl
      · exact h2 ev hev
    · simp [runCalls, hrun, firstError] at h

theorem firstError_eq_none_of_ok (events : List WriterEvent)
    (h : ∀ ev ∈ events, ev.err = none) : firstError events = none := by
  induction events with
  | nil => rfl
  | cons ev rest ih =>
    have hev := h ev (by simp)
    simp only [firstError, List.findSome?_cons, hev]
    exact ih (fun e he => h e (by simp [he]))

theorem firstError_append_failed (events : List WriterEvent) (failed : WriterEvent)
    (e : Error) (h : ∀ ev ∈ events, ev.err = none) (herr : failed.err = some e) :
    firstError (events ++ [failed]) = some e := by
  induction events with
  | nil => simp [firstError, herr]
  | cons ev rest ih =>
    have hev := h ev (by simp)
    simp only [firstError, List.cons_append, List.findSome?_cons, hev]
    exact ih (fun x hx => h x (by simp [hx]))

theorem plannedCalls_filter (deployed : ResourceMap)
    (deltas : List (ResourceType × ResourceDelta)) :
    plannedCalls deployed (deltas.filter (fun entry => entry.2.HasChanges))
      = plannedCalls deployed deltas := by
  simp [plannedCalls, List.filter_filter]

/-- C5: when `reconcileResources` returns without error, the writer was handed exactly the
add, update and remove of each kind whose delta has changes, in order, each call in the
cluster state the call before it left; none of these calls returned an error, the final
cluster state is the one the last call left, and the boolean result is true exactly when
the writer reported for one of these calls that it changed something (the disjunction of
added, updated and removed over these kinds). A kind whose delta has no changes causes no
writer call and contributes nothing: leaving such kinds out of the deltas changes neither
the results nor the cluster state nor the calls. -/
theorem reconcileResources_hasUpdates_iff {σ : Type} (writer : ResourceWriter σ)
    (compare : ResourceMap → List Object → List (ResourceType × ResourceDelta))
    (requestedResources : List Object) (deployed : ResourceMap) (s s1 : σ)
    (hasUpdates : Bool) (events : List WriterEvent)
    (h : reconcileResources writer compare requestedResources deployed s
      = ((hasUpdates, none), s1, events)) :
    (events, s1)
      = runCalls writer (plannedCalls deployed (compare deployed requestedResources)) s ∧
    events.map (fun ev => ev.call) = plannedCalls deployed (compare deployed requestedResources) ∧
    (∀ ev ∈ (runCalls writer (plannedCalls deployed (compare deployed requestedResources)) s).1,
      ev.err = none) ∧
    (hasUpdates = true ↔
      ∃ ev ∈ (runCalls writer (plannedCalls deployed (compare deployed requestedResources)) s).1,
        ev.changed = true) ∧
    (hasUpdates = true ↔ ∃ ev ∈ events, ev.changed = true) ∧
    (∀ ev ∈ events, ∃ entry ∈ compare deployed requestedResources,
      entry.2.HasChanges = true ∧ ev.call ∈ plannedCallsOfKind deployed entry) ∧
    reconcileResources writer
        (fun deployed requested =>
          (compare deployed requested).filter (fun entry => entry.2.HasChanges))
        requestedResources deployed s
      = reconcileResources writer compare requestedResources deployed s := by
  have hrun := reconcileResources_eq_runCalls writer compare requestedResources deployed s
  rw [h] at hrun
  simp only [Prod.mk.injEq] at hrun
  obtain ⟨hres, hs1, hev⟩ := hrun
  have hfirst : firstError
      (runCalls writer (plannedCalls deployed (compare deployed requestedResources)) s).1
      = none := by
    unfold reportedOutcome at hres
    split at hres
    · simp at hres
    · assumption
  obtain ⟨hcalls, hok⟩ := runCalls_calls_of_ok writer _ s hfirst
  have hflag : hasUpdates
      = (runCalls writer (plannedCalls deployed (compare deployed requestedResources)) s).1.any
          (fun ev => ev.changed) := by
    unfold reportedOutcome at hres
    rw [hfirst] at hres
    exact (Prod.mk.inj hres).1
  refine ⟨?_, ?_, hok, ?_, ?_, ?_, ?_⟩
  · rw [hev, hs1]
  · rw [hev, hcalls]
  · rw [hflag]; simp
  · rw [hflag, hev]; simp
  · intro ev hmem
    have hcall : ev.call ∈ plannedCalls deployed (compare deployed requestedResources) := by
      rw [← hcalls, ← hev]; exact List.mem_map_of_mem _ hmem
    simp only [plannedCalls, List.mem_flatMap, List.mem_filter] at hcall
    obtain ⟨entry, ⟨hentry, hchg⟩, hin⟩ := hcall
    exact ⟨entry, hentry, hchg, hin⟩
  · rw [reconcileResources_eq_runCalls, reconcileResources_eq_runCalls, plannedCalls_filter]

theorem reconcileResources_hasUpdates_iff_witness :
    (([(⟨.AddResources [Object.route (sampleRoute "rhpam-kieserver" "")], true, none⟩ :
          WriterEvent),
       ⟨.UpdateResources [] [], false, none⟩, ⟨.RemoveResources [], false, none⟩,
       ⟨.AddResources [], false, none⟩,
       ⟨.UpdateResources [] [Object.route (sampleRoute "rhpam-kieserver" "")], true, none⟩,
       ⟨.RemoveResources [], false, none⟩], 6)
      = runCalls countingWriter
          (plannedCalls [] (sampleCompare [] [Object.route (sampleRoute "rhpam-kieserver" "")]))
          0) ∧
    (false = true ↔
      ∃ ev ∈ (runCalls idleWriter
          (plannedCalls [] (sampleCompare [] [Object.route (sampleRoute "rhpam-kieserver" "")]))
          0).1, ev.changed = true) :=
  ⟨(reconcileResources_hasUpdates_iff countingWriter sampleCompare
      [Object.route (sampleRoute "rhpam-kieserver" "")] [] 0 6 true _ (by decide)).1,
   (reconcileResources_hasUpdates_iff idleWriter sampleCompare
      [Object.route (sampleRoute "rhpam-kieserver" "")] [] 0 0 false
      [⟨.AddResources [Object.route (sampleRoute "rhpam-kieserver" "")], false, none⟩,
       ⟨.UpdateResources [] [], false, none⟩, ⟨.RemoveResources [], false, none⟩,
       ⟨.AddResources [], false, none⟩,
       ⟨.UpdateResources [] [Object.route (sampleRoute "rhpam-kieserver" "")], false, none⟩,
       ⟨.RemoveResources [], false, none⟩] (by decide)).2.2.2.1⟩

/-- C6: when the writer returns an error for one of the calls of the pass (the add, update
and remove of the kinds with changes, in order), the calls before it having succeeded,
`reconcileResources` returns false together with that error; the cluster state is the one
that call left and the calls made are those before it and the failed one, so no call
after it is made, for that kind or a later one, whatever was applied before. And when
`reconcileResources` returns a nil error, the writer returned no error for any call. -/
theorem reconcileResources_aborts_on_failed_write {σ : Type} (writer : ResourceWriter σ)
    (compare : ResourceMap → List Object → List (ResourceType × ResourceDelta))
    (requestedResources : List Object) (deployed : ResourceMap) (s s1 : σ)
    (before after : List WriterCall) (failed : WriterCall) (changed : Bool) (e : Error)
    (hplan : plannedCalls deployed (compare deployed requestedResources)
      = before ++ failed :: after)
    (hbefore : ∀ ev ∈ (runCalls writer before s).1, ev.err = none)
    (hfail : failed.run writer (runCalls writer before s).2 = ((changed, some e), s1)) :
    reconcileResources writer compare requestedResources deployed s
      = ((false, some e), s1, (runCalls writer before s).1 ++ [⟨failed, changed, some e⟩]) ∧
    (reconcileResources writer compare requestedResources deployed s).2.2.map
        (fun ev => ev.call) = before ++ [failed] ∧
    ((reconcileResources writer compare requestedResources deployed s).1.2 = none →
      ∀ ev ∈ (runCalls writer
          (plannedCalls deployed (compare deployed requestedResources)) s).1, ev.err = none) := by
  have hrun : runCalls writer (before ++ failed :: after) s
      = ((runCalls writer before s).1 ++ [⟨failed, changed, some e⟩], s1) := by
    rw [runCalls_append_ok writer before (failed :: after) s hbefore]
    simp [runCalls, hfail]
  have hfirst : firstError ((runCalls writer before s).1 ++ [⟨failed, changed, some e⟩])
      = some e :=
    firstError_append_failed _ _ e hbefore rfl
  have hres : reconcileResources writer compare requestedResources deployed s
      = ((false, some e), s1, (runCalls writer before s).1 ++ [⟨failed, changed, some e⟩]) := by
    rw [reconcileResources_eq_runCalls, hplan, hrun]
    simp only [reportedOutcome, hfirst]
  refine ⟨hres, ?_, ?_⟩
  · rw [hres]
    have hcalls := (runCalls_calls_of_ok writer before s
      (firstError_eq_none_of_ok _ hbefore)).1
    simp [hcalls]
  · intro hnil
    rw [hres] at hnil
    cases hnil

theorem reconcileResources_aborts_on_failed_write_witness :
    reconcileResources rejectingWriter sampleCompare
        [Object.route (sampleRoute "rhpam-kieserver" "")] [] 0
      = ((false, some ⟨"Conflict", "object was modified"⟩), 2,
         (runCalls rejectingWriter
            [.AddResources [Object.route (sampleRoute "rhpam-kieserver" "")]] 0).1
           ++ [⟨.UpdateResources [] [], false, some ⟨"Conflict", "object was modified"⟩⟩]) ∧
    (runCalls rejectingWriter
        [.AddResources [Object.route (sampleRoute "rhpam-kieserver" "")]] 0).1
      = [⟨.AddResources [Object.route (sampleRoute "rhpam-kieserver" "")], true, none⟩] ∧
    reconcileResources addRejectingWriter sampleCompare
        [Object.route (sampleRoute "rhpam-kieserver" "")] [] 0
      = ((false, some ⟨"Forbidden", "creation is not allowed"⟩), 1,
         [⟨.AddResources [Object.route (sampleRoute "rhpam-kieserver" "")], false,
           some ⟨"Forbidden", "creation is not allowed"⟩⟩]) ∧
    reconcileResources removeRejectingWriter sampleCompare
        [Object.route (sampleRoute "rhpam-kieserver" "")] [] 0
      = ((false, some ⟨"Forbidden", "deletion is not allowed"⟩), 3,
         [⟨.AddResources [Object.route (sampleRoute "rhpam-kieserver" "")], true, none⟩,
          ⟨.UpdateResources [] [], false, none⟩,
          ⟨.RemoveResources [], false, some ⟨"Forbidden", "deletion is not allowed"⟩⟩]) :=
  ⟨(reconcileResources_aborts_on_failed_write rejectingWriter sampleCompare
      [Object.route (sampleRoute "rhpam-kieserver" "")] [] 0 2
      [.AddResources [Object.route (sampleRoute "rhpam-kieserver" "")]]
      [.RemoveResources [], .AddResources [],
       .UpdateResources [] [Object.route (sampleRoute "rhpam-kieserver" "")],
       .RemoveResources []]
      (.UpdateResources [] []) false ⟨"Conflict", "object was modified"⟩
      (by decide) (by decide) rfl).1,
   by decide, by decide, by decide⟩

/-! ## Credential provisioner theorems -/

theorem GetRouteHost_eq (rt : Route) (routes : List Route) :
    GetRouteHost rt (routes.map Object.route)
      = some (match deployedMatch rt routes with
        | none => ""
        | some d => d.Spec.Host) := by
  induction routes with
  | nil => rfl
  | cons c rest ih =>
    by_cases h : c.Name = rt.Name ∧ c.Namespace = rt.Namespace
    · simp [GetRouteHost, deployedMatch, h]
    · simp only [List.map_cons, GetRouteHost, h, if_false, ih]
      simp [deployedMatch, h]

theorem consoleHostLoop_eq (routes : List Route) (cr : KieApp) (l : List Route) :
    consoleHostLoop (routes.map Object.route) cr l
      = some (match l.find? (fun rt => rt.Spec.TLS.isSome) with
        | none => ("", cr)
        | some rt =>
          (match deployedMatch rt routes with
            | none => ""
            | some d => d.Spec.Host,
           withConsoleHost cr ("https://" ++
            match deployedMatch rt routes with
            | none => ""
            | some d => d.Spec.Host))) := by
  induction l with
  | nil => rfl
  | cons rt rest ih =>
    cases htls : rt.Spec.TLS with
    | none => simp [consoleHostLoop, checkTLS, htls, ih]
    | some t => simp [consoleHostLoop, checkTLS, htls, withConsoleHost, GetRouteHost_eq]

theorem setConsoleHost_eq (consts : Constants) (cr : KieApp) (env : Environment)
    (routes : List Route) :
    setConsoleHost consts cr env (routes.map Object.route)
      = some (match firstTLSRoute consts cr env with
        | none =>
          (cr.Status.Applied.CommonConfig.ApplicationName,
            withConsoleHost cr ("http://" ++ cr.Status.Applied.CommonConfig.ApplicationName))
        | some rt =>
          match deployedMatch rt routes with
          | none =>
            (cr.Status.Applied.CommonConfig.ApplicationName,
              withConsoleHost cr ("http://" ++ cr.Status.Applied.CommonConfig.ApplicationName))
          | some d =>
            if d.Spec.Host = "" then
              (cr.Status.Applied.CommonConfig.ApplicationName,
                withConsoleHost cr ("http://" ++ cr.Status.Applied.CommonConfig.ApplicationName))
            else (d.Spec.Host, withConsoleHost cr ("https://" ++ d.Spec.Host))) := by
  have hloop : (if cr.Status.Applied.Environment = consts.RhpamStandaloneDashbuilder then
        consoleHostLoop (routes.map Object.route) cr env.Dashbuilder.Routes
      else consoleHostLoop (routes.map Object.route) cr env.Console.Routes)
      = consoleHostLoop (routes.map Object.route) cr (consoleRoutes consts cr env) := by
    unfold consoleRoutes; split <;> rfl
  simp only [setConsoleHost]
  rw [hloop, consoleHostLoop_eq]
  unfold firstTLSRoute
  cases (consoleRoutes consts cr env).find? (fun rt => rt.Spec.TLS.isSome) with
  | none => simp [withConsoleHost]
  | some rt =>
    rcases hd : deployedMatch rt routes with _ | d
    · simp [hd, withConsoleHost]
    · by_cases hh : d.Spec.Host = ""
      · simp [hd, hh, withConsoleHost]
      · simp [hd, hh]

/-- C10: for a list of deployed routes, `setConsoleHost` returns (without panic) the host
of the deployed route matching, by name and namespace, the first TLS-enabled route of the
console (of the dashbuilder in the standalone dashbuilder environment) and sets
`Status.ConsoleHost` to "https://" followed by that host; when there is no TLS-enabled
route, no matching deployed route, or the matching host is empty, it returns the
application name and sets `Status.ConsoleHost` to "http://" followed by the application
name. The returned CN is not empty when the application name is not empty. -/
theorem setConsoleHost_spec (consts : Constants) (cr : KieApp) (env : Environment)
    (routes : List Route) :
    (∀ rt d, firstTLSRoute consts cr env = some rt → deployedMatch rt routes = some d →
      d.Spec.Host ≠ "" →
      setConsoleHost consts cr env (routes.map Object.route)
        = some (d.Spec.Host, withConsoleHost cr ("https://" ++ d.Spec.Host))) ∧
    (firstTLSRoute consts cr env = none ∨
      (∃ rt, firstTLSRoute consts cr env = some rt ∧
        (deployedMatch rt routes = none ∨
          ∃ d, deployedMatch rt routes = some d ∧ d.Spec.Host = "")) →
      setConsoleHost consts cr env (routes.map Object.route)
        = some (cr.Status.Applied.CommonConfig.ApplicationName,
           withConsoleHost cr ("http://" ++ cr.Status.Applied.CommonConfig.ApplicationName))) ∧
    (cr.Status.Applied.CommonConfig.ApplicationName ≠ "" →
      ∃ consoleCN instance1,
        setConsoleHost consts cr env (routes.map Object.route) = some (consoleCN, instance1) ∧
        consoleCN ≠ "") := by
  refine ⟨?_, ?_, ?_⟩
  · intro rt d hrt hd hhost
    rw [setConsoleHost_eq, hrt]
    simp only [hd]
    rw [if_neg hhost]
  · intro h
    rw [setConsoleHost_eq]
    rcases h with h | ⟨rt, hrt, h⟩
    · rw [h]
    · rcases h with h | ⟨d, hd, hhost⟩
      · simp only [hrt, h]
      · simp only [hrt, hd, hhost, if_true]
  · intro happ
    rw [setConsoleHost_eq]
    rcases hf : firstTLSRoute consts cr env with _ | rt
    · exact ⟨_, _, rfl, happ⟩
    · rcases hd : deployedMatch rt routes with _ | d
      · simp only [hd]
        exact ⟨_, _, rfl, happ⟩
      · simp only [hd]
        by_cases hh : d.Spec.Host = ""
        · rw [if_pos hh]; exact ⟨_, _, rfl, happ⟩
        · rw [if_neg hh]; exact ⟨_, _, rfl, hh⟩

theorem setConsoleHost_spec_witness :
    setConsoleHost sampleConsts (sampleCR "rhpam" "changeit")
        (sampleEnv [sampleRoute "rhpam-rhpamcentr" ""])
        [Object.route (sampleRoute "rhpam-rhpamcentr" "rhpam-demo.apps.example.com")]
      = some ("rhpam-demo.apps.example.com",
         withConsoleHost (sampleCR "rhpam" "changeit") "https://rhpam-demo.apps.example.com") ∧
    setConsoleHost sampleConsts (sampleCR "rhpam" "changeit")
        (sampleEnv [sampleRoute "rhpam-rhpamcentr" ""]) []
      = some ("rhpam", withConsoleHost (sampleCR "rhpam" "changeit") "http://rhpam") :=
  ⟨(setConsoleHost_spec sampleConsts (sampleCR "rhpam" "changeit")
      (sampleEnv [sampleRoute "rhpam-rhpamcentr" ""])
      [sampleRoute "rhpam-rhpamcentr" "rhpam-demo.apps.example.com"]).1
      (sampleRoute "rhpam-rhpamcentr" "")
      (sampleRoute "rhpam-rhpamcentr" "rhpam-demo.apps.example.com")
      (by decide) (by decide) (by decide),
   by decide⟩

theorem IsValidKeyStoreSecret_zeroSecret (consts : Constants) (keystores : Keystores)
    (keystoreCN : String) (keyStorePassword : Bytes) :
    IsValidKeyStoreSecret consts keystores zeroSecret keystoreCN keyStorePassword = false := by
  simp [IsValidKeyStoreSecret, zeroSecret, GoMap.getBytes]

theorem generateKeystoreSecret_of_existing (getSecret : String → String → Except Error Secret)
    (consts : Constants) (keystores : Keystores) (secretName keystoreCN : String) (cr : KieApp)
    (existing : Secret)
    (hread : getSecret secretName cr.Namespace = .ok existing ∨
      (existing = zeroSecret ∧
        ∃ err, getSecret secretName cr.Namespace = .error err ∧ err.IsNotFound = true)) :
    (generateKeystoreSecret getSecret consts keystores secretName keystoreCN cr).1
      = if IsValidKeyStoreSecret consts keystores existing keystoreCN
            (stringBytes cr.Status.Applied.CommonConfig.KeyStorePassword) then
          (existing, none)
        else
          match keystores.GenerateKeystore keystoreCN
              (stringBytes cr.Status.Applied.CommonConfig.KeyStorePassword) with
          | .error genErr => (zeroSecret, some genErr)
          | .ok keystoreByte =>
            ({ zeroSecret with
                Kind := "Secret", APIVersion := "v1", Name := secretName,
                Labels := [("app", cr.Status.Applied.CommonConfig.ApplicationName),
                           ("application", cr.Status.Applied.CommonConfig.ApplicationName)],
                Type_ := "Opaque", Data := [(consts.KeystoreName, keystoreByte)] }, none) := by
  rcases hread with h | ⟨rfl, err, h, hnf⟩
  · unfold generateKeystoreSecret
    rw [h]
    simp only [Bool.false_eq_true, if_false]
    split
    · rfl
    · split <;> rfl
  · unfold generateKeystoreSecret
    rw [h]
    simp only [hnf, Bool.not_true, Bool.false_eq_true, if_false]
    split
    · rfl
    · split <;> rfl

/-- C8 (counterexample): no secret exists, so the existing secret is not valid, yet no
newly generated secret is returned: keystore generation fails (the password is too short
for the keystore helper) and the function returns the zero secret with that error. -/
theorem generateKeystoreSecret_generation_error_counterexample :
    getSecretFrom [] "rhpam-businesscentral-app-secret" "demo"
      = .error ⟨"NotFound", "secret not found: rhpam-businesscentral-app-secret"⟩ ∧
    (generateKeystoreSecret (getSecretFrom []) sampleConsts sampleKeystores
        "rhpam-businesscentral-app-secret" "rhpam-demo.apps.example.com"
        (sampleCR "rhpam" "abc")).1
      = (zeroSecret, some ⟨"", "keystore password is too short"⟩) ∧
    (generateKeystoreSecret (getSecretFrom []) sampleConsts sampleKeystores
        "rhpam-businesscentral-app-secret" "rhpam-demo.apps.example.com"
        (sampleCR "rhpam" "abc")).1.1.Name ≠ "rhpam-businesscentral-app-secret" :=
  ⟨rfl, by decide, by decide⟩

/-- C8 (amended): `generateKeystoreSecret` reads the secret once. A read error other than
NotFound is returned as the error. Otherwise the existing secret (the zero secret when
none exists, which is never valid) is returned unchanged when it is a valid keystore for
the target CN and the configured password; when it is not valid, the function returns,
if keystore generation succeeds, a new Opaque secret named `secretName`, labelled
app/application with the application name, whose data holds exactly the generated
keystore, and, if keystore generation fails, the generation error. -/
theorem generateKeystoreSecret_outcome (getSecret : String → String → Except Error Secret)
    (consts : Constants) (keystores : Keystores) (secretName keystoreCN : String) (cr : KieApp) :
    (generateKeystoreSecret getSecret consts keystores secretName keystoreCN cr).2
      = [StoreCall.Get "Secret" secretName cr.Namespace] ∧
    (∀ err, getSecret secretName cr.Namespace = .error err → err.IsNotFound = false →
      (generateKeystoreSecret getSecret consts keystores secretName keystoreCN cr).1
        = (zeroSecret, some err)) ∧
    (∀ existing,
      (getSecret secretName cr.Namespace = .ok existing ∨
        (existing = zeroSecret ∧
          ∃ err, getSecret secretName cr.Namespace = .error err ∧ err.IsNotFound = true)) →
      (IsValidKeyStoreSecret consts keystores existing keystoreCN
          (stringBytes cr.Status.Applied.CommonConfig.KeyStorePassword) = true →
        (generateKeystoreSecret getSecret consts keystores secretName keystoreCN cr).1
          = (existing, none)) ∧
      (IsValidKeyStoreSecret consts keystores existing keystoreCN
          (stringBytes cr.Status.Applied.CommonConfig.KeyStorePassword) = false →
        (∀ keystoreByte,
          keystores.GenerateKeystore keystoreCN
              (stringBytes cr.Status.Applied.CommonConfig.KeyStorePassword) = .ok keystoreByte →
          (generateKeystoreSecret getSecret consts keystores secretName keystoreCN cr).1.2 = none ∧
          (generateKeystoreSecret getSecret consts keystores secretName keystoreCN cr).1.1.Kind
            = "Secret" ∧
          (generateKeystoreSecret getSecret consts keystores secretName keystoreCN cr).1.1.Type_
            = "Opaque" ∧
          (generateKeystoreSecret getSecret consts keystores secretName keystoreCN cr).1.1.Name
            = secretName ∧
          (generateKeystoreSecret getSecret consts keystores secretName keystoreCN cr).1.1.Labels
            = [("app", cr.Status.Applied.CommonConfig.ApplicationName),
               ("application", cr.Status.Applied.CommonConfig.ApplicationName)] ∧
          (generateKeystoreSecret getSecret consts keystores secretName keystoreCN cr).1.1.Data
            = [(consts.KeystoreName, keystoreByte)]) ∧
        (∀ genErr,
          keystores.GenerateKeystore keystoreCN
              (stringBytes cr.Status.Applied.CommonConfig.KeyStorePassword) = .error genErr →
          (generateKeystoreSecret getSecret consts keystores secretName keystoreCN cr).1
            = (zeroSecret, some genErr)))) ∧
    (∀ keyStorePassword,
      IsValidKeyStoreSecret consts keystores zeroSecret keystoreCN keyStorePassword = false) := by
  refine ⟨?_, ?_, ?_, IsValidKeyStoreSecret_zeroSecret consts keystores keystoreCN⟩
  · unfold generateKeystoreSecret
    simp only
    split
    · rfl
    · split
      · rfl
      · split <;> rfl
  · intro err h hnf
    unfold generateKeystoreSecret
    rw [h]
    simp [hnf]
  · intro existing hread
    rw [generateKeystoreSecret_of_existing getSecret consts keystores secretName keystoreCN cr
      existing hread]
    refine ⟨fun hv => by rw [if_pos hv], fun hv => ⟨?_, ?_⟩⟩
    · intro keystoreByte hgen
      rw [hv, hgen]
      simp [zeroSecret]
    · intro genErr hgen
      rw [hv, hgen]
      simp

theorem generateKeystoreSecret_outcome_witness :
    (generateKeystoreSecret
        (getSecretFrom [sampleKeystoreSecret "rhpam-demo.apps.example.com"])
        sampleConsts sampleKeystores "rhpam-businesscentral-app-secret"
        "rhpam-demo.apps.example.com" (sampleCR "rhpam" "changeit")).1
      = (sampleKeystoreSecret "rhpam-demo.apps.example.com", none) :=
  ((generateKeystoreSecret_outcome
      (getSecretFrom [sampleKeystoreSecret "rhpam-demo.apps.example.com"])
      sampleConsts sampleKeystores "rhpam-businesscentral-app-secret"
      "rhpam-demo.apps.example.com" (sampleCR "rhpam" "changeit")).2.2.1
    (sampleKeystoreSecret "rhpam-demo.apps.example.com") (Or.inl rfl)).1 (by decide)

/-- C9 (counterexample): the Store holds the console keystore secret generated for
"old.example.com"; it is valid for that CN and stale for "new.example.com". After
`generateKeystoreSecret` with the new CN, neither the returned secret nor the Store holds
the prior content under a name other than the original one. -/
theorem generateKeystoreSecret_backup_counterexample :
    IsValidKeyStoreSecret sampleConsts sampleKeystores (sampleKeystoreSecret "old.example.com")
      "old.example.com" (stringBytes "changeit") = true ∧
    IsValidKeyStoreSecret sampleConsts sampleKeystores (sampleKeystoreSecret "old.example.com")
      "new.example.com" (stringBytes "changeit") = false ∧
    (generateKeystoreSecret (getSecretFrom [sampleKeystoreSecret "old.example.com"])
        sampleConsts sampleKeystores "rhpam-businesscentral-app-secret" "new.example.com"
        (sampleCR "rhpam" "changeit")).1
      = ({ sampleKeystoreSecret "new.example.com" with Namespace := "" }, none) ∧
    ¬ ∃ s ∈
        (generateKeystoreSecret (getSecretFrom [sampleKeystoreSecret "old.example.com"])
          sampleConsts sampleKeystores "rhpam-businesscentral-app-secret" "new.example.com"
          (sampleCR "rhpam" "changeit")).1.1 ::
        secretsAfter [sampleKeystoreSecret "old.example.com"]
          (generateKeystoreSecret (getSecretFrom [sampleKeystoreSecret "old.example.com"])
            sampleConsts sampleKeystores "rhpam-businesscentral-app-secret" "new.example.com"
            (sampleCR "rhpam" "changeit")).2,
        s.Name ≠ "rhpam-businesscentral-app-secret" ∧
          s.Data = (sampleKeystoreSecret "old.example.com").Data := by
  decide

/-- C9 (amended): when the existing keystore secret is stale, `generateKeystoreSecret`
keeps no backup of it: its only Store call is the read, so the secrets of the Store are
the same afterwards, and the secret it returns on successful generation carries the
original name `secretName` and holds the newly generated keystore only. -/
theorem generateKeystoreSecret_keeps_no_backup (store : List Secret) (consts : Constants)
    (keystores : Keystores) (secretName keystoreCN : String) (cr : KieApp) (prior : Secret)
    (keystoreByte : Bytes)
    (hprior : getSecretFrom store secretName cr.Namespace = .ok prior)
    (hstale : IsValidKeyStoreSecret consts keystores prior keystoreCN
      (stringBytes cr.Status.Applied.CommonConfig.KeyStorePassword) = false)
    (hgen : keystores.GenerateKeystore keystoreCN
      (stringBytes cr.Status.Applied.CommonConfig.KeyStorePassword) = .ok keystoreByte) :
    secretsAfter store
        (generateKeystoreSecret (getSecretFrom store) consts keystores secretName keystoreCN cr).2
      = store ∧
    (generateKeystoreSecret (getSecretFrom store) consts keystores secretName keystoreCN cr).1.2
      = none ∧
    (generateKeystoreSecret (getSecretFrom store) consts keystores secretName keystoreCN cr).1.1.Name
      = secretName ∧
    (generateKeystoreSecret (getSecretFrom store) consts keystores secretName keystoreCN cr).1.1.Data
      = [(consts.KeystoreName, keystoreByte)] := by
  have hcalls : (generateKeystoreSecret (getSecretFrom store) consts keystores secretName
      keystoreCN cr).2 = [StoreCall.Get "Secret" secretName cr.Namespace] := by
    unfold generateKeystoreSecret
    simp only
    split
    · rfl
    · split
      · rfl
      · split <;> rfl
  rw [hcalls, generateKeystoreSecret_of_existing (getSecretFrom store) consts keystores
    secretName keystoreCN cr prior (Or.inl hprior), hstale, hgen]
  simp [secretsAfter, zeroSecret]

theorem generateKeystoreSecret_keeps_no_backup_witness :
    secretsAfter [sampleKeystoreSecret "old.example.com"]
        (generateKeystoreSecret (getSecretFrom [sampleKeystoreSecret "old.example.com"])
          sampleConsts sampleKeystores "rhpam-businesscentral-app-secret" "new.example.com"
          (sampleCR "rhpam" "changeit")).2
      = [sampleKeystoreSecret "old.example.com"] :=
  (generateKeystoreSecret_keeps_no_backup [sampleKeystoreSecret "old.example.com"]
    sampleConsts sampleKeystores "rhpam-businesscentral-app-secret" "new.example.com"
    (sampleCR "rhpam" "changeit") (sampleKeystoreSecret "old.example.com")
    (stringBytes "changeit" ++ [0] ++ stringBytes "new.example.com")
    rfl (by decide) rfl).1

/-! ## Route phase theorems -/

/-- C7: in a pass that reaches the route phase (the CR is found, its environment is
resolved, its external references exist and the deployed routes are listed), when the
route delta has no Added part the phase makes no writer call and leaves the cluster state
as it is; otherwise its one writer call is `AddResources` on the Added part of the delta,
the cluster state after the phase is the state that call left (so nothing is updated or
removed), and the phase ends the pass with the error of the call, ends it with the short
requeue when the call reports that a route was created, and goes on otherwise. When the
call reports that a route was created, `Reconcile` returns
`Result{Requeue: true, RequeueAfter: 500ms}` with a nil error, in the cluster state the
call left and with that call as the last step: no credential generation, no full
diff/apply and no status update follow. When the phase goes on, the rest of the pass
starts in the cluster state of the phase. -/
theorem Reconcile_route_phase {σ : Type} (p : Platform σ) (request : Request) (s : σ)
    (found inst : KieApp) (env : Environment) (deployedRoutes : List Object)
    (hget : p.GetInstance request (p.embeddedFiles s) = .ok found)
    (henv : p.GetEnvironment found (p.embeddedFiles s) = (inst, .ok env))
    (hrefs : p.verifyExternalReferences inst (p.embeddedFiles s) = none)
    (hlist : p.ListRoutes inst (p.embeddedFiles s) = .ok deployedRoutes) :
    ((p.CompareArrays deployedRoutes (getRequestedRoutes env inst).1).Added.length = 0 →
      routePhase p inst env (p.embeddedFiles s)
        = (.proceed (deployedRoutes, (getRequestedRoutes env inst).2), p.embeddedFiles s,
           [.listRoutes])) ∧
    ((p.CompareArrays deployedRoutes (getRequestedRoutes env inst).1).Added.length > 0 →
      (routePhase p inst env (p.embeddedFiles s)).2.1
        = ((p.writer inst).AddResources
            (p.CompareArrays deployedRoutes (getRequestedRoutes env inst).1).Added
            (p.embeddedFiles s)).2 ∧
      (routePhase p inst env (p.embeddedFiles s)).2.2
        = [.listRoutes,
           .addRoutes
             ⟨.AddResources (p.CompareArrays deployedRoutes (getRequestedRoutes env inst).1).Added,
              ((p.writer inst).AddResources
                (p.CompareArrays deployedRoutes (getRequestedRoutes env inst).1).Added
                (p.embeddedFiles s)).1.1,
              ((p.writer inst).AddResources
                (p.CompareArrays deployedRoutes (getRequestedRoutes env inst).1).Added
                (p.embeddedFiles s)).1.2⟩] ∧
      (routePhase p inst env (p.embeddedFiles s)).1
        = (match ((p.writer inst).AddResources
              (p.CompareArrays deployedRoutes (getRequestedRoutes env inst).1).Added
              (p.embeddedFiles s)).1 with
           | (_, some err) => .done (noRequeue, some err)
           | (true, none) => .done (requeueShortly, none)
           | (false, none) => .proceed (deployedRoutes, (getRequestedRoutes env inst).2))) ∧
    (∀ s1,
      (p.CompareArrays deployedRoutes (getRequestedRoutes env inst).1).Added.length > 0 →
      (p.writer inst).AddResources
          (p.CompareArrays deployedRoutes (getRequestedRoutes env inst).1).Added
          (p.embeddedFiles s) = ((true, none), s1) →
      Reconcile p request s
        = (({ Requeue := true, RequeueAfter := 500 * Millisecond }, none), s1,
           [.embeddedFiles, .getInstance, .getEnvironment, .verifyExternalReferences,
            .listRoutes,
            .addRoutes
              ⟨.AddResources
                (p.CompareArrays deployedRoutes (getRequestedRoutes env inst).1).Added,
                true, none⟩])) ∧
    (∀ value,
      (routePhase p inst env (p.embeddedFiles s)).1 = .proceed value →
      Reconcile p request s
        = ((reconcileCredentials p request inst value.2 value.1
              (routePhase p inst env (p.embeddedFiles s)).2.1).1,
           (reconcileCredentials p request inst value.2 value.1
              (routePhase p inst env (p.embeddedFiles s)).2.1).2.1,
           [.embeddedFiles, .getInstance, .getEnvironment, .verifyExternalReferences]
             ++ (routePhase p inst env (p.embeddedFiles s)).2.2
             ++ (reconcileCredentials p request inst value.2 value.1
                  (routePhase p inst env (p.embeddedFiles s)).2.1).2.2)) := by
  refine ⟨?_, ?_, ?_, ?_⟩
  · intro hlen
    unfold routePhase
    simp only [hlist]
    rw [if_neg (by omega)]
  · intro hlen
    rcases hadd : (p.writer inst).AddResources
        (p.CompareArrays deployedRoutes (getRequestedRoutes env inst).1).Added
        (p.embeddedFiles s) with ⟨⟨added, _ | err⟩, s1⟩
    · cases added
      · have hroute : routePhase p inst env (p.embeddedFiles s)
            = (.proceed (deployedRoutes, (getRequestedRoutes env inst).2), s1,
               [.listRoutes,
                .addRoutes
                  ⟨.AddResources
                    (p.CompareArrays deployedRoutes (getRequestedRoutes env inst).1).Added,
                    false, none⟩]) := by
          unfold routePhase
          simp only [hlist]
          rw [if_pos hlen, hadd]
          rfl
        rw [hroute]
        exact ⟨rfl, rfl, rfl⟩
      · have hroute : routePhase p inst env (p.embeddedFiles s)
            = (.done (requeueShortly, none), s1,
               [.listRoutes,
                .addRoutes
                  ⟨.AddResources
                    (p.CompareArrays deployedRoutes (getRequestedRoutes env inst).1).Added,
                    true, none⟩]) := by
          unfold routePhase
          simp only [hlist]
          rw [if_pos hlen, hadd]
          rfl
        rw [hroute]
        exact ⟨rfl, rfl, rfl⟩
    · have hroute : routePhase p inst env (p.embeddedFiles s)
          = (.done (noRequeue, some err), s1,
             [.listRoutes,
              .addRoutes
                ⟨.AddResources
                  (p.CompareArrays deployedRoutes (getRequestedRoutes env inst).1).Added,
                  added, some err⟩]) := by
        unfold routePhase
        simp only [hlist]
        rw [if_pos hlen, hadd]
      rw [hroute]
      cases added <;> exact ⟨rfl, rfl, rfl⟩
  · intro s1 hlen hadd
    have hroute : routePhase p inst env (p.embeddedFiles s)
        = (.done (requeueShortly, none), s1,
           [.listRoutes,
            .addRoutes
              ⟨.AddResources
                (p.CompareArrays deployedRoutes (getRequestedRoutes env inst).1).Added,
                true, none⟩]) := by
      unfold routePhase
      simp only [hlist]
      rw [if_pos hlen, hadd]
      rfl
    unfold Reconcile
    simp only [hget, henv, hrefs, hroute]
    rfl
  · intro value hvalue
    rcases hroute : routePhase p inst env (p.embeddedFiles s) with ⟨outcome, s1, steps⟩
    rw [hroute] at hvalue
    simp only at hvalue
    subst hvalue
    unfold Reconcile
    simp only [hget, henv, hrefs, hroute]

theorem Reconcile_route_phase_witness :
    Reconcile samplePlatform { Name := "rhpam-trial", Namespace := "demo" } 0
      = (({ Requeue := true, RequeueAfter := 500 * Millisecond }, none), 1,
         [.embeddedFiles, .getInstance, .getEnvironment, .verifyExternalReferences,
          .listRoutes,
          .addRoutes
            ⟨.AddResources
              [Object.route
                { sampleRoute "rhpam-rhpamcentr" "" with
                  Kind := "Route", APIVersion := "route.openshift.io/v1", Namespace := "demo" }],
              true, none⟩]) ∧
    (routePhase samplePlatformWithRoutes (sampleCR "rhpam" "changeit")
        (sampleEnv [sampleRoute "rhpam-rhpamcentr" ""]) 0).2
      = (0, [.listRoutes]) :=
  ⟨(Reconcile_route_phase samplePlatform { Name := "rhpam-trial", Namespace := "demo" } 0
      (sampleCR "rhpam" "changeit") (sampleCR "rhpam" "changeit")
      (sampleEnv [sampleRoute "rhpam-rhpamcentr" ""]) [] rfl rfl rfl rfl).2.2.1 1
      (by decide) rfl,
   congrArg Prod.snd
    ((Reconcile_route_phase samplePlatformWithRoutes
      { Name := "rhpam-trial", Namespace := "demo" } 0
      (sampleCR "rhpam" "changeit") (sampleCR "rhpam" "changeit")
      (sampleEnv [sampleRoute "rhpam-rhpamcentr" ""])
      [Object.route
        { sampleRoute "rhpam-rhpamcentr" "" with
          Kind := "Route", APIVersion := "route.openshift.io/v1", Namespace := "demo" }]
      rfl rfl rfl rfl).1 (by decide))⟩

/-! ## Resource flattener theorems -/

theorem appendStamped_eq {α : Type} (stamp : α → α) (wrap : α → Object)
    (allObjects : List Object) (resources : List α) :
    appendStamped stamp wrap allObjects resources
      = allObjects ++ resources.map (fun resource => wrap (stamp resource)) := by
  unfold appendStamped
  induction resources generalizing allObjects with
  | nil => simp
  | cons r rest ih => simp [List.foldl_cons, ih]

/-- C20: `getCustomObjectResources` returns the empty list for an omitted descriptor;
otherwise its result is, up to the kind metadata of the entries, the concatenation of the
categories in the order persistent volume claims, service accounts, secrets, roles, role
bindings, deployment configs, services, stateful sets, routes, image streams, build
configs, config maps (every resource once, each category in its own order), its length is
the sum of the category lengths, and every entry carries the kind of its category. -/
theorem getCustomObjectResources_flattens (object : CustomObject) (cr : KieApp) :
    (object.Omit = true → getCustomObjectResources object cr = []) ∧
    (object.Omit = false →
      (getCustomObjectResources object cr).map Object.eraseTypeMeta
        = (categoriesOf object).flatMap (fun category => category.2.map Object.eraseTypeMeta) ∧
      (getCustomObjectResources object cr).map (fun resource => resource.typeMeta.Kind)
        = (categoriesOf object).flatMap (fun category => category.2.map (fun _ => category.1)) ∧
      (getCustomObjectResources object cr).length
        = object.PersistentVolumeClaims.length + object.ServiceAccounts.length
          + object.Secrets.length + object.Roles.length + object.RoleBindings.length
          + object.DeploymentConfigs.length + object.Services.length
          + object.StatefulSets.length + object.Routes.length + object.ImageStreams.length
          + object.BuildConfigs.length + object.ConfigMaps.length) := by
  refine ⟨fun h => by simp [getCustomObjectResources, h], fun h => ?_⟩
  have hres : getCustomObjectResources object cr
      = object.PersistentVolumeClaims.map (fun x => Object.generic "PersistentVolumeClaim"
          { x with Kind := "PersistentVolumeClaim", APIVersion := "v1" })
        ++ object.ServiceAccounts.map (fun x => Object.generic "ServiceAccount"
          { x with Kind := "ServiceAccount", APIVersion := "v1" })
        ++ object.Secrets.map (fun x => Object.secret
          { x with Kind := "Secret", APIVersion := "v1" })
        ++ object.Roles.map (fun x => Object.generic "Role"
          { x with Kind := "Role", APIVersion := "rbac.authorization.k8s.io/v1" })
        ++ object.RoleBindings.map (fun x => Object.generic "RoleBinding"
          { x with Kind := "RoleBinding", APIVersion := "rbac.authorization.k8s.io/v1" })
        ++ object.DeploymentConfigs.map (fun x => Object.deploymentConfig
          { x with Kind := "DeploymentConfig", APIVersion := "apps.openshift.io/v1" })
        ++ object.Services.map (fun x => Object.generic "Service"
          { x with Kind := "Service", APIVersion := "v1" })
        ++ object.StatefulSets.map (fun x => Object.generic "StatefulSet"
          { x with Kind := "StatefulSet", APIVersion := "apps/v1" })
        ++ object.Routes.map (fun x => Object.route
          { x with Kind := "Route", APIVersion := "route.openshift.io/v1" })
        ++ object.ImageStreams.map (fun x => Object.generic "ImageStream"
          { x with Kind := "ImageStream", APIVersion := "image.openshift.io/v1" })
        ++ object.BuildConfigs.map (fun x => Object.buildConfig
          { x with Kind := "BuildConfig", APIVersion := "build.openshift.io/v1" })
        ++ object.ConfigMaps.map (fun x => Object.configMap
          { x with Kind := "ConfigMap", APIVersion := "v1" }) := by
    simp only [getCustomObjectResources, h, Bool.false_eq_true, if_false, appendStamped_eq,
      List.nil_append]
  rw [hres]
  refine ⟨?_, ?_, ?_⟩
  · simp [categoriesOf, Object.eraseTypeMeta, Function.comp_def]
  · simp [categoriesOf, Object.typeMeta, Function.comp_def]
  · simp only [List.length_append, List.length_map]

/-! ## Image resolver theorems -/

theorem splitColonChars_eq (l : List Char) :
    splitColonChars l
      = l.takeWhile (fun c => c ≠ ':') ::
          (if ':' ∈ l then splitColonChars ((l.dropWhile (fun c => c ≠ ':')).drop 1) else []) := by
  induction l with
  | nil => simp [splitColonChars]
  | cons c rest ih =>
    by_cases hc : c = ':'
    · subst hc
      simp [splitColonChars]
    · have hc2 : ¬ ':' = c := fun h => hc h.symm
      rw [splitColonChars, if_neg hc, ih]
      simp [hc, hc2]

theorem tagParts_eq (ref : String) : tagParts ref = (namePart ref, tagPart ref) := by
  unfold tagParts namePart tagPart
  rw [splitColonChars_eq]
  by_cases h : ':' ∈ ref.data
  · rw [if_pos h, if_pos h, splitColonChars_eq]
  · rw [if_neg h, if_neg h]

theorem containsChars_iff (sub l : List Char) : containsChars sub l = true ↔ sub <:+: l := by
  induction l with
  | nil => simp [containsChars]
  | cons c rest ih =>
    rw [containsChars, Bool.or_eq_true, ih, List.infix_cons_iff, List.isPrefixOf_iff_prefix]

theorem digitRunsFrom_flatten (current l : List Char) :
    (digitRunsFrom current l).flatten = current ++ l.filter Char.isDigit := by
  induction l generalizing current with
  | nil =>
    cases current with
    | nil => simp [digitRunsFrom]
    | cons a as => simp [digitRunsFrom]
  | cons c rest ih =>
    by_cases hd : c.isDigit = true
    · simp [digitRunsFrom, hd, ih]
    · cases current with
      | nil => simp [digitRunsFrom, hd, ih]
      | cons a as => simp [digitRunsFrom, hd, ih]

theorem join_FindAllDigits (s : String) : String.join (FindAllDigits s) = digitsOf s := by
  unfold FindAllDigits digitsOf
  rw [String.join_eq]
  congr 1
  rw [List.map_map]
  have : (String.data ∘ String.mk) = (id : List Char → List Char) := rfl
  rw [this, List.map_id, digitRunsFrom_flatten]
  simp

theorem localImageTag_database (consts : Constants) (defaults : Defaults) (logs : Logs)
    (tagRefName imageURL : String) (cr : KieApp)
    (hname : namePart tagRefName = "postgresql" ∨ namePart tagRefName = "mysql") :
    (localImageTag consts defaults logs tagRefName imageURL cr).1.pointsAt
      = some (consts.ImageRegistry ++ "/rhscl/" ++ namePart tagRefName ++ "-"
          ++ digitsOf (tagPart tagRefName) ++ "-rhel7:latest") := by
  have hdg : stringsContains (namePart tagRefName) "datagrid" = false := by
    rcases hname with h | h <;> rw [h] <;> decide
  have hamq : stringsContains (namePart tagRefName) "amq-broker-7" = false := by
    rcases hname with h | h <;> rw [h] <;> decide
  simp only [localImageTag, tagParts_eq, hdg, hamq, hname, join_FindAllDigits,
    ImageStreamTag.pointsAt, Bool.false_eq_true, if_false, if_true]
  simp only [String.append_assoc]
  rfl

theorem localImageTag_namespace (consts : Constants) (defaults : Defaults) (logs : Logs)
    (tagRefName imageURL : String) (cr : KieApp) :
    (localImageTag consts defaults logs tagRefName imageURL cr).1.Namespace = cr.Namespace ∧
    (localImageTag consts defaults logs tagRefName imageURL cr).2.Namespace = cr.Namespace ∧
    (localImageTag consts defaults logs tagRefName imageURL cr).1.Name
      = namePart tagRefName ++ ":" ++ tagPart tagRefName := by
  cases h : cr.Status.Applied.ImageRegistry <;> simp [localImageTag, tagParts_eq, h]

/-- The function `createLocalImageTag` hands the tag object it builds to `Create`, once,
in the namespace of the CR: the cluster state is the one `Create` left, the error is that
of `Create` unless it says that the tag exists already. -/
theorem createLocalImageTag_eq {σ : Type} (client : ImageStreamTagsClient σ)
    (consts : Constants) (defaults : Defaults) (logs : Logs) (tagRefName imageURL : String)
    (cr : KieApp) (s : σ) :
    createLocalImageTag client consts defaults logs tagRefName imageURL cr s
      = ((ignoreAlreadyExists
            (client.Create cr.Namespace
              (localImageTag consts defaults logs tagRefName imageURL cr).1 s).1,
          (localImageTag consts defaults logs tagRefName imageURL cr).2),
         (client.Create cr.Namespace
            (localImageTag consts defaults logs tagRefName imageURL cr).1 s).2,
         [.Create cr.Namespace (localImageTag consts defaults logs tagRefName imageURL cr).1]) := by
  have hns := (localImageTag_namespace consts defaults logs tagRefName imageURL cr).1
  unfold createLocalImageTag
  simp only [hns]
  rcases hc : client.Create cr.Namespace
      (localImageTag consts defaults logs tagRefName imageURL cr).1 s with ⟨_ | err, s1⟩
  · simp [ignoreAlreadyExists]
  · by_cases hae : err.IsAlreadyExists = true
    · simp [ignoreAlreadyExists, hae]
    · simp [ignoreAlreadyExists, hae]

theorem createLocalImageTag_calls {σ : Type} (client : ImageStreamTagsClient σ)
    (consts : Constants) (defaults : Defaults) (logs : Logs) (tagRefName imageURL : String)
    (cr : KieApp) (s : σ) :
    (createLocalImageTag client consts defaults logs tagRefName imageURL cr s).2.2
      = [.Create cr.Namespace (localImageTag consts defaults logs tagRefName imageURL cr).1] := by
  have hns : (localImageTag consts defaults logs tagRefName imageURL cr).1.Namespace
      = cr.Namespace := by
    simp only [localImageTag]
    cases cr.Status.Applied.ImageRegistry <;> rfl
  unfold createLocalImageTag
  simp only [hns]
  split
  · split <;> rfl
  · rfl

/-- C13: for an image reference whose name part is exactly "postgresql" or "mysql",
`createLocalImageTag` hands to `Create`, once and in the namespace of the CR, a tag object
named `<name>:<tag>` that points at the fixed default registry, context "rhscl" and image
`<name>-<digits>-rhel7:latest`, the digits being those of the tag of the reference
("latest" has none), whatever registry the CR configures and whatever context the image
URL carries. The cluster state after the function is the one `Create` left for this tag
object, and the error returned is that of `Create`, unless it says that the tag exists
already. -/
theorem createLocalImageTag_database_image {σ : Type} (client : ImageStreamTagsClient σ)
    (consts : Constants) (defaults : Defaults) (logs : Logs) (tagRefName imageURL : String)
    (cr : KieApp) (s : σ)
    (hname : namePart tagRefName = "postgresql" ∨ namePart tagRefName = "mysql") :
    ∃ tag : ImageStreamTag,
      tag.Namespace = cr.Namespace ∧
      tag.Name = namePart tagRefName ++ ":" ++ tagPart tagRefName ∧
      tag.pointsAt
        = some (consts.ImageRegistry ++ "/rhscl/" ++ namePart tagRefName ++ "-"
            ++ digitsOf (tagPart tagRefName) ++ "-rhel7:latest") ∧
      (createLocalImageTag client consts defaults logs tagRefName imageURL cr s).2.2
        = [.Create cr.Namespace tag] ∧
      (createLocalImageTag client consts defaults logs tagRefName imageURL cr s).2.1
        = (client.Create cr.Namespace tag s).2 ∧
      (createLocalImageTag client consts defaults logs tagRefName imageURL cr s).1.1
        = ignoreAlreadyExists (client.Create cr.Namespace tag s).1 := by
  refine ⟨(localImageTag consts defaults logs tagRefName imageURL cr).1,
    (localImageTag_namespace consts defaults logs tagRefName imageURL cr).1,
    (localImageTag_namespace consts defaults logs tagRefName imageURL cr).2.2,
    localImageTag_database consts defaults logs tagRefName imageURL cr hname, ?_, ?_, ?_⟩
  · rw [createLocalImageTag_eq]
  · rw [createLocalImageTag_eq]
  · rw [createLocalImageTag_eq]

theorem createLocalImageTag_database_image_witness :
    (namePart "postgresql:12" = "postgresql" ∨ namePart "postgresql:12" = "mysql") ∧
    (∃ tag : ImageStreamTag,
      tag.Namespace = sampleCRWithRegistry.Namespace ∧
      tag.Name = namePart "postgresql:12" ++ ":" ++ tagPart "postgresql:12" ∧
      tag.pointsAt
        = some ("registry.redhat.io" ++ "/rhscl/" ++ namePart "postgresql:12" ++ "-"
            ++ digitsOf (tagPart "postgresql:12") ++ "-rhel7:latest") ∧
      (createLocalImageTag recordingTagsClient sampleConsts sampleDefaults sampleLogs
          "postgresql:12" "quay.io/custom/postgresql:12" sampleCRWithRegistry []).2.2
        = [.Create sampleCRWithRegistry.Namespace tag] ∧
      (createLocalImageTag recordingTagsClient sampleConsts sampleDefaults sampleLogs
          "postgresql:12" "quay.io/custom/postgresql:12" sampleCRWithRegistry []).2.1
        = (recordingTagsClient.Create sampleCRWithRegistry.Namespace tag []).2 ∧
      (createLocalImageTag recordingTagsClient sampleConsts sampleDefaults sampleLogs
          "postgresql:12" "quay.io/custom/postgresql:12" sampleCRWithRegistry []).1.1
        = ignoreAlreadyExists
            (recordingTagsClient.Create sampleCRWithRegistry.Namespace tag []).1) ∧
    (createLocalImageTag recordingTagsClient sampleConsts sampleDefaults sampleLogs
        "postgresql:12" "quay.io/custom/postgresql:12" sampleCRWithRegistry []).2.1.map
        (fun tag => (tag.Namespace, tag.Name, tag.pointsAt))
      = [("demo", "postgresql:12",
          some "registry.redhat.io/rhscl/postgresql-12-rhel7:latest")] ∧
    (createLocalImageTag forbiddingTagsClient sampleConsts sampleDefaults sampleLogs
        "postgresql:12" "quay.io/custom/postgresql:12" sampleCRWithRegistry []).1.1
      = some ⟨"Forbidden", "image stream tags are read-only"⟩ :=
  ⟨by decide,
   createLocalImageTag_database_image recordingTagsClient sampleConsts sampleDefaults
     sampleLogs "postgresql:12" "quay.io/custom/postgresql:12" sampleCRWithRegistry []
     (by decide),
   by decide, by decide⟩

theorem localImageTag_thirdParty (consts : Constants) (defaults : Defaults) (logs : Logs)
    (tagRefName imageURL : String) (cr : KieApp) :
    (stringsContains (namePart tagRefName) "datagrid" = true →
      (localImageTag consts defaults logs tagRefName imageURL cr).1.pointsAt
        = some (consts.ImageRegistry ++ "/jboss-datagrid-7/" ++ namePart tagRefName ++ ":"
            ++ tagPart tagRefName)) ∧
    (stringsContains (namePart tagRefName) "datagrid" = false →
      stringsContains (namePart tagRefName) "amq-broker-7" = true →
      stringsContains (namePart tagRefName) "scaledown" = false →
      (localImageTag consts defaults logs tagRefName imageURL cr).1.pointsAt
        = some (consts.ImageRegistry ++ "/amq-broker-7/" ++ namePart tagRefName ++ ":"
            ++ tagPart tagRefName)) ∧
    (stringsContains (namePart tagRefName) "datagrid" = false →
      stringsContains (namePart tagRefName) "amq-broker-7" = true →
      stringsContains (namePart tagRefName) "scaledown" = true →
      (localImageTag consts defaults logs tagRefName imageURL cr).1.pointsAt
        = some (consts.ImageRegistry ++ "/amq-broker-7-tech-preview/" ++ namePart tagRefName
            ++ ":" ++ tagPart tagRefName)) := by
  refine ⟨fun hdg => ?_, fun hdg hamq hsd => ?_, fun hdg hamq hsd => ?_⟩
  · simp only [localImageTag, tagParts_eq, hdg, ImageStreamTag.pointsAt, if_true]
    simp only [String.append_assoc]
    rfl
  · simp only [localImageTag, tagParts_eq, hdg, hamq, hsd, ImageStreamTag.pointsAt,
      Bool.false_eq_true, if_false, if_true]
    simp only [String.append_assoc]
    rfl
  · simp only [localImageTag, tagParts_eq, hdg, hamq, hsd, ImageStreamTag.pointsAt,
      Bool.false_eq_true, if_false, if_true]
    simp only [String.append_assoc]
    rfl

theorem stringsContains_iff (s sub : String) :
    stringsContains s sub = true ↔ sub.data <:+: s.data :=
  containsChars_iff sub.data s.data

theorem stringsContains_false_iff (s sub : String) :
    stringsContains s sub = false ↔ ¬ sub.data <:+: s.data := by
  rw [← stringsContains_iff, Bool.not_eq_true]

/-- C14: `createLocalImageTag` hands to `Create`, once and in the namespace of the CR, a
tag object named `<name>:<tag>`, and applies the third-party family rules first and in
order: a name part containing "datagrid" points the tag at the fixed default registry
under context "jboss-datagrid-7"; otherwise a name part containing "amq-broker-7" points
it at the fixed default registry under context "amq-broker-7", or
"amq-broker-7-tech-preview" when the name part also contains "scaledown"; in each case the
image stays `<name>:<tag>`, whatever registry the CR configures and whatever context the
image URL carries. The cluster state after the function is the one `Create` left for this
tag object, and the error returned is that of `Create`, unless it says that the tag exists
already. -/
theorem createLocalImageTag_third_party_families {σ : Type} (client : ImageStreamTagsClient σ)
    (consts : Constants) (defaults : Defaults) (logs : Logs) (tagRefName imageURL : String)
    (cr : KieApp) (s : σ) :
    ∃ tag : ImageStreamTag,
      tag.Namespace = cr.Namespace ∧
      tag.Name = namePart tagRefName ++ ":" ++ tagPart tagRefName ∧
      (createLocalImageTag client consts defaults logs tagRefName imageURL cr s).2.2
        = [.Create cr.Namespace tag] ∧
      (createLocalImageTag client consts defaults logs tagRefName imageURL cr s).2.1
        = (client.Create cr.Namespace tag s).2 ∧
      (createLocalImageTag client consts defaults logs tagRefName imageURL cr s).1.1
        = ignoreAlreadyExists (client.Create cr.Namespace tag s).1 ∧
      ("datagrid".data <:+: (namePart tagRefName).data →
        tag.pointsAt
          = some (consts.ImageRegistry ++ "/jboss-datagrid-7/" ++ namePart tagRefName ++ ":"
              ++ tagPart tagRefName)) ∧
      (¬ "datagrid".data <:+: (namePart tagRefName).data →
        "amq-broker-7".data <:+: (namePart tagRefName).data →
        ¬ "scaledown".data <:+: (namePart tagRefName).data →
        tag.pointsAt
          = some (consts.ImageRegistry ++ "/amq-broker-7/" ++ namePart tagRefName ++ ":"
              ++ tagPart tagRefName)) ∧
      (¬ "datagrid".data <:+: (namePart tagRefName).data →
        "amq-broker-7".data <:+: (namePart tagRefName).data →
        "scaledown".data <:+: (namePart tagRefName).data →
        tag.pointsAt
          = some (consts.ImageRegistry ++ "/amq-broker-7-tech-preview/" ++ namePart tagRefName
              ++ ":" ++ tagPart tagRefName)) := by
  refine ⟨(localImageTag consts defaults logs tagRefName imageURL cr).1,
    (localImageTag_namespace consts defaults logs tagRefName imageURL cr).1,
    (localImageTag_namespace consts defaults logs tagRefName imageURL cr).2.2,
    ?_, ?_, ?_, ?_, ?_, ?_⟩
  · rw [createLocalImageTag_eq]
  · rw [createLocalImageTag_eq]
  · rw [createLocalImageTag_eq]
  · intro hdg
    exact (localImageTag_thirdParty consts defaults logs tagRefName imageURL cr).1
      ((stringsContains_iff _ _).2 hdg)
  · intro hdg hamq hsd
    exact (localImageTag_thirdParty consts defaults logs tagRefName imageURL cr).2.1
      ((stringsContains_false_iff _ _).2 hdg) ((stringsContains_iff _ _).2 hamq)
      ((stringsContains_false_iff _ _).2 hsd)
  · intro hdg hamq hsd
    exact (localImageTag_thirdParty consts defaults logs tagRefName imageURL cr).2.2
      ((stringsContains_false_iff _ _).2 hdg) ((stringsContains_iff _ _).2 hamq)
      ((stringsContains_iff _ _).2 hsd)

theorem createLocalImageTag_third_party_families_witness :
    (createLocalImageTag recordingTagsClient sampleConsts sampleDefaults sampleLogs
        "amq-broker-7-scaledown-controller-openshift:0.4" "" sampleCRWithRegistry []).2.1.map
        ImageStreamTag.pointsAt
      = [some ("registry.redhat.io/amq-broker-7-tech-preview/"
          ++ "amq-broker-7-scaledown-controller-openshift:0.4")] ∧
    (createLocalImageTag recordingTagsClient sampleConsts sampleDefaults sampleLogs
        "datagrid73-openshift:1.6" "quay.io/custom/datagrid73-openshift:1.6"
        sampleCRWithRegistry []).2.1.map
        (fun tag => (tag.Namespace, tag.Name, tag.pointsAt))
      = [("demo", "datagrid73-openshift:1.6",
          some "registry.redhat.io/jboss-datagrid-7/datagrid73-openshift:1.6")] := by
  obtain ⟨tag, _, _, _, hstate, _, _, _, hsd⟩ :=
    createLocalImageTag_third_party_families recordingTagsClient sampleConsts sampleDefaults
      sampleLogs "amq-broker-7-scaledown-controller-openshift:0.4" "" sampleCRWithRegistry []
  refine ⟨?_, by decide⟩
  rw [hstate]
  have hpoints := hsd (by decide) (by decide) (by decide)
  simp only [recordingTagsClient, List.any_nil, Bool.false_eq_true, if_false, List.nil_append,
    List.map_cons, List.map_nil, ImageStreamTag.pointsAt] at hpoints ⊢
  rw [hpoints]
  decide

theorem checkImageStreamTag_eq {σ : Type} (client : ImageStreamTagsClient σ) (name ns : String)
    (s : σ) :
    checkImageStreamTag client name ns s
      = (decide (client.Get ns (namePart name ++ ":" ++ tagPart name) s = none),
         [.Get ns (namePart name ++ ":" ++ tagPart name)]) := by
  unfold checkImageStreamTag
  simp only [tagParts_eq]
  cases client.Get ns (namePart name ++ ":" ++ tagPart name) s <;> simp

/-- C15 (counterexample): the CR configures an image registry and the tag
"rhpam-kieserver-rhel8:7.13.5" exists in the target namespace "openshift" but not in the
namespace "demo" of the CR; `ensureImageStream` creates a tag object and the Store
changes. -/
theorem ensureImageStream_registry_counterexample :
    tagExists sampleTagsClient "openshift" "rhpam-kieserver-rhel8:7.13.5"
      [("openshift", "rhpam-kieserver-rhel8:7.13.5")] ∧
    (createdTags
        (ensureImageStream sampleTagsClient sampleConsts sampleDefaults sampleLogs
          "rhpam-kieserver-rhel8:7.13.5" "openshift" "" sampleCRWithRegistry
          [("openshift", "rhpam-kieserver-rhel8:7.13.5")]).2.2.2).length = 1 ∧
    (ensureImageStream sampleTagsClient sampleConsts sampleDefaults sampleLogs
        "rhpam-kieserver-rhel8:7.13.5" "openshift" "" sampleCRWithRegistry
        [("openshift", "rhpam-kieserver-rhel8:7.13.5")]).2.2.1
      = [("openshift", "rhpam-kieserver-rhel8:7.13.5"),
         ("demo", "rhpam-kieserver-rhel8:7.13.5")] := by
  refine ⟨?_, ?_, ?_⟩
  · unfold tagExists; decide
  · decide
  · decide

/-- C15 (amended): when the CR configures no image registry and the tag exists in the
target namespace or in the namespace of the CR, or when the CR configures an image
registry and the tag exists in the namespace of the CR, `ensureImageStream` creates no
tag object, leaves the Store and the CR unchanged, and returns, with a nil error, a
namespace in which the tag exists. When the CR configures an image registry, the target
namespace is not consulted: if the tag does not exist in the namespace of the CR, then,
whether or not it exists in the target namespace, the function reads the tag in the
namespace of the CR and hands a local tag object to `Create` in that namespace; the Store
is as `Create` left it, and the function returns the namespace of the CR with a nil error
when `Create` succeeds or says that the tag exists already, and the target namespace with
the error of `Create` otherwise. -/
theorem ensureImageStream_idempotent {σ : Type} (client : ImageStreamTagsClient σ)
    (consts : Constants) (defaults : Defaults) (logs : Logs) (name ns imageURL : String)
    (cr : KieApp) (s : σ) :
    (((cr.Status.Applied.ImageRegistry = none ∧
          (tagExists client ns name s ∨ tagExists client cr.Namespace name s)) ∨
        (cr.Status.Applied.ImageRegistry ≠ none ∧ tagExists client cr.Namespace name s)) →
      createdTags (ensureImageStream client consts defaults logs name ns imageURL cr s).2.2.2
        = [] ∧
      (ensureImageStream client consts defaults logs name ns imageURL cr s).2.2.1 = s ∧
      (ensureImageStream client consts defaults logs name ns imageURL cr s).2.1 = cr ∧
      (ensureImageStream client consts defaults logs name ns imageURL cr s).1.2 = none ∧
      tagExists client (ensureImageStream client consts defaults logs name ns imageURL cr s).1.1
        name s) ∧
    (cr.Status.Applied.ImageRegistry ≠ none → ¬ tagExists client cr.Namespace name s →
      ∃ tag : ImageStreamTag,
        tag.Namespace = cr.Namespace ∧
        tag.Name = namePart name ++ ":" ++ tagPart name ∧
        (ensureImageStream client consts defaults logs name ns imageURL cr s).2.2.2
          = [.Get cr.Namespace (namePart name ++ ":" ++ tagPart name),
             .Create cr.Namespace tag] ∧
        (ensureImageStream client consts defaults logs name ns imageURL cr s).2.2.1
          = (client.Create cr.Namespace tag s).2 ∧
        (ensureImageStream client consts defaults logs name ns imageURL cr s).1.2
          = ignoreAlreadyExists (client.Create cr.Namespace tag s).1 ∧
        (ensureImageStream client consts defaults logs name ns imageURL cr s).1.1
          = (if ignoreAlreadyExists (client.Create cr.Namespace tag s).1 = none then
              cr.Namespace
            else ns)) := by
  refine ⟨?_, ?_⟩
  · intro h
    unfold tagExists at h ⊢
    rcases h with ⟨hreg, hex⟩ | ⟨hreg, hex⟩
    · by_cases hns : client.Get ns (namePart name ++ ":" ++ tagPart name) s = none
      · simp [ensureImageStream, hreg, checkImageStreamTag_eq, hns, createdTags]
      · have hloc : client.Get cr.Namespace (namePart name ++ ":" ++ tagPart name) s
            = none := by
          rcases hex with h1 | h1
          · exact absurd h1 hns
          · exact h1
        simp [ensureImageStream, hreg, checkImageStreamTag_eq, hns, hloc, createdTags]
    · rcases hr : cr.Status.Applied.ImageRegistry with _ | registry
      · exact absurd hr hreg
      · simp [ensureImageStream, hr, checkImageStreamTag_eq, hex, createdTags]
  · intro hreg hex
    unfold tagExists at hex
    refine ⟨(localImageTag consts defaults logs name imageURL cr).1,
      (localImageTag_namespace consts defaults logs name imageURL cr).1,
      (localImageTag_namespace consts defaults logs name imageURL cr).2.2, ?_⟩
    have hcrns := (localImageTag_namespace consts defaults logs name imageURL cr).2.1
    rcases hr : cr.Status.Applied.ImageRegistry with _ | registry
    · exact absurd hr hreg
    · rcases hi : ignoreAlreadyExists
          (client.Create cr.Namespace (localImageTag consts defaults logs name imageURL cr).1
            s).1 with _ | err
      · simp [ensureImageStream, hr, checkImageStreamTag_eq, hex, createLocalImageTag_eq, hi,
          hcrns]
      · simp [ensureImageStream, hr, checkImageStreamTag_eq, hex, createLocalImageTag_eq, hi]

theorem ensureImageStream_idempotent_witness :
    (ensureImageStream sampleTagsClient sampleConsts sampleDefaults sampleLogs
        "rhpam-kieserver-rhel8:7.13.5" "openshift" "" (sampleCR "rhpam" "changeit")
        [("openshift", "rhpam-kieserver-rhel8:7.13.5")]).2.2.1
      = [("openshift", "rhpam-kieserver-rhel8:7.13.5")] ∧
    (ensureImageStream sampleTagsClient sampleConsts sampleDefaults sampleLogs
        "rhpam-kieserver-rhel8:7.13.5" "openshift" "" (sampleCR "rhpam" "changeit")
        [("openshift", "rhpam-kieserver-rhel8:7.13.5")]).1
      = ("openshift", none) ∧
    (ensureImageStream forbiddingTagsClient sampleConsts sampleDefaults sampleLogs
        "rhpam-kieserver-rhel8:7.13.5" "openshift" "" sampleCRWithRegistry []).1
      = ("openshift", some ⟨"Forbidden", "image stream tags are read-only"⟩) :=
  ⟨((ensureImageStream_idempotent sampleTagsClient sampleConsts sampleDefaults sampleLogs
      "rhpam-kieserver-rhel8:7.13.5" "openshift" "" (sampleCR "rhpam" "changeit")
      [("openshift", "rhpam-kieserver-rhel8:7.13.5")]).1
      (Or.inl ⟨rfl, Or.inl (by unfold tagExists; decide)⟩)).2.1,
   by decide, by decide⟩

/-! ## Status state machine theorems -/

theorem serversDiffer_self_suffix (servers : List KieServerSet) :
    ∀ (done rest : List KieServerSet), servers = done ++ rest →
      serversDiffer servers done.length rest = some false := by
  intro done rest
  induction rest generalizing done with
  | nil => intro _; rfl
  | cons x xs ih =>
    intro h
    have hget : servers[done.length]? = some x := by
      rw [h, List.getElem?_append_right (Nat.le_refl _)]; simp
    have hnext := ih (done ++ [x]) (by rw [h]; simp)
    simp only [List.length_append, List.length_singleton] at hnext
    simp [serversDiffer, hget, hnext]

theorem hasStatusChanges_eq (inst cachedInstance : KieApp) :
    hasStatusChanges inst cachedInstance
      = some (decide (inst.Status ≠ cachedInstance.Status)) := by
  unfold hasStatusChanges
  by_cases h : inst.Status = cachedInstance.Status
  · have hs := serversDiffer_self_suffix cachedInstance.Status.Applied.Objects.Servers []
      cachedInstance.Status.Applied.Objects.Servers rfl
    simp only [List.length_nil] at hs
    simp [h, hs]
  · simp [h]

/-- C17: `updateStatus` writes the status exactly when `hasStatusChanges` holds and the
resource versions of the in-hand and the cached CR are equal. When the status differs
and the versions do not match it writes nothing and returns `Result{Requeue: true}` with
a nil error; when the status does not differ it writes nothing and returns
`Result{Requeue: requeue}`; a failed write returns the empty `Result` with that error, a
successful one `Result{Requeue: requeue}`. -/
theorem updateStatus_spec {σ : Type} (StatusUpdate : KieApp → σ → Option Error × σ)
    (inst cachedInstance : KieApp) (requeue : Bool) (s : σ) :
    ∃ result s1 calls,
      updateStatus StatusUpdate inst cachedInstance requeue s = some (result, s1, calls) ∧
      (StatusCall.Update inst ∈ calls ↔
        hasStatusChanges inst cachedInstance = some true ∧
          inst.ResourceVersion = cachedInstance.ResourceVersion) ∧
      (∀ call ∈ calls, call = StatusCall.Update inst) ∧
      (hasStatusChanges inst cachedInstance = some true →
        inst.ResourceVersion ≠ cachedInstance.ResourceVersion →
        result = ({ Requeue := true, RequeueAfter := 0 }, none) ∧ s1 = s ∧ calls = []) ∧
      (hasStatusChanges inst cachedInstance = some false →
        result = ({ Requeue := requeue, RequeueAfter := 0 }, none) ∧ s1 = s ∧ calls = []) ∧
      (hasStatusChanges inst cachedInstance = some true →
        inst.ResourceVersion = cachedInstance.ResourceVersion →
        (∀ err, (StatusUpdate inst s).1 = some err →
          result = ({ Requeue := false, RequeueAfter := 0 }, some err)) ∧
        ((StatusUpdate inst s).1 = none →
          result = ({ Requeue := requeue, RequeueAfter := 0 }, none)) ∧
        s1 = (StatusUpdate inst s).2 ∧ calls = [.Update inst]) := by
  by_cases hst : inst.Status = cachedInstance.Status
  · have hval : updateStatus StatusUpdate inst cachedInstance requeue s
        = some (({ Requeue := requeue, RequeueAfter := 0 }, none), s, []) := by
      simp [updateStatus, hasStatusChanges_eq, hst]
    refine ⟨_, _, _, hval, ?_⟩
    simp [hasStatusChanges_eq, hst]
  · by_cases hrv : inst.ResourceVersion = cachedInstance.ResourceVersion
    · rcases hupd : StatusUpdate inst s with ⟨_ | err, s1⟩
      · have hval : updateStatus StatusUpdate inst cachedInstance requeue s
            = some (({ Requeue := requeue, RequeueAfter := 0 }, none), s1, [.Update inst]) := by
          simp [updateStatus, hasStatusChanges_eq, hst, hrv, hupd]
        refine ⟨_, _, _, hval, ?_⟩
        simp [hasStatusChanges_eq, hst, hrv]
      · have hval : updateStatus StatusUpdate inst cachedInstance requeue s
            = some (({ Requeue := false, RequeueAfter := 0 }, some err), s1, [.Update inst]) := by
          simp [updateStatus, hasStatusChanges_eq, hst, hrv, hupd, noRequeue]
        refine ⟨_, _, _, hval, ?_⟩
        simp [hasStatusChanges_eq, hst, hrv]
    · have hval : updateStatus StatusUpdate inst cachedInstance requeue s
          = some (({ Requeue := true, RequeueAfter := 0 }, none), s, []) := by
        simp [updateStatus, hasStatusChanges_eq, hst, hrv]
      refine ⟨_, _, _, hval, ?_⟩
      simp [hasStatusChanges_eq, hst, hrv]

theorem updateStatus_spec_witness :
    updateStatus sampleStatusUpdate (withConsoleHost (sampleCR "rhpam" "changeit") "http://rhpam")
        (sampleCR "rhpam" "changeit") false 0
      = some (({ Requeue := false, RequeueAfter := 0 }, none), 1,
          [.Update (withConsoleHost (sampleCR "rhpam" "changeit") "http://rhpam")]) := by
  obtain ⟨result, s1, calls, heq, _, _, _, _, hwrite⟩ :=
    updateStatus_spec sampleStatusUpdate
      (withConsoleHost (sampleCR "rhpam" "changeit") "http://rhpam")
      (sampleCR "rhpam" "changeit") false 0
  obtain ⟨_, hok, hs1, hcalls⟩ := hwrite (by decide) (by decide)
  rw [heq, hok rfl, hs1, hcalls]
  rfl

theorem updateStatus_calls {σ : Type} (StatusUpdate : KieApp → σ → Option Error × σ)
    (inst cachedInstance : KieApp) (requeue : Bool) (s : σ) :
    ∃ result s1 calls,
      updateStatus StatusUpdate inst cachedInstance requeue s = some (result, s1, calls) ∧
      ∀ call ∈ calls, call = StatusCall.Update inst := by
  by_cases hst : inst.Status = cachedInstance.Status
  · exact ⟨({ Requeue := requeue, RequeueAfter := 0 }, none), s, [],
      by simp [updateStatus, hasStatusChanges_eq, hst], by simp⟩
  · by_cases hrv : inst.ResourceVersion = cachedInstance.ResourceVersion
    · rcases hupd : StatusUpdate inst s with ⟨_ | err, s1⟩
      · exact ⟨({ Requeue := requeue, RequeueAfter := 0 }, none), s1, [.Update inst],
          by simp [updateStatus, hasStatusChanges_eq, hst, hrv, hupd], by simp⟩
      · exact ⟨(noRequeue, some err), s1, [.Update inst],
          by simp [updateStatus, hasStatusChanges_eq, hst, hrv, hupd], by simp⟩
    · exact ⟨({ Requeue := true, RequeueAfter := 0 }, none), s, [],
        by simp [updateStatus, hasStatusChanges_eq, hst, hrv], by simp⟩

theorem reconcileResources_ok_events {σ : Type} (writer : ResourceWriter σ)
    (compare : ResourceMap → List Object → List (ResourceType × ResourceDelta))
    (requestedResources : List Object) (deployed : ResourceMap) (s s1 : σ)
    (hasUpdates : Bool) (events : List WriterEvent)
    (h : reconcileResources writer compare requestedResources deployed s
      = ((hasUpdates, none), s1, events)) :
    (∀ ev ∈ events, ev.err = none) ∧ hasUpdates = events.any (fun ev => ev.changed) := by
  unfold reconcileResources at h
  simp only at h
  rcases reconcileDeltas_outcome writer deployed (compare deployed requestedResources) false s with
    ⟨h1, h2, _⟩ | ⟨e, init, last, h1, _⟩
  · rw [h] at h1 h2
    simp only [Bool.false_or, Prod.mk.injEq, and_true] at h1
    exact ⟨h2, h1⟩
  · rw [h] at h1
    simp at h1

theorem reconcileApply_checkStatus {σ : Type} (p : Platform σ) (request : Request)
    (inst : KieApp) (env : Environment) (s : σ) (hasUpdates : Bool)
    (hmem : Step.checkStatus hasUpdates ∈ (reconcileApply p request inst env s).2.2) :
    ∃ events, Step.reconcileResources events ∈ (reconcileApply p request inst env s).2.2 ∧
      ApplySucceeded p hasUpdates events := by
  unfold reconcileApply at hmem ⊢
  rcases hk : p.getKubernetesResources inst env s with ⟨requested, s1⟩
  simp only [hk] at hmem ⊢
  rcases hd : p.getDeployedResources inst s1 with err | deployed
  · simp [hd] at hmem
  · simp only [hd] at hmem ⊢
    rcases hr : reconcileResources
        (p.writer (p.setDeploymentStatus inst (deployed.get "DeploymentConfig"))) p.compare
        (requested.map (fun resource =>
          if isNamespaced resource then resource.SetNamespace inst.Namespace else resource))
        deployed s1 with ⟨⟨updates, _ | err⟩, s2, events⟩
    · simp only [hr] at hmem ⊢
      rcases hc : p.GetCached request
          (p.checkKieServerConfigMap (p.setDeploymentStatus inst (deployed.get "DeploymentConfig"))
            env s2) with err | cached
      · simp only [hc] at hmem
        split at hmem <;> simp at hmem
      · simp only [hc] at hmem ⊢
        simp at hmem
        subst hmem
        exact ⟨events, by simp, _, _, _, _, _, hr⟩
    · simp [hr] at hmem

theorem reconcileCredentials_checkStatus {σ : Type} (p : Platform σ) (request : Request)
    (inst : KieApp) (env : Environment) (deployedRoutes : List Object) (s : σ)
    (hasUpdates : Bool)
    (hmem : Step.checkStatus hasUpdates
      ∈ (reconcileCredentials p request inst env deployedRoutes s).2.2) :
    ∃ events,
      Step.reconcileResources events
        ∈ (reconcileCredentials p request inst env deployedRoutes s).2.2 ∧
      ApplySucceeded p hasUpdates events := by
  unfold reconcileCredentials at hmem ⊢
  simp only at hmem ⊢
  split at hmem
  · rename_i err steps hca
    split at hca
    · split at hca
      · simp at hca
      · split at hca
        · simp only [Prod.mk.injEq] at hca
          rw [← hca.2] at hmem
          simp at hmem
        · simp at hca
    · simp at hca
  · rename_i caConfigMap steps hca
    have hsteps : ∀ step ∈ steps, step = Step.getCAConfigMap := by
      intro step hstep
      split at hca
      · split at hca
        · simp only [Prod.mk.injEq] at hca
          rw [← hca.2] at hstep
          simpa using hstep
        · split at hca
          · simp at hca
          · simp only [Prod.mk.injEq] at hca
            rw [← hca.2] at hstep
            simpa using hstep
      · simp only [Prod.mk.injEq] at hca
        rw [← hca.2] at hstep
        simp at hstep
    rcases hse : p.setEnvironmentProperties inst env deployedRoutes caConfigMap s
      with ⟨inst1, err | env1⟩
    · simp only [hse] at hmem
      simp only [List.mem_append, List.mem_singleton] at hmem
      rcases hmem with hmem | hmem
      · have := hsteps _ hmem
        cases this
      · cases hmem
    · simp only [hse] at hmem ⊢
      simp only [List.mem_append, List.mem_singleton] at hmem
      rcases hmem with (hmem | hmem) | hmem
      · have := hsteps _ hmem
        cases this
      · cases hmem
      · obtain ⟨events, hev, hrest⟩ :=
          reconcileApply_checkStatus p request inst1 env1 s hasUpdates hmem
        exact ⟨events, by simp [hev], hrest⟩

theorem routePhase_steps {σ : Type} (p : Platform σ) (inst : KieApp) (env : Environment)
    (s : σ) :
    ∀ step ∈ (routePhase p inst env s).2.2,
      step = Step.listRoutes ∨ ∃ event, step = Step.addRoutes event := by
  intro step hstep
  unfold routePhase at hstep
  simp only at hstep
  split at hstep
  · simp only [List.mem_singleton] at hstep
    exact Or.inl hstep
  · split at hstep
    · split at hstep
      · simp only [List.mem_cons, List.mem_singleton, List.not_mem_nil, or_false] at hstep
        rcases hstep with rfl | rfl
        · exact Or.inl rfl
        · exact Or.inr ⟨_, rfl⟩
      · split at hstep <;>
        · simp only [List.mem_cons, List.mem_singleton, List.not_mem_nil, or_false] at hstep
          rcases hstep with rfl | rfl
          · exact Or.inl rfl
          · exact Or.inr ⟨_, rfl⟩
    · simp only [List.mem_singleton] at hstep
      exact Or.inl hstep

theorem Reconcile_checkStatus {σ : Type} (p : Platform σ) (request : Request) (s : σ)
    (hasUpdates : Bool)
    (hmem : Step.checkStatus hasUpdates ∈ (Reconcile p request s).2.2) :
    ∃ events, Step.reconcileResources events ∈ (Reconcile p request s).2.2 ∧
      ApplySucceeded p hasUpdates events := by
  unfold Reconcile at hmem ⊢
  simp only at hmem ⊢
  rcases hg : p.GetInstance request (p.embeddedFiles s) with err | found
  · simp only [hg] at hmem
    split at hmem
    · split at hmem <;> simp at hmem
    · simp at hmem
  · simp only [hg] at hmem ⊢
    rcases he : p.GetEnvironment found (p.embeddedFiles s) with ⟨inst, err | env⟩
    · simp [he] at hmem
    · simp only [he] at hmem ⊢
      rcases hv : p.verifyExternalReferences inst (p.embeddedFiles s) with _ | err
      · simp only [hv] at hmem ⊢
        have hroute := routePhase_steps p inst env (p.embeddedFiles s)
        rcases hr : routePhase p inst env (p.embeddedFiles s) with ⟨outcome, s1, steps⟩
        rw [hr] at hroute
        simp only at hroute
        have hnot : Step.checkStatus hasUpdates ∉ steps := by
          intro hin
          rcases hroute _ hin with h | ⟨_, h⟩ <;> cases h
        cases outcome with
        | done result =>
          simp only [hr] at hmem
          simp only [List.mem_append, List.mem_cons, List.mem_singleton, List.not_mem_nil,
            or_false] at hmem
          rcases hmem with (h | h | h | h) | h
          · cases h
          · cases h
          · cases h
          · cases h
          · exact absurd h hnot
        | proceed value =>
          obtain ⟨deployedRoutes, env1⟩ := value
          simp only [hr] at hmem ⊢
          simp only [List.mem_append, List.mem_cons, List.mem_singleton, List.not_mem_nil,
            or_false] at hmem
          rcases hmem with ((h | h | h | h) | h) | h
          · cases h
          · cases h
          · cases h
          · cases h
          · exact absurd h hnot
          · obtain ⟨events, hev, hrest⟩ :=
              reconcileCredentials_checkStatus p request inst env1 deployedRoutes s1 hasUpdates h
            exact ⟨events, by simp [hev], hrest⟩
      · simp [hv] at hmem

theorem updateStatus_eq {σ : Type} (StatusUpdate : KieApp → σ → Option Error × σ)
    (inst cachedInstance : KieApp) (requeue : Bool) (s : σ) :
    updateStatus StatusUpdate inst cachedInstance requeue s
      = some
          (if inst.Status = cachedInstance.Status then
            (({ Requeue := requeue, RequeueAfter := 0 }, none), s, [])
          else if inst.ResourceVersion = cachedInstance.ResourceVersion then
            ((match (StatusUpdate inst s).1 with
              | some err => (noRequeue, some err)
              | none => ({ Requeue := requeue, RequeueAfter := 0 }, none)),
             (StatusUpdate inst s).2, [.Update inst])
          else (({ Requeue := true, RequeueAfter := 0 }, none), s, [])) := by
  by_cases hst : inst.Status = cachedInstance.Status
  · simp [updateStatus, hasStatusChanges_eq, hst]
  · by_cases hrv : inst.ResourceVersion = cachedInstance.ResourceVersion
    · rcases hupd : StatusUpdate inst s with ⟨_ | err, s1⟩
      · simp [updateStatus, hasStatusChanges_eq, hst, hrv, hupd]
      · simp [updateStatus, hasStatusChanges_eq, hst, hrv, hupd]
    · simp [updateStatus, hasStatusChanges_eq, hst, hrv]

theorem checkStatus_eq {σ : Type} (status : StatusLib)
    (StatusUpdate : KieApp → σ → Option Error × σ) (inst cachedInstance : KieApp)
    (hasUpdates : Bool) (s : σ) :
    checkStatus status StatusUpdate inst cachedInstance hasUpdates s
      = (updateStatus StatusUpdate (transitionFor status hasUpdates inst).2 cachedInstance
          (transitionFor status hasUpdates inst).1 s).map
          (fun outcome =>
            (outcome.1, outcome.2.1,
             (if hasUpdates then StatusCall.SetProvisioning else StatusCall.SetDeployed)
               :: outcome.2.2)) := by
  cases hasUpdates
  · simp only [checkStatus, transitionFor, Bool.false_eq_true, if_false]
    rcases updateStatus StatusUpdate (status.SetDeployed inst).2 cachedInstance
      (status.SetDeployed inst).1 s with _ | ⟨result, s1, calls⟩ <;> rfl
  · simp only [checkStatus, transitionFor, if_true]
    rcases updateStatus StatusUpdate (status.SetProvisioning inst).2 cachedInstance
      (status.SetProvisioning inst).1 s with _ | ⟨result, s1, calls⟩ <;> rfl

/-- The end of the pass after a failed apply step: the error of `reconcileResources` is
returned in the cluster state it left, and no status update follows. -/
theorem reconcileApply_of_failed_apply {σ : Type} (p : Platform σ) (request : Request)
    (inst : KieApp) (env : Environment) (s s2 : σ) (deployed : ResourceMap) (flag : Bool)
    (err : Error) (events : List WriterEvent)
    (hdeployed : p.getDeployedResources inst (p.getKubernetesResources inst env s).2
      = .ok deployed)
    (happly : reconcileResources
        (p.writer (p.setDeploymentStatus inst (deployed.get "DeploymentConfig"))) p.compare
        (namespacedResources inst (p.getKubernetesResources inst env s).1) deployed
        (p.getKubernetesResources inst env s).2 = ((flag, some err), s2, events)) :
    reconcileApply p request inst env s
      = ((noRequeue, some err), s2,
         [.getKubernetesResources, .getDeployedResources, .setDeploymentStatus,
          .reconcileResources events]) := by
  unfold namespacedResources at happly
  unfold reconcileApply
  simp only [hdeployed, happly]

/-- The end of the pass after a successful apply step, the cached CR being found: the
results and the cluster state are those of `checkStatus`, called with the boolean
`reconcileResources` returned. -/
theorem reconcileApply_of_applied {σ : Type} (p : Platform σ) (request : Request)
    (inst : KieApp) (env : Environment) (s s2 : σ) (deployed : ResourceMap) (hasUpdates : Bool)
    (events : List WriterEvent) (cachedInstance : KieApp)
    (hdeployed : p.getDeployedResources inst (p.getKubernetesResources inst env s).2
      = .ok deployed)
    (happly : reconcileResources
        (p.writer (p.setDeploymentStatus inst (deployed.get "DeploymentConfig"))) p.compare
        (namespacedResources inst (p.getKubernetesResources inst env s).1) deployed
        (p.getKubernetesResources inst env s).2 = ((hasUpdates, none), s2, events))
    (hcached : p.GetCached request
        (p.checkKieServerConfigMap (p.setDeploymentStatus inst (deployed.get "DeploymentConfig"))
          env s2) = .ok cachedInstance) :
    reconcileApply p request inst env s
      = ((p.checkStatus (p.setDeploymentStatus inst (deployed.get "DeploymentConfig"))
            cachedInstance hasUpdates
            (p.checkKieServerConfigMap
              (p.setDeploymentStatus inst (deployed.get "DeploymentConfig")) env s2)).1,
         (p.checkStatus (p.setDeploymentStatus inst (deployed.get "DeploymentConfig"))
            cachedInstance hasUpdates
            (p.checkKieServerConfigMap
              (p.setDeploymentStatus inst (deployed.get "DeploymentConfig")) env s2)).2,
         [.getKubernetesResources, .getDeployedResources, .setDeploymentStatus,
          .reconcileResources events, .checkKieServerConfigMap, .getCached,
          .checkStatus hasUpdates]) := by
  unfold namespacedResources at happly
  unfold reconcileApply
  simp only [hdeployed, happly, hcached]

/-- C16: `checkStatus` applies the Provisioning transition when `hasUpdates` is true and
the Deployed transition when it is false, and never the other one: the CR and the requeue
flag it hands to `updateStatus` are those the transition returned, so that the results
and the cluster state are those of `updateStatus` for them, and a status that is written
is the status of the CR the transition returned. In a pass of `Reconcile`, `checkStatus`
is reached only after the apply step returned no error: `reconcileResources` returned a
nil error, the writer returned no error for any of its calls, and `hasUpdates` is the
boolean `reconcileResources` returned, the disjunction of the changes the writer
reported; so the Deployed transition is never applied for a pass whose apply outcome
reported changes. In the end of the pass (from the list of the objects to deploy on), a
failed apply step ends the pass with its error, in the cluster state it left and without
a status update; after a successful apply step, the cached CR being found, the results
and the cluster state of the pass are those of `checkStatus`, called with the boolean the
apply step returned. -/
theorem checkStatus_transitions {σ τ : Type} (status : StatusLib)
    (StatusUpdate : KieApp → τ → Option Error × τ) (inst cachedInstance : KieApp)
    (hasUpdates : Bool) (t : τ) (p : Platform σ) (request : Request) (s : σ) :
    checkStatus status StatusUpdate inst cachedInstance true t
      = (updateStatus StatusUpdate (status.SetProvisioning inst).2 cachedInstance
          (status.SetProvisioning inst).1 t).map
          (fun outcome => (outcome.1, outcome.2.1, StatusCall.SetProvisioning :: outcome.2.2)) ∧
    checkStatus status StatusUpdate inst cachedInstance false t
      = (updateStatus StatusUpdate (status.SetDeployed inst).2 cachedInstance
          (status.SetDeployed inst).1 t).map
          (fun outcome => (outcome.1, outcome.2.1, StatusCall.SetDeployed :: outcome.2.2)) ∧
    (∃ result t1 calls,
      checkStatus status StatusUpdate inst cachedInstance hasUpdates t
        = some (result, t1, calls) ∧
      (StatusCall.SetProvisioning ∈ calls ↔ hasUpdates = true) ∧
      (StatusCall.SetDeployed ∈ calls ↔ hasUpdates = false) ∧
      (∀ written, StatusCall.Update written ∈ calls →
        written = (transitionFor status hasUpdates inst).2 ∧
        t1 = (StatusUpdate written t).2 ∧
        result
          = (match (StatusUpdate written t).1 with
             | some err => (noRequeue, some err)
             | none =>
               ({ Requeue := (transitionFor status hasUpdates inst).1, RequeueAfter := 0 },
                none))) ∧
      ((∀ written, StatusCall.Update written ∉ calls) → t1 = t ∧ result.2 = none)) ∧
    (∀ reached, Step.checkStatus reached ∈ (Reconcile p request s).2.2 →
      ∃ events, Step.reconcileResources events ∈ (Reconcile p request s).2.2 ∧
        (∃ (applied : KieApp) (requestedResources : List Object) (deployed : ResourceMap)
            (s0 s1 : σ),
          reconcileResources (p.writer applied) p.compare requestedResources deployed s0
            = ((reached, none), s1, events) ∧
          (events, s1)
            = runCalls (p.writer applied)
                (plannedCalls deployed (p.compare deployed requestedResources)) s0) ∧
        (∀ ev ∈ events, ev.err = none) ∧
        reached = events.any (fun ev => ev.changed)) ∧
    (∀ (applied : KieApp) (env : Environment) (s0 s2 : σ) (deployed : ResourceMap)
        (flag : Bool) (events : List WriterEvent),
      p.getDeployedResources applied (p.getKubernetesResources applied env s0).2
        = .ok deployed →
      (∀ err : Error,
        reconcileResources
            (p.writer (p.setDeploymentStatus applied (deployed.get "DeploymentConfig")))
            p.compare (namespacedResources applied (p.getKubernetesResources applied env s0).1)
            deployed (p.getKubernetesResources applied env s0).2
          = ((flag, some err), s2, events) →
        reconcileApply p request applied env s0
          = ((noRequeue, some err), s2,
             [.getKubernetesResources, .getDeployedResources, .setDeploymentStatus,
              .reconcileResources events])) ∧
      (∀ cached : KieApp,
        reconcileResources
            (p.writer (p.setDeploymentStatus applied (deployed.get "DeploymentConfig")))
            p.compare (namespacedResources applied (p.getKubernetesResources applied env s0).1)
            deployed (p.getKubernetesResources applied env s0).2
          = ((flag, none), s2, events) →
        p.GetCached request
            (p.checkKieServerConfigMap
              (p.setDeploymentStatus applied (deployed.get "DeploymentConfig")) env s2)
          = .ok cached →
        reconcileApply p request applied env s0
          = ((p.checkStatus (p.setDeploymentStatus applied (deployed.get "DeploymentConfig"))
                cached flag
                (p.checkKieServerConfigMap
                  (p.setDeploymentStatus applied (deployed.get "DeploymentConfig")) env s2)).1,
             (p.checkStatus (p.setDeploymentStatus applied (deployed.get "DeploymentConfig"))
                cached flag
                (p.checkKieServerConfigMap
                  (p.setDeploymentStatus applied (deployed.get "DeploymentConfig")) env s2)).2,
             [.getKubernetesResources, .getDeployedResources, .setDeploymentStatus,
              .reconcileResources events, .checkKieServerConfigMap, .getCached,
              .checkStatus flag]))) := by
  refine ⟨?_, ?_, ?_, ?_, fun applied env s0 s2 deployed flag events hdeployed =>
    ⟨fun err happly =>
      reconcileApply_of_failed_apply p request applied env s0 s2 deployed flag err events
        hdeployed happly,
     fun cached happly hcached =>
      reconcileApply_of_applied p request applied env s0 s2 deployed flag events cached
        hdeployed happly hcached⟩⟩
  · rw [checkStatus_eq]
    rfl
  · rw [checkStatus_eq]
    rfl
  · rw [checkStatus_eq, updateStatus_eq]
    by_cases hst : (transitionFor status hasUpdates inst).2.Status = cachedInstance.Status
    · refine ⟨_, _, _, by rw [if_pos hst]; rfl, ?_, ?_, ?_, ?_⟩
      · cases hasUpdates <;> simp
      · cases hasUpdates <;> simp
      · intro written hmem
        cases hasUpdates <;> simp at hmem
      · intro _
        exact ⟨rfl, rfl⟩
    · by_cases hrv : (transitionFor status hasUpdates inst).2.ResourceVersion
          = cachedInstance.ResourceVersion
      · refine ⟨_, _, _, by rw [if_neg hst, if_pos hrv]; rfl, ?_, ?_, ?_, ?_⟩
        · cases hasUpdates <;> simp
        · cases hasUpdates <;> simp
        · intro written hmem
          have hw : written = (transitionFor status hasUpdates inst).2 := by
            cases hasUpdates <;> simpa using hmem
          subst hw
          exact ⟨rfl, rfl, rfl⟩
        · intro hnone
          exact absurd (by simp) (hnone (transitionFor status hasUpdates inst).2)
      · refine ⟨_, _, _, by rw [if_neg hst, if_neg hrv]; rfl, ?_, ?_, ?_, ?_⟩
        · cases hasUpdates <;> simp
        · cases hasUpdates <;> simp
        · intro written hmem
          cases hasUpdates <;> simp at hmem
        · intro _
          exact ⟨rfl, rfl⟩
  · intro reached h
    obtain ⟨events, hstep, applied, requestedResources, deployed, s0, s1, hres⟩ :=
      Reconcile_checkStatus p request s reached h
    have hok := reconcileResources_ok_events _ _ _ _ _ _ _ _ hres
    have hrun := reconcileResources_eq_runCalls (p.writer applied) p.compare
      requestedResources deployed s0
    rw [hres] at hrun
    simp only [Prod.mk.injEq] at hrun
    refine ⟨events, hstep, ⟨applied, requestedResources, deployed, s0, s1, hres, ?_⟩,
      hok.1, hok.2⟩
    rw [hrun.2.1, hrun.2.2]

theorem checkStatus_transitions_witness :
    checkStatus sampleStatusLib sampleStatusUpdate (sampleCR "rhpam" "changeit")
        (sampleCR "rhpam" "changeit") true 0
      = some (({ Requeue := true, RequeueAfter := 0 }, none), 1,
          [.SetProvisioning,
           .Update { sampleCR "rhpam" "changeit" with
             Status := { (sampleCR "rhpam" "changeit").Status with Phase := "Provisioning" } }]) ∧
    checkStatus sampleStatusLib sampleStatusUpdate (sampleCR "rhpam" "changeit")
        (sampleCR "rhpam" "changeit") false 0
      = some (({ Requeue := false, RequeueAfter := 0 }, none), 1,
          [.SetDeployed,
           .Update { sampleCR "rhpam" "changeit" with
             Status := { (sampleCR "rhpam" "changeit").Status with Phase := "Deployed" } }]) ∧
    checkStatus sampleStatusLib sampleStatusUpdate (sampleCR "rhpam" "changeit")
        (sampleCR "rhpam" "changeit") false 0
      = (updateStatus sampleStatusUpdate
          (sampleStatusLib.SetDeployed (sampleCR "rhpam" "changeit")).2
          (sampleCR "rhpam" "changeit")
          (sampleStatusLib.SetDeployed (sampleCR "rhpam" "changeit")).1 0).map
          (fun outcome => (outcome.1, outcome.2.1, StatusCall.SetDeployed :: outcome.2.2)) :=
  ⟨by decide, by decide,
   (checkStatus_transitions sampleStatusLib sampleStatusUpdate (sampleCR "rhpam" "changeit")
      (sampleCR "rhpam" "changeit") false 0 samplePlatform
      { Name := "rhpam-trial", Namespace := "demo" } 0).2.1⟩

/-! ## Deployed-state loader theorems -/

theorem appendIfOwned_eq (inst : KieApp) (secret : Secret) (secrets : List Object)
    (refs : List OwnerReference) :
    appendIfOwned inst secret secrets refs
      = secrets ++ (if refs.any (fun ownerRef => decide (ownerRef.UID = inst.UID)) then
          [Object.secret secret] else []) := by
  induction refs with
  | nil => simp [appendIfOwned]
  | cons r rest ih =>
    by_cases h : r.UID = inst.UID
    · simp [appendIfOwned, h]
    · simp [appendIfOwned, h, ih]

theorem loadVolumeSecrets_eq (reader : DeployedReader) (inst : KieApp) (volumes : List Volume)
    (secrets : List Object) (calls : List StoreCall) :
    loadVolumeSecrets reader inst volumes secrets calls
      = collectOwned reader inst (secretNamesOf volumes) secrets calls := by
  induction volumes generalizing secrets calls with
  | nil => rfl
  | cons volume rest ih =>
    rcases hsrc : volume.Secret with _ | source
    · simp only [loadVolumeSecrets, hsrc, secretNamesOf, List.filterMap_cons, Option.map_none']
      exact ih secrets calls
    · have hnames : secretNamesOf (volume :: rest)
          = source.SecretName :: secretNamesOf rest := by
        simp [secretNamesOf, hsrc]
      rw [hnames]
      rcases hget : reader.GetSecret source.SecretName inst.Namespace with err | secret
      · by_cases hnf : err.IsNotFound = true
        · simp [loadVolumeSecrets, hsrc, hget, hnf, collectOwned, readFailure, ownedSecret,
            appendIfOwned_eq, zeroSecret, ih]
        · simp [loadVolumeSecrets, hsrc, hget, hnf, collectOwned, readFailure]
      · by_cases hown : ownedBy inst secret = true
        · have hany := hown
          unfold ownedBy at hany
          simp [loadVolumeSecrets, hsrc, hget, collectOwned, readFailure, ownedSecret,
            appendIfOwned_eq, hown, hany, ih]
        · have hany := hown
          unfold ownedBy at hany
          simp [loadVolumeSecrets, hsrc, hget, collectOwned, readFailure, ownedSecret,
            appendIfOwned_eq, hown, hany, ih]

theorem collectOwned_append (reader : DeployedReader) (inst : KieApp) (l1 l2 : List String)
    (secrets : List Object) (calls : List StoreCall) :
    collectOwned reader inst (l1 ++ l2) secrets calls
      = match collectOwned reader inst l1 secrets calls with
        | (.error err, calls1) => (.error err, calls1)
        | (.ok secrets1, calls1) => collectOwned reader inst l2 secrets1 calls1 := by
  induction l1 generalizing secrets calls with
  | nil => rfl
  | cons name rest ih =>
    rcases hf : readFailure reader inst name with _ | err
    · simp only [List.cons_append, collectOwned, hf]
      exact ih _ _
    · simp [collectOwned, hf]

theorem loadSecrets_eq (reader : DeployedReader) (inst : KieApp) (dcs : List DeploymentConfig)
    (htemplates : ∀ dc ∈ dcs, dc.Spec.Template ≠ none)
    (secrets : List Object) (calls : List StoreCall) :
    loadSecrets reader inst (dcs.map Object.deploymentConfig) secrets calls
      = some (collectOwned reader inst (secretVolumeNames dcs) secrets calls) := by
  induction dcs generalizing secrets calls with
  | nil => rfl
  | cons dc rest ih =>
    have hrest : ∀ d ∈ rest, d.Spec.Template ≠ none :=
      fun d hd => htemplates d (List.mem_cons_of_mem _ hd)
    rcases ht : dc.Spec.Template with _ | template
    · exact absurd ht (htemplates dc (List.mem_cons_self _ _))
    · have hnames : secretVolumeNames (dc :: rest)
          = secretNamesOf template.Spec.Volumes ++ secretVolumeNames rest := by
        simp [secretVolumeNames, ht]
      rw [hnames, collectOwned_append, ← loadVolumeSecrets_eq]
      simp only [List.map_cons, loadSecrets, ht]
      rcases hl : loadVolumeSecrets reader inst template.Spec.Volumes secrets calls
        with ⟨err | secrets1, calls1⟩
      · rfl
      · simp only
        exact ih hrest secrets1 calls1

theorem loadSecrets_ok_wellformed (reader : DeployedReader) (inst : KieApp)
    (objs : List Object) (secrets secrets1 : List Object) (calls calls1 : List StoreCall)
    (h : loadSecrets reader inst objs secrets calls = some (.ok secrets1, calls1)) :
    ∃ dcs : List DeploymentConfig,
      objs = dcs.map Object.deploymentConfig ∧ ∀ dc ∈ dcs, dc.Spec.Template ≠ none := by
  induction objs generalizing secrets calls with
  | nil => exact ⟨[], rfl, by simp⟩
  | cons obj rest ih =>
    cases obj with
    | deploymentConfig dc =>
      rcases ht : dc.Spec.Template with _ | template
      · simp [loadSecrets, ht] at h
      · simp only [loadSecrets, ht] at h
        rcases hl : loadVolumeSecrets reader inst template.Spec.Volumes secrets calls
          with ⟨err | secrets2, calls2⟩
        · simp [hl] at h
        · simp only [hl] at h
          obtain ⟨dcs, hdcs, htemplates⟩ := ih secrets2 calls2 h
          refine ⟨dc :: dcs, by simp [hdcs], ?_⟩
          intro d hd
          rcases List.mem_cons.1 hd with rfl | hd
          · simp [ht]
          · exact htemplates d hd
    | buildConfig x => simp [loadSecrets] at h
    | configMap x => simp [loadSecrets] at h
    | secret x => simp [loadSecrets] at h
    | route x => simp [loadSecrets] at h
    | generic g x => simp [loadSecrets] at h

theorem collectOwned_ok (reader : DeployedReader) (inst : KieApp) (names : List String)
    (secrets secrets1 : List Object) (calls calls1 : List StoreCall)
    (h : collectOwned reader inst names secrets calls = (.ok secrets1, calls1)) :
    secrets1 = secrets ++ names.filterMap (ownedSecret reader inst) ∧
    calls1 = calls ++ secretReads inst names ∧
    ∀ name ∈ names, readFailure reader inst name = none := by
  induction names generalizing secrets calls with
  | nil =>
    simp only [collectOwned, Prod.mk.injEq, Except.ok.injEq] at h
    simp [h.1, h.2, secretReads]
  | cons name rest ih =>
    rcases hf : readFailure reader inst name with _ | err
    · simp only [collectOwned, hf] at h
      obtain ⟨h1, h2, h3⟩ := ih _ _ h
      refine ⟨?_, ?_, ?_⟩
      · rw [h1]
        rcases ho : ownedSecret reader inst name with _ | b <;> simp [List.filterMap_cons, ho]
      · rw [h2]; simp [secretReads]
      · intro n hn
        rcases List.mem_cons.1 hn with rfl | hn
        · exact hf
        · exact h3 n hn
    · simp [collectOwned, hf] at h

theorem collectOwned_of_no_failure (reader : DeployedReader) (inst : KieApp)
    (names : List String) (secrets : List Object) (calls : List StoreCall)
    (h : ∀ name ∈ names, readFailure reader inst name = none) :
    collectOwned reader inst names secrets calls
      = (.ok (secrets ++ names.filterMap (ownedSecret reader inst)),
         calls ++ secretReads inst names) := by
  induction names generalizing secrets calls with
  | nil => simp [collectOwned, secretReads]
  | cons name rest ih =>
    have hf := h name (List.mem_cons_self _ _)
    simp only [collectOwned, hf]
    rw [ih _ _ (fun n hn => h n (List.mem_cons_of_mem _ hn))]
    rcases ho : ownedSecret reader inst name with _ | b <;>
      simp [List.filterMap_cons, secretReads, ho]

theorem collectOwned_of_failure (reader : DeployedReader) (inst : KieApp)
    (before after : List String) (name : String) (err : Error)
    (secrets : List Object) (calls : List StoreCall)
    (hbefore : ∀ n ∈ before, readFailure reader inst n = none)
    (hname : readFailure reader inst name = some err) :
    collectOwned reader inst (before ++ name :: after) secrets calls
      = (.error err, calls ++ secretReads inst (before ++ [name])) := by
  rw [collectOwned_append, collectOwned_of_no_failure reader inst before secrets calls hbefore]
  simp [collectOwned, hname, secretReads]

theorem ResourceMap.get_set_self (m : ResourceMap) (resourceType : ResourceType)
    (resources : List Object) : (m.set resourceType resources).get resourceType = resources := by
  simp [ResourceMap.set, ResourceMap.get, List.lookup]

theorem lookup_filter_ne (m : ResourceMap) (k1 k2 : ResourceType) (hne : k2 ≠ k1) :
    List.lookup k2 (m.filter (fun entry => entry.1 != k1)) = List.lookup k2 m := by
  induction m with
  | nil => rfl
  | cons entry rest ih =>
    obtain ⟨k, v⟩ := entry
    by_cases hk : k = k1
    · subst hk
      have hb : (k2 == k) = false := by simpa using hne
      simp [List.filter_cons, List.lookup_cons, hb, ih]
    · by_cases hk2 : k2 = k
      · subst hk2
        simp [List.filter_cons, List.lookup_cons, hk]
      · have hb : (k2 == k) = false := by simpa using hk2
        simp [List.filter_cons, List.lookup_cons, hk, hb, ih]

theorem ResourceMap.get_set_of_ne (m : ResourceMap) (k1 k2 : ResourceType)
    (resources : List Object) (hne : k2 ≠ k1) :
    (m.set k1 resources).get k2 = m.get k2 := by
  have hbeq : (k2 == k1) = false := by simpa using hne
  unfold ResourceMap.set ResourceMap.get
  rw [List.lookup_cons, hbeq, lookup_filter_ne m k1 k2 hne]

theorem getDeployedResources_secret_list (reader : DeployedReader) (OcpVersion : String)
    (inst : KieApp) (resourceMap : ResourceMap) (err : Option Error) (calls : List StoreCall)
    (h : getDeployedResources reader OcpVersion inst = some ((resourceMap, err), calls)) :
    resourceMap.get "Secret" = [] ∨
    ∃ (listed : ResourceMap) (dcs : List DeploymentConfig),
      reader.ListAll inst = .ok listed ∧
      listed.get "DeploymentConfig" = dcs.map Object.deploymentConfig ∧
      (∀ dc ∈ dcs, dc.Spec.Template ≠ none) ∧
      (∀ name ∈ secretVolumeNames dcs, readFailure reader inst name = none) ∧
      resourceMap.get "Secret" = (secretVolumeNames dcs).filterMap (ownedSecret reader inst) := by
  unfold getDeployedResources at h
  rcases hl : reader.ListAll inst with e | listed
  · simp only [hl, Option.some.injEq, Prod.mk.injEq] at h
    left
    rw [← h.1.1]
    rfl
  · simp only [hl] at h
    rcases hs : loadSecrets reader inst (listed.get "DeploymentConfig") [] []
      with _ | ⟨e | secrets, calls1⟩
    · simp [hs] at h
    · simp only [hs, Option.some.injEq, Prod.mk.injEq] at h
      left
      rw [← h.1.1]
      rfl
    · simp only [hs] at h
      obtain ⟨dcs, hdcs, htemplates⟩ := loadSecrets_ok_wellformed _ _ _ _ _ _ _ hs
      rw [hdcs, loadSecrets_eq reader inst dcs htemplates] at hs
      simp only [Option.some.injEq] at hs
      obtain ⟨hsec, _, hfail⟩ := collectOwned_ok _ _ _ _ _ _ _ hs
      simp only [List.nil_append] at hsec
      right
      refine ⟨listed, dcs, rfl, hdcs, htemplates, hfail, ?_⟩
      have hget : resourceMap.get "Secret" = secrets := by
        split at h
        · split at h
          · split at h
            · simp only [Option.some.injEq, Prod.mk.injEq] at h
              rw [← h.1.1, ResourceMap.get_set_self]
            · simp only [Option.some.injEq, Prod.mk.injEq] at h
              rw [← h.1.1, ResourceMap.get_set_self]
          · simp only [Option.some.injEq, Prod.mk.injEq] at h
            rw [← h.1.1, ResourceMap.get_set_of_ne _ _ _ _ (by decide),
              ResourceMap.get_set_self]
        · simp only [Option.some.injEq, Prod.mk.injEq] at h
          rw [← h.1.1, ResourceMap.get_set_self]
      rw [hget, hsec]

theorem mem_secretVolumeNames (dcs : List DeploymentConfig) (name : String)
    (h : name ∈ secretVolumeNames dcs) :
    ∃ dc template volume source,
      dc ∈ dcs ∧ dc.Spec.Template = some template ∧ volume ∈ template.Spec.Volumes ∧
      volume.Secret = some source ∧ source.SecretName = name := by
  simp only [secretVolumeNames, List.mem_flatMap] at h
  obtain ⟨dc, hdc, hname⟩ := h
  rcases ht : dc.Spec.Template with _ | template
  · simp [ht] at hname
  · simp only [ht, secretNamesOf, List.mem_filterMap] at hname
    obtain ⟨volume, hvol, hsrc⟩ := hname
    rcases hs : volume.Secret with _ | source
    · simp [hs] at hsrc
    · simp only [hs, Option.map_some', Option.some.injEq] at hsrc
      exact ⟨dc, template, volume, source, hdc, ht, hvol, hs, hsrc⟩

theorem ownedSecret_eq_some (reader : DeployedReader) (inst : KieApp) (name : String)
    (obj : Object) (h : ownedSecret reader inst name = some obj) :
    ∃ secret, obj = Object.secret secret ∧
      reader.GetSecret name inst.Namespace = .ok secret ∧
      ∃ ownerRef ∈ secret.OwnerReferences, ownerRef.UID = inst.UID := by
  unfold ownedSecret at h
  rcases hg : reader.GetSecret name inst.Namespace with err | secret
  · simp [hg] at h
  · simp only [hg] at h
    by_cases hown : ownedBy inst secret = true
    · simp only [hown, if_true, Option.some.injEq] at h
      refine ⟨secret, h.symm, rfl, ?_⟩
      unfold ownedBy at hown
      simpa using hown
    · simp [hown] at h

/-- C18: every secret of the set returned by `getDeployedResources` was read from the
Store under the name of a secret-backed volume of a listed (owned) deployment config and
has an owner reference with the UID of the CR. When no read fails with an error other
than NotFound, the secrets returned are, in order of the volumes, those referenced
secrets that exist and are owned by the CR: a referenced secret that does not exist, or
has no owner reference with the UID of the CR, is left out and causes no error (the only
error possible is that of the console link read). A read of a referenced secret that
fails with an error other than NotFound ends the load: no further secret is read and the
function returns the nil map with that error. -/
theorem getDeployedResources_secrets (reader : DeployedReader) (OcpVersion : String)
    (inst : KieApp) :
    (∀ resourceMap err calls,
      getDeployedResources reader OcpVersion inst = some ((resourceMap, err), calls) →
      ∀ obj ∈ resourceMap.get "Secret",
        ∃ listed dc template volume source secret,
          reader.ListAll inst = .ok listed ∧
          Object.deploymentConfig dc ∈ listed.get "DeploymentConfig" ∧
          dc.Spec.Template = some template ∧ volume ∈ template.Spec.Volumes ∧
          volume.Secret = some source ∧
          reader.GetSecret source.SecretName inst.Namespace = .ok secret ∧
          obj = Object.secret secret ∧
          ∃ ownerRef ∈ secret.OwnerReferences, ownerRef.UID = inst.UID) ∧
    (∀ listed dcs,
      reader.ListAll inst = .ok listed →
      listed.get "DeploymentConfig" = dcs.map Object.deploymentConfig →
      (∀ dc ∈ dcs, dc.Spec.Template ≠ none) →
      ((∀ name ∈ secretVolumeNames dcs, readFailure reader inst name = none) →
        ∃ resourceMap err calls,
          getDeployedResources reader OcpVersion inst = some ((resourceMap, err), calls) ∧
          resourceMap.get "Secret"
            = (secretVolumeNames dcs).filterMap (ownedSecret reader inst) ∧
          (∀ e, err = some e →
            reader.GetConsoleLink (getConsoleLinkName inst) = .error e)) ∧
      (∀ before name after e,
        secretVolumeNames dcs = before ++ name :: after →
        (∀ n ∈ before, readFailure reader inst n = none) →
        readFailure reader inst name = some e →
        getDeployedResources reader OcpVersion inst
          = some (([], some e), secretReads inst (before ++ [name])))) ∧
    (∀ name,
      ((∃ e, reader.GetSecret name inst.Namespace = .error e ∧ e.IsNotFound = true) ∨
        (∃ secret, reader.GetSecret name inst.Namespace = .ok secret ∧
          ¬ ∃ ownerRef ∈ secret.OwnerReferences, ownerRef.UID = inst.UID)) →
      ownedSecret reader inst name = none ∧ readFailure reader inst name = none) := by
  refine ⟨?_, ?_, ?_⟩
  · intro resourceMap err calls h obj hobj
    rcases getDeployedResources_secret_list reader OcpVersion inst resourceMap err calls h with
      hnil | ⟨listed, dcs, hl, hdcs, _, _, hsec⟩
    · rw [hnil] at hobj
      cases hobj
    · rw [hsec, List.mem_filterMap] at hobj
      obtain ⟨name, hname, hown⟩ := hobj
      obtain ⟨secret, hobjeq, hget, howner⟩ := ownedSecret_eq_some reader inst name obj hown
      obtain ⟨dc, template, volume, source, hdc, ht, hvol, hsrc, hsn⟩ :=
        mem_secretVolumeNames dcs name hname
      refine ⟨listed, dc, template, volume, source, secret, hl, ?_, ht, hvol, hsrc, ?_,
        hobjeq, howner⟩
      · rw [hdcs]
        exact List.mem_map_of_mem _ hdc
      · rw [hsn]
        exact hget
  · intro listed dcs hl hdcs htemplates
    refine ⟨?_, ?_⟩
    · intro hok
      have hload := loadSecrets_eq reader inst dcs htemplates [] []
      rw [collectOwned_of_no_failure reader inst _ [] [] hok] at hload
      simp only [List.nil_append] at hload
      by_cases hver : reader.semverCompare OcpVersion "v4.2" ≥ 0 ∨ OcpVersion = ""
      · rcases hc : reader.GetConsoleLink (getConsoleLinkName inst) with e | consoleLink
        · by_cases hnf : e.IsNotFound = true
          · refine ⟨listed.set "Secret"
                ((secretVolumeNames dcs).filterMap (ownedSecret reader inst)), none,
              secretReads inst (secretVolumeNames dcs)
                ++ [StoreCall.Get "ConsoleLink" (getConsoleLinkName inst) ""],
              ?_, ResourceMap.get_set_self listed "Secret" _, ?_⟩
            · simp [getDeployedResources, hl, hdcs, hload, hver, hc, hnf]
            · intro e1 he1
              cases he1
          · refine ⟨listed.set "Secret"
                ((secretVolumeNames dcs).filterMap (ownedSecret reader inst)), some e,
              secretReads inst (secretVolumeNames dcs)
                ++ [StoreCall.Get "ConsoleLink" (getConsoleLinkName inst) ""],
              ?_, ResourceMap.get_set_self listed "Secret" _, ?_⟩
            · simp [getDeployedResources, hl, hdcs, hload, hver, hc, hnf]
            · intro e1 he1
              simp only [Option.some.injEq] at he1
              rw [← he1]
        · refine ⟨(listed.set "Secret"
                ((secretVolumeNames dcs).filterMap (ownedSecret reader inst))).set "ConsoleLink"
                [Object.generic "ConsoleLink" consoleLink], none,
              secretReads inst (secretVolumeNames dcs)
                ++ [StoreCall.Get "ConsoleLink" (getConsoleLinkName inst) ""],
              ?_, ?_, ?_⟩
          · simp [getDeployedResources, hl, hdcs, hload, hver, hc]
          · rw [ResourceMap.get_set_of_ne _ _ _ _ (by decide), ResourceMap.get_set_self]
          · intro e1 he1
            cases he1
      · refine ⟨listed.set "Secret"
            ((secretVolumeNames dcs).filterMap (ownedSecret reader inst)), none,
          secretReads inst (secretVolumeNames dcs),
          ?_, ResourceMap.get_set_self listed "Secret" _, ?_⟩
        · simp [getDeployedResources, hl, hdcs, hload, hver]
        · intro e1 he1
          cases he1
    · intro before name after e hnames hbefore hname
      have hload := loadSecrets_eq reader inst dcs htemplates [] []
      rw [hnames, collectOwned_of_failure reader inst before after name e [] [] hbefore hname]
        at hload
      simp only [List.nil_append] at hload
      simp [getDeployedResources, hl, hdcs, hload]
  · intro name h
    rcases h with ⟨e, hg, hnf⟩ | ⟨secret, hg, hno⟩
    · simp [ownedSecret, readFailure, hg, hnf]
    · have hown : ownedBy inst secret = false := by
        unfold ownedBy
        rw [Bool.eq_false_iff]
        intro hany
        apply hno
        simpa using hany
      simp [ownedSecret, readFailure, hg, hown]

theorem getDeployedResources_secrets_witness :
    getDeployedResources
        (sampleReader [sampleDCWithSecret "rhpam-rhpamcentr" "rhpam-businesscentral-app-secret",
                       sampleDCWithSecret "rhpam-kieserver" "rhpam-kieserver-app-secret"]
          [ownedKeystoreSecret])
        "" (sampleCR "rhpam" "changeit")
      = some (([("Secret", [Object.secret ownedKeystoreSecret]),
                ("DeploymentConfig",
                  [Object.deploymentConfig
                     (sampleDCWithSecret "rhpam-rhpamcentr" "rhpam-businesscentral-app-secret"),
                   Object.deploymentConfig
                     (sampleDCWithSecret "rhpam-kieserver" "rhpam-kieserver-app-secret")])],
               none),
              [StoreCall.Get "Secret" "rhpam-businesscentral-app-secret" "demo",
               StoreCall.Get "Secret" "rhpam-kieserver-app-secret" "demo",
               StoreCall.Get "ConsoleLink" "demo-link-rhpam-trial" ""]) ∧
    ownedSecret
        (sampleReader [sampleDCWithSecret "rhpam-rhpamcentr" "rhpam-businesscentral-app-secret",
                       sampleDCWithSecret "rhpam-kieserver" "rhpam-kieserver-app-secret"]
          [ownedKeystoreSecret])
        (sampleCR "rhpam" "changeit") "rhpam-kieserver-app-secret" = none :=
  ⟨by decide,
   ((getDeployedResources_secrets
      (sampleReader [sampleDCWithSecret "rhpam-rhpamcentr" "rhpam-businesscentral-app-secret",
                     sampleDCWithSecret "rhpam-kieserver" "rhpam-kieserver-app-secret"]
        [ownedKeystoreSecret])
      "" (sampleCR "rhpam" "changeit")).2.2 "rhpam-kieserver-app-secret"
      (Or.inl ⟨_, rfl, rfl⟩)).1⟩

theorem ownedSecret_identities_sublist (reader : DeployedReader) (inst : KieApp)
    (hstore : ∀ name secret, reader.GetSecret name inst.Namespace = .ok secret →
      secret.Name = name ∧ secret.Namespace = inst.Namespace)
    (names : List String) :
    List.Sublist ((names.filterMap (ownedSecret reader inst)).map Object.identity)
      (names.map (fun name => (inst.Namespace, name))) := by
  induction names with
  | nil => simp
  | cons name rest ih =>
    rcases ho : ownedSecret reader inst name with _ | obj
    · simp only [List.filterMap_cons, ho, List.map_cons]
      exact List.Sublist.cons _ ih
    · obtain ⟨secret, hobj, hget, _⟩ := ownedSecret_eq_some reader inst name obj ho
      obtain ⟨hname, hns⟩ := hstore name secret hget
      have hid : obj.identity = (inst.Namespace, name) := by
        rw [hobj]
        simp [Object.identity, Object.objectMeta, hname, hns]
      simp only [List.filterMap_cons, ho, List.map_cons, hid]
      exact List.Sublist.cons₂ _ ih

/-- C19 (counterexample): two deployed deployment configs mount the same keystore secret,
which is owned by the CR; the Secret list returned by `getDeployedResources` holds the
secret twice, so two of its entries have the same namespace and name. -/
theorem getDeployedResources_duplicate_counterexample :
    (getDeployedResources
        (sampleReader [sampleDCWithSecret "rhpam-kieserver" "rhpam-businesscentral-app-secret",
                       sampleDCWithSecret "rhpam-kieserver-2" "rhpam-businesscentral-app-secret"]
          [ownedKeystoreSecret])
        "" (sampleCR "rhpam" "changeit")).map
        (fun result => (result.1.1.get "Secret").map Object.identity)
      = some [("demo", "rhpam-businesscentral-app-secret"),
              ("demo", "rhpam-businesscentral-app-secret")] ∧
    ¬ List.Nodup [("demo", "rhpam-businesscentral-app-secret"),
                  ("demo", "rhpam-businesscentral-app-secret")] := by
  refine ⟨by decide, by decide⟩

/-- C19 (amended): when the secret-backed volumes of the deployed deployment configs name
pairwise different secrets, and the Store answers the read of a secret with the secret of
that name in that namespace, no two entries of the Secret list returned by
`getDeployedResources` have the same namespace and name. -/
theorem getDeployedResources_secrets_unique (reader : DeployedReader) (OcpVersion : String)
    (inst : KieApp) (listed : ResourceMap) (dcs : List DeploymentConfig)
    (resourceMap : ResourceMap) (err : Option Error) (calls : List StoreCall)
    (hlist : reader.ListAll inst = .ok listed)
    (hdcs : listed.get "DeploymentConfig" = dcs.map Object.deploymentConfig)
    (hres : getDeployedResources reader OcpVersion inst = some ((resourceMap, err), calls))
    (hnames : (secretVolumeNames dcs).Nodup)
    (hstore : ∀ name secret, reader.GetSecret name inst.Namespace = .ok secret →
      secret.Name = name ∧ secret.Namespace = inst.Namespace) :
    ((resourceMap.get "Secret").map Object.identity).Nodup := by
  rcases getDeployedResources_secret_list reader OcpVersion inst resourceMap err calls hres with
    hnil | ⟨listed1, dcs1, hl1, hdcs1, _, _, hsec⟩
  · rw [hnil]
    exact List.nodup_nil
  · rw [hlist] at hl1
    simp only [Except.ok.injEq] at hl1
    subst hl1
    rw [hdcs] at hdcs1
    have hinj : Function.Injective Object.deploymentConfig := by
      intro a b hab
      cases hab
      rfl
    have hsame : dcs = dcs1 := List.map_injective_iff.2 hinj hdcs1
    subst hsame
    rw [hsec]
    refine List.Nodup.sublist (ownedSecret_identities_sublist reader inst hstore _) ?_
    refine List.Nodup.map ?_ hnames
    intro a b hab
    exact (Prod.mk.inj hab).2

theorem getDeployedResources_secrets_unique_witness :
    ((ResourceMap.get
        [("Secret", [Object.secret ownedKeystoreSecret]),
         ("DeploymentConfig",
           [Object.deploymentConfig
              (sampleDCWithSecret "rhpam-rhpamcentr" "rhpam-businesscentral-app-secret"),
            Object.deploymentConfig
              (sampleDCWithSecret "rhpam-kieserver" "rhpam-kieserver-app-secret")])]
        "Secret").map Object.identity).Nodup :=
  getDeployedResources_secrets_unique
    (sampleReader [sampleDCWithSecret "rhpam-rhpamcentr" "rhpam-businesscentral-app-secret",
                   sampleDCWithSecret "rhpam-kieserver" "rhpam-kieserver-app-secret"]
      [ownedKeystoreSecret])
    "" (sampleCR "rhpam" "changeit")
    [("DeploymentConfig",
      [Object.deploymentConfig
         (sampleDCWithSecret "rhpam-rhpamcentr" "rhpam-businesscentral-app-secret"),
       Object.deploymentConfig
         (sampleDCWithSecret "rhpam-kieserver" "rhpam-kieserver-app-secret")])]
    [sampleDCWithSecret "rhpam-rhpamcentr" "rhpam-businesscentral-app-secret",
     sampleDCWithSecret "rhpam-kieserver" "rhpam-kieserver-app-secret"]
    _ none
    [StoreCall.Get "Secret" "rhpam-businesscentral-app-secret" "demo",
     StoreCall.Get "Secret" "rhpam-kieserver-app-secret" "demo",
     StoreCall.Get "ConsoleLink" "demo-link-rhpam-trial" ""]
    rfl rfl (by decide) (by decide)
    (by
      intro name secret h
      unfold sampleReader getSecretFrom at h
      simp only at h
      split at h
      · rename_i found hfind
        simp only [Except.ok.injEq] at h
        subst h
        have := List.find?_some hfind
        simpa using this
      · cases h)

/-! ## Truststore theorems -/

theorem IsValidTruststoreSecret_zeroSecret (consts : Constants) (truststores : Truststores)
    (caBundle : Bytes) :
    IsValidTruststoreSecret consts truststores zeroSecret caBundle = false := by
  simp [IsValidTruststoreSecret, zeroSecret, GoMap.getBytes]

theorem generateTruststoreSecret_absent (getSecret : String → String → Except Error Secret)
    (consts : Constants) (truststores : Truststores) (secretName : String) (cr : KieApp)
    (caConfigMap : ConfigMap)
    (h : ¬ (caConfigMap.Data.length > 0 ∧ caConfigMap.Data.get consts.CaBundleKey ≠ "")) :
    generateTruststoreSecret getSecret consts truststores secretName cr caConfigMap
      = ((zeroSecret, none), []) := by
  unfold generateTruststoreSecret
  rw [if_neg h]

theorem generateTruststoreSecret_calls (getSecret : String → String → Except Error Secret)
    (consts : Constants) (truststores : Truststores) (secretName : String) (cr : KieApp)
    (caConfigMap : ConfigMap)
    (h : caConfigMap.Data.length > 0 ∧ caConfigMap.Data.get consts.CaBundleKey ≠ "") :
    (generateTruststoreSecret getSecret consts truststores secretName cr caConfigMap).2
      = [StoreCall.Get "Secret" secretName cr.Namespace] := by
  unfold generateTruststoreSecret
  rw [if_pos h]
  simp only
  split
  · rfl
  · split
    · rfl
    · split <;> rfl

theorem generateTruststoreSecret_of_existing (getSecret : String → String → Except Error Secret)
    (consts : Constants) (truststores : Truststores) (secretName : String) (cr : KieApp)
    (caConfigMap : ConfigMap) (existing : Secret)
    (h : caConfigMap.Data.length > 0 ∧ caConfigMap.Data.get consts.CaBundleKey ≠ "")
    (hread : getSecret secretName cr.Namespace = .ok existing ∨
      (existing = zeroSecret ∧
        ∃ err, getSecret secretName cr.Namespace = .error err ∧ err.IsNotFound = true)) :
    (generateTruststoreSecret getSecret consts truststores secretName cr caConfigMap).1
      = if IsValidTruststoreSecret consts truststores existing
            (stringBytes (caConfigMap.Data.get consts.CaBundleKey)) then
          (existing, none)
        else
          match truststores.GenerateTruststore
              (stringBytes (caConfigMap.Data.get consts.CaBundleKey)) with
          | .error genErr => (zeroSecret, some genErr)
          | .ok truststoreByte =>
            ({ zeroSecret with
                Kind := "Secret", APIVersion := "v1", Name := secretName,
                Labels := [("app", cr.Status.Applied.CommonConfig.ApplicationName),
                           ("application", cr.Status.Applied.CommonConfig.ApplicationName)],
                Type_ := "Opaque", Data := [(consts.TruststoreName, truststoreByte)] }, none) := by
  rcases hread with hok | ⟨rfl, err, herr, hnf⟩
  · unfold generateTruststoreSecret
    rw [if_pos h, hok]
    simp only [Bool.false_eq_true, if_false]
    split
    · rfl
    · split <;> rfl
  · unfold generateTruststoreSecret
    rw [if_pos h, herr]
    simp only [hnf, Bool.not_true, Bool.false_eq_true, if_false]
    split
    · rfl
    · split <;> rfl

theorem provisionTruststore_of_not_ocpCA (pr : Provisioner) (cr : KieApp) (env : Environment)
    (caConfigMap : ConfigMap) (calls : List StoreCall) (h : pr.defaults.IsOcpCA cr = false) :
    provisionTruststore pr cr env caConfigMap calls = some (.ok env, cr, calls) := by
  unfold provisionTruststore
  simp [h]

/-- C12 (counterexample): the CA bundle of the config map is not empty and holds no
certificate, and no truststore secret exists. `generateTruststoreSecret` reads the Store,
finds no valid truststore, fails to generate one and returns the empty secret with the
generation error: neither the existing secret nor a new secret named `secretName`. Also,
for a CR that uses the platform CA and an empty config map, the environment returned by
`setEnvironmentProperties` has the empty secret among the secrets of `env.Others[0]`. -/
theorem generateTruststoreSecret_generation_error_counterexample :
    ((sampleCAConfigMap "not a certificate").Data.length > 0 ∧
      (sampleCAConfigMap "not a certificate").Data.get sampleConsts.CaBundleKey ≠ "") ∧
    generateTruststoreSecret (getSecretFrom []) sampleConsts sampleTruststores
        "rhpam-truststore" (sampleCR "rhpam" "changeit") (sampleCAConfigMap "not a certificate")
      = ((zeroSecret, some ⟨"", "no certificate in the CA bundle"⟩),
         [StoreCall.Get "Secret" "rhpam-truststore" "demo"]) ∧
    (generateTruststoreSecret (getSecretFrom []) sampleConsts sampleTruststores
        "rhpam-truststore" (sampleCR "rhpam" "changeit")
        (sampleCAConfigMap "not a certificate")).1.1.Name ≠ "rhpam-truststore" ∧
    (setEnvironmentProperties (sampleProvisioner [] true) sampleServerCR (serversEnv []) []
        zeroConfigMap).map (fun result => (result.1.1.Others.map (fun o => o.Secrets), result.2.2))
      = some ([[zeroSecret]], []) :=
  ⟨by decide, by decide, by decide, by decide⟩

/-- C12 (amended): with an absent or empty CA bundle `generateTruststoreSecret` performs
no Store read and returns the empty secret without error. With a non-empty CA bundle it
reads the secret once; a read error other than NotFound is returned as the error;
otherwise the existing secret (the empty secret when none exists, which is never valid)
is returned unchanged when it validates against the bytes of the CA bundle, and when it
does not, the function returns, if truststore generation succeeds, a new Opaque secret
named `secretName`, labelled app/application with the application name, whose data holds
exactly the generated truststore, and, if truststore generation fails, the empty secret
and the generation error. `setEnvironmentProperties` calls it only for a CR that uses the
platform CA: for another CR the truststore part leaves the environment as it is, makes no
Store call, and the config map plays no role; for a CR that uses the platform CA and a
non-empty CA bundle, a secret returned without error is appended to the secrets of
`env.Others[0]`. -/
theorem generateTruststoreSecret_outcome (getSecret : String → String → Except Error Secret)
    (consts : Constants) (truststores : Truststores) (secretName : String) (cr : KieApp)
    (caConfigMap : ConfigMap) :
    (¬ (caConfigMap.Data.length > 0 ∧ caConfigMap.Data.get consts.CaBundleKey ≠ "") →
      generateTruststoreSecret getSecret consts truststores secretName cr caConfigMap
        = ((zeroSecret, none), [])) ∧
    ((caConfigMap.Data.length > 0 ∧ caConfigMap.Data.get consts.CaBundleKey ≠ "") →
      (generateTruststoreSecret getSecret consts truststores secretName cr caConfigMap).2
        = [StoreCall.Get "Secret" secretName cr.Namespace] ∧
      (∀ err, getSecret secretName cr.Namespace = .error err → err.IsNotFound = false →
        (generateTruststoreSecret getSecret consts truststores secretName cr caConfigMap).1
          = (zeroSecret, some err)) ∧
      (∀ existing,
        (getSecret secretName cr.Namespace = .ok existing ∨
          (existing = zeroSecret ∧
            ∃ err, getSecret secretName cr.Namespace = .error err ∧ err.IsNotFound = true)) →
        (IsValidTruststoreSecret consts truststores existing
            (stringBytes (caConfigMap.Data.get consts.CaBundleKey)) = true →
          (generateTruststoreSecret getSecret consts truststores secretName cr caConfigMap).1
            = (existing, none)) ∧
        (IsValidTruststoreSecret consts truststores existing
            (stringBytes (caConfigMap.Data.get consts.CaBundleKey)) = false →
          (∀ truststoreByte,
            truststores.GenerateTruststore
                (stringBytes (caConfigMap.Data.get consts.CaBundleKey)) = .ok truststoreByte →
            (generateTruststoreSecret getSecret consts truststores secretName cr caConfigMap).1.2
              = none ∧
            (generateTruststoreSecret getSecret consts truststores secretName cr
              caConfigMap).1.1.Kind = "Secret" ∧
            (generateTruststoreSecret getSecret consts truststores secretName cr
              caConfigMap).1.1.Type_ = "Opaque" ∧
            (generateTruststoreSecret getSecret consts truststores secretName cr
              caConfigMap).1.1.Name = secretName ∧
            (generateTruststoreSecret getSecret consts truststores secretName cr
              caConfigMap).1.1.Labels
              = [("app", cr.Status.Applied.CommonConfig.ApplicationName),
                 ("application", cr.Status.Applied.CommonConfig.ApplicationName)] ∧
            (generateTruststoreSecret getSecret consts truststores secretName cr
              caConfigMap).1.1.Data = [(consts.TruststoreName, truststoreByte)]) ∧
          (∀ genErr,
            truststores.GenerateTruststore
                (stringBytes (caConfigMap.Data.get consts.CaBundleKey)) = .error genErr →
            (generateTruststoreSecret getSecret consts truststores secretName cr caConfigMap).1
              = (zeroSecret, some genErr))))) ∧
    (∀ caBundle, IsValidTruststoreSecret consts truststores zeroSecret caBundle = false) ∧
    (∀ (pr : Provisioner) (env : Environment) (routes : List Object) (calls : List StoreCall),
      pr.defaults.IsOcpCA cr = false →
      provisionTruststore pr cr env caConfigMap calls = some (.ok env, cr, calls) ∧
      ∀ other : ConfigMap,
        setEnvironmentProperties pr cr env routes caConfigMap
          = setEnvironmentProperties pr cr env routes other) ∧
    (∀ (pr : Provisioner) (env : Environment) (calls : List StoreCall) (secret : Secret)
        (first : CustomObject) (rest : List CustomObject),
      pr.defaults.IsOcpCA cr = true →
      (caConfigMap.Data.length > 0 ∧ caConfigMap.Data.get pr.consts.CaBundleKey ≠ "") →
      (generateTruststoreSecret pr.getSecret pr.consts pr.truststores
          (cr.Status.Applied.CommonConfig.ApplicationName ++ pr.consts.TruststoreSecret)
          cr caConfigMap).1 = (secret, none) →
      env.Others = first :: rest →
      provisionTruststore pr cr env caConfigMap calls
        = some (.ok { env with
              Others := { first with Secrets := first.Secrets ++ [secret] } :: rest },
            cr, calls ++ [StoreCall.Get "Secret"
              (cr.Status.Applied.CommonConfig.ApplicationName ++ pr.consts.TruststoreSecret)
              cr.Namespace])) := by
  refine ⟨generateTruststoreSecret_absent getSecret consts truststores secretName cr caConfigMap,
    ?_, IsValidTruststoreSecret_zeroSecret consts truststores, ?_, ?_⟩
  · intro h
    refine ⟨generateTruststoreSecret_calls getSecret consts truststores secretName cr
      caConfigMap h, ?_, ?_⟩
    · intro err herr hnf
      unfold generateTruststoreSecret
      rw [if_pos h, herr]
      simp [hnf]
    · intro existing hread
      rw [generateTruststoreSecret_of_existing getSecret consts truststores secretName cr
        caConfigMap existing h hread]
      refine ⟨fun hv => by rw [if_pos hv], fun hv => ⟨?_, ?_⟩⟩
      · intro truststoreByte hgen
        rw [hv, hgen]
        simp [zeroSecret]
      · intro genErr hgen
        rw [hv, hgen]
        simp
  · intro pr env routes calls hca
    refine ⟨provisionTruststore_of_not_ocpCA pr cr env caConfigMap calls hca, ?_⟩
    intro other
    unfold setEnvironmentProperties provisionCredentials
    rw [provisionTruststore_of_not_ocpCA pr cr env caConfigMap [] hca,
      provisionTruststore_of_not_ocpCA pr cr env other [] hca]
  · intro pr env calls secret first rest hca h hres hothers
    have hcalls := generateTruststoreSecret_calls pr.getSecret pr.consts pr.truststores
      (cr.Status.Applied.CommonConfig.ApplicationName ++ pr.consts.TruststoreSecret)
      cr caConfigMap h
    unfold provisionTruststore
    rw [if_pos hca]
    rcases hg : generateTruststoreSecret pr.getSecret pr.consts pr.truststores
      (cr.Status.Applied.CommonConfig.ApplicationName ++ pr.consts.TruststoreSecret)
      cr caConfigMap with ⟨⟨s, e⟩, more⟩
    rw [hg] at hres hcalls
    simp only [Prod.mk.injEq] at hres
    obtain ⟨rfl, rfl⟩ := hres
    simp only at hcalls
    subst hcalls
    simp only [hothers]

theorem generateTruststoreSecret_outcome_witness :
    (generateTruststoreSecret
        (getSecretFrom [{ sampleTruststoreSecret "-----BEGIN CERTIFICATE-----" with
                          Namespace := "demo" }])
        sampleConsts sampleTruststores "rhpam-truststore" (sampleCR "rhpam" "changeit")
        (sampleCAConfigMap "-----BEGIN CERTIFICATE-----")).1
      = ({ sampleTruststoreSecret "-----BEGIN CERTIFICATE-----" with Namespace := "demo" },
         none) :=
  (((generateTruststoreSecret_outcome
      (getSecretFrom [{ sampleTruststoreSecret "-----BEGIN CERTIFICATE-----" with
                        Namespace := "demo" }])
      sampleConsts sampleTruststores "rhpam-truststore" (sampleCR "rhpam" "changeit")
      (sampleCAConfigMap "-----BEGIN CERTIFICATE-----")).2.1 (by decide)).2.2
    { sampleTruststoreSecret "-----BEGIN CERTIFICATE-----" with Namespace := "demo" }
    (Or.inl rfl)).1 (by decide)

/-! ## Server credential theorems -/

/-- C11 (evaluation at the failing input): the environment has an omitted server followed
by a server that is not omitted, the server sets name no keystore secret and SSL is not
disabled. `setEnvironmentProperties` returns the environment as it received it and reads
nothing from the Store: the second server has no hostname configured and no keystore
secret. With the same two servers in the other order, the server that is not omitted has
its hostname configured and gets the keystore secret generated for its CN. In general the
loop over the servers stops at the first omitted server and leaves it and the servers
after it as they are. -/
theorem setEnvironmentProperties_stops_at_omitted_server :
    setEnvironmentProperties (sampleProvisioner [] false) sampleServerCR
        (serversEnv [omittedServer, presentServer]) [] zeroConfigMap
      = some ((serversEnv [omittedServer, presentServer], none), sampleServerCR, []) ∧
    setEnvironmentProperties (sampleProvisioner [] false) sampleServerCR
        (serversEnv [presentServer, omittedServer]) [] zeroConfigMap
      = some ((serversEnv
                [{ presentServer with
                   ConfigMaps := [sampleCM [] [("HOSTNAME_HTTPS", "rhpam")]],
                   Secrets := [{ zeroSecret with
                     Kind := "Secret", APIVersion := "v1",
                     Name := "rhpam-kieserver-0-app-secret",
                     Labels := [("app", "rhpam"), ("application", "rhpam")],
                     Type_ := "Opaque",
                     Data := [("keystore.jks",
                       stringBytes "changeit" ++ [0] ++ stringBytes "rhpam")] }] },
                 omittedServer], none),
              sampleServerCR,
              [StoreCall.Get "Secret" "rhpam-kieserver-0-app-secret" "demo"]) ∧
    (∀ (pr : Provisioner) (cr : KieApp) (routes : List Object) (i : Nat)
        (server : CustomObject) (rest : List CustomObject) (calls : List StoreCall),
      server.Omit = true →
      provisionServersFrom pr cr routes i (server :: rest) calls
        = some (.ok (server :: rest), calls)) := by
  refine ⟨by decide, by decide, ?_⟩
  intro pr cr routes i server rest calls h
  simp [provisionServersFrom, h]

/-! ## External reference theorems -/

theorem verifyAgainst_allowedObjects (getObject : String → String → String → Option Error)
    (ns : String) (ref : ObjRef) :
    verifyAgainst getObject ns ref allowedObjects
      = if ref.Kind ∈ ["ConfigMap", "Secret", "PersistentVolumeClaim"] then
          (getObject ref.Kind ref.Name ns, [StoreCall.Get ref.Kind ref.Name ns])
        else (some ⟨"", "unsupported Kind: " ++ ref.Kind⟩, []) := by
  unfold allowedObjects
  by_cases h1 : ref.Kind = "ConfigMap"
  · simp [verifyAgainst, h1]
  · by_cases h2 : ref.Kind = "Secret"
    · simp [verifyAgainst, h2]
    · by_cases h3 : ref.Kind = "PersistentVolumeClaim"
      · simp [verifyAgainst, h3]
      · simp [verifyAgainst, h1, h2, h3]

theorem verifyExternalReference_eq_none_iff
    (getObject : String → String → String → Option Error) (ns : String) (ref : Option ObjRef) :
    (verifyExternalReference getObject ns ref).1 = none ↔ Resolvable getObject ns ref := by
  cases ref with
  | none => simp [verifyExternalReference, Resolvable]
  | some r =>
    simp only [verifyExternalReference, verifyAgainst_allowedObjects, Resolvable,
      Option.some.injEq, forall_eq']
    by_cases h : r.Kind ∈ ["ConfigMap", "Secret", "PersistentVolumeClaim"]
    · simp [h]
    · simp [h]

theorem verifyExternalReferences_eq (getObject : String → String → String → Option Error)
    (cr : KieApp) :
    verifyExternalReferences getObject cr
      = match (verifyExternalReference getObject cr.Namespace (roleMapperRef cr)).1 with
        | some _ => verifyExternalReference getObject cr.Namespace (roleMapperRef cr)
        | none =>
          ((verifyExternalReference getObject cr.Namespace (gitHooksRef cr)).1,
           (verifyExternalReference getObject cr.Namespace (roleMapperRef cr)).2
             ++ (verifyExternalReference getObject cr.Namespace (gitHooksRef cr)).2) := by
  have hfirst : (match cr.Status.Applied.Auth with
      | none => ((none, []) : Option Error × List StoreCall)
      | some auth =>
        match auth.RoleMapper with
        | none => (none, [])
        | some roleMapper => verifyExternalReference getObject cr.Namespace roleMapper.From)
      = verifyExternalReference getObject cr.Namespace (roleMapperRef cr) := by
    unfold roleMapperRef
    rcases cr.Status.Applied.Auth with _ | auth
    · rfl
    · rcases hrm : auth.RoleMapper with _ | roleMapper
      · simp [hrm, verifyExternalReference]
      · simp [hrm]
  unfold verifyExternalReferences
  rw [hfirst]
  rcases hv : verifyExternalReference getObject cr.Namespace (roleMapperRef cr) with ⟨err, calls⟩
  unfold gitHooksRef
  rcases cr.Status.Applied.Objects.Console with _ | console
  · cases err <;> simp [verifyExternalReference]
  · rcases hg : console.GitHooks with _ | gitHooks
    · cases err <;> simp [hg, verifyExternalReference]
    · cases err <;> simp [hg]

/-- C21: `verifyExternalReferences` returns nil exactly when the role mapper reference and
the git hooks reference of the console (when a console is configured) are each absent or
name one of the kinds ConfigMap, Secret and PersistentVolumeClaim and the Store fetches
an object of that kind by the name of the reference in the namespace of the CR. A
reference of another kind yields the error "unsupported Kind: <kind>" without a Store
read, a reference of an allowed kind yields the result of the one read of it, an absent
reference yields nil without a read. An error of the role mapper reference is the result
and the git hooks reference is then not checked; otherwise the result is that of the git
hooks reference, after the reads of both. -/
theorem verifyExternalReferences_spec (getObject : String → String → String → Option Error)
    (cr : KieApp) :
    ((verifyExternalReferences getObject cr).1 = none ↔
      Resolvable getObject cr.Namespace (roleMapperRef cr) ∧
        Resolvable getObject cr.Namespace (gitHooksRef cr)) ∧
    (∀ (ns : String) (ref : ObjRef),
      ref.Kind ∉ ["ConfigMap", "Secret", "PersistentVolumeClaim"] →
      verifyExternalReference getObject ns (some ref)
        = (some ⟨"", "unsupported Kind: " ++ ref.Kind⟩, [])) ∧
    (∀ (ns : String) (ref : ObjRef),
      ref.Kind ∈ ["ConfigMap", "Secret", "PersistentVolumeClaim"] →
      verifyExternalReference getObject ns (some ref)
        = (getObject ref.Kind ref.Name ns, [StoreCall.Get ref.Kind ref.Name ns])) ∧
    (∀ ns : String, verifyExternalReference getObject ns none = (none, [])) ∧
    (∀ err : Error,
      (verifyExternalReference getObject cr.Namespace (roleMapperRef cr)).1 = some err →
      verifyExternalReferences getObject cr
        = verifyExternalReference getObject cr.Namespace (roleMapperRef cr)) ∧
    ((verifyExternalReference getObject cr.Namespace (roleMapperRef cr)).1 = none →
      verifyExternalReferences getObject cr
        = ((verifyExternalReference getObject cr.Namespace (gitHooksRef cr)).1,
           (verifyExternalReference getObject cr.Namespace (roleMapperRef cr)).2
             ++ (verifyExternalReference getObject cr.Namespace (gitHooksRef cr)).2)) := by
  refine ⟨?_, ?_, ?_, fun _ => rfl, ?_, ?_⟩
  · rw [verifyExternalReferences_eq, ← verifyExternalReference_eq_none_iff,
      ← verifyExternalReference_eq_none_iff]
    rcases h : (verifyExternalReference getObject cr.Namespace (roleMapperRef cr)).1 with
      _ | err
    · simp
    · simp [h]
  · intro ns ref h
    simp only [verifyExternalReference, verifyAgainst_allowedObjects]
    rw [if_neg h]
  · intro ns ref h
    simp only [verifyExternalReference, verifyAgainst_allowedObjects]
    rw [if_pos h]
  · intro err h
    rw [verifyExternalReferences_eq, h]
  · intro h
    rw [verifyExternalReferences_eq, h]

theorem verifyExternalReferences_spec_witness :
    verifyExternalReferences (getObjectFrom [("PersistentVolumeClaim", "hooks", "demo")])
        (sampleCRWithRefs (some ⟨"Service", "roles"⟩) (some ⟨"PersistentVolumeClaim", "hooks"⟩))
      = (some ⟨"", "unsupported Kind: Service"⟩, []) :=
  ((verifyExternalReferences_spec (getObjectFrom [("PersistentVolumeClaim", "hooks", "demo")])
      (sampleCRWithRefs (some ⟨"Service", "roles"⟩)
        (some ⟨"PersistentVolumeClaim", "hooks"⟩))).2.2.2.2.1
    ⟨"", "unsupported Kind: Service"⟩ (by decide)).trans
    ((verifyExternalReferences_spec (getObjectFrom [("PersistentVolumeClaim", "hooks", "demo")])
      (sampleCRWithRefs (some ⟨"Service", "roles"⟩)
        (some ⟨"PersistentVolumeClaim", "hooks"⟩))).2.1 "demo" ⟨"Service", "roles"⟩
      (by decide))

/-! ## Status comparison theorems -/

theorem serversDiffer_in_bounds (cachedServers : List KieServerSet) :
    ∀ (rest : List KieServerSet) (i : Nat), i + rest.length ≤ cachedServers.length →
      ∃ differ, serversDiffer cachedServers i rest = some differ := by
  intro rest
  induction rest with
  | nil => intro i _; exact ⟨false, rfl⟩
  | cons x xs ih =>
    intro i h
    simp only [List.length_cons] at h
    have hi : i < cachedServers.length := by omega
    obtain ⟨d, hd⟩ := ih (i + 1) (by omega)
    by_cases hx : x = cachedServers[i]
    · exact ⟨d, by simp [serversDiffer, List.getElem?_eq_getElem hi, hx, hd]⟩
    · exact ⟨true, by simp [serversDiffer, List.getElem?_eq_getElem hi, hx]⟩

/-- C22: `hasStatusChanges` returns (without an index out of range) the value of the
structural comparison of the two statuses: it is true exactly when `instance.Status` and
`cachedInstance.Status` are not structurally equal. When the statuses are equal, the
server lists have the same length and the loop over the servers finds no difference, so
the per-server comparison does not change the result; and whenever the server lists have
the same length, which the code tests before the loop, every index the loop uses is in
bounds of the cached server list. -/
theorem hasStatusChanges_refines_statusNotEqual (inst cachedInstance : KieApp) :
    hasStatusChanges inst cachedInstance = some (statusNotEqual inst cachedInstance) ∧
    (hasStatusChanges inst cachedInstance = some true ↔ inst.Status ≠ cachedInstance.Status) ∧
    (inst.Status = cachedInstance.Status →
      inst.Status.Applied.Objects.Servers.length
        = cachedInstance.Status.Applied.Objects.Servers.length ∧
      serversDiffer cachedInstance.Status.Applied.Objects.Servers 0
        inst.Status.Applied.Objects.Servers = some false) ∧
    (inst.Status.Applied.Objects.Servers.length
        = cachedInstance.Status.Applied.Objects.Servers.length →
      ∃ differ, serversDiffer cachedInstance.Status.Applied.Objects.Servers 0
        inst.Status.Applied.Objects.Servers = some differ) := by
  refine ⟨hasStatusChanges_eq inst cachedInstance, ?_, ?_, ?_⟩
  · rw [hasStatusChanges_eq]
    simp
  · intro h
    rw [h]
    exact ⟨rfl, serversDiffer_self_suffix cachedInstance.Status.Applied.Objects.Servers []
      cachedInstance.Status.Applied.Objects.Servers rfl⟩
  · intro h
    exact serversDiffer_in_bounds _ _ 0 (by omega)

theorem hasStatusChanges_refines_statusNotEqual_witness :
    serversDiffer sampleServerCR.Status.Applied.Objects.Servers 0
        sampleServerCR.Status.Applied.Objects.Servers = some false ∧
    hasStatusChanges sampleServerCR (sampleCR "rhpam" "changeit") = some true :=
  ⟨((hasStatusChanges_refines_statusNotEqual sampleServerCR sampleServerCR).2.2.1 rfl).2,
   (hasStatusChanges_refines_statusNotEqual sampleServerCR
      (sampleCR "rhpam" "changeit")).2.1.2 (by decide)⟩

/-! ## Comparator totality theorems -/

theorem maskTriggersIndexed_eq (triggers1 : List DeploymentTriggerPolicy) :
    ∀ (done triggers2 : List DeploymentTriggerPolicy),
      maskTriggersIndexed (done ++ triggers2) done.length triggers1
        = some (maskTriggers triggers1 triggers2) := by
  induction triggers1 with
  | nil => intro done triggers2; simp [maskTriggersIndexed, maskTriggers]
  | cons a rest ih =>
    intro done triggers2
    cases triggers2 with
    | nil => simp [maskTriggersIndexed, maskTriggers]
    | cons b bs =>
      have hget : (done ++ b :: bs)[done.length]? = some b := by
        rw [List.getElem?_append_right (Nat.le_refl _)]; simp
      have hnext := ih (done ++ [b]) bs
      simp only [List.length_append, List.length_singleton, List.append_assoc,
        List.singleton_append] at hnext
      have hlen : ¬ (done ++ b :: bs).length ≤ done.length := by
        simp only [List.length_append, List.length_cons]
        omega
      unfold maskTriggersIndexed
      rw [if_neg hlen, hget]
      simp only [hnext, maskTriggers]
      cases maskTriggers rest bs <;> rfl

/-- C23 (evaluation at the failing input): for a deployed BuildConfig with a source
strategy and a requested BuildConfig without one (a Docker strategy), the BuildConfig
comparator dereferences the absent strategy of the requested side and returns no boolean.
In general the comparator returns no boolean exactly when the deployed side has a source
strategy and the requested side has none. The trigger loop of the DeploymentConfig
comparator, with its indexing spelled out, never indexes the requested triggers out of
bounds. -/
theorem bcComparator_requested_without_source_strategy :
    bcComparator deepEquals (sampleBC "openshift" []) sampleDockerBC = none ∧
    bcComparator deepEquals sampleDockerBC (sampleBC "openshift" []) = some false ∧
    (∀ (defaultBCComparator : BuildConfig → BuildConfig → Bool)
        (deployed requested : BuildConfig),
      bcComparator defaultBCComparator deployed requested = none ↔
        deployed.Spec.Strategy.SourceStrategy ≠ none ∧
          requested.Spec.Strategy.SourceStrategy = none) ∧
    (∀ triggers1 triggers2 : List DeploymentTriggerPolicy,
      maskTriggersIndexed triggers2 0 triggers1 = some (maskTriggers triggers1 triggers2)) := by
  refine ⟨by decide, by decide, ?_, fun triggers1 triggers2 =>
    maskTriggersIndexed_eq triggers1 [] triggers2⟩
  intro d deployed requested
  unfold bcComparator
  rcases h1 : deployed.Spec.Strategy.SourceStrategy with _ | s1
  · simp
  · rcases h2 : requested.Spec.Strategy.SourceStrategy with _ | s2
    · simp [h2]
    · simp [h2]

end kieapp
